import Mathlib

/-!
# Thingpedia device upload: validation, schema synchronisation and the upload transaction

A shallow embedding of `routes/thingpedia_upload.js`.

* JavaScript exceptions are modelled with `Except UploadError`; every `throw` site of the
  source has its own constructor.
* JSON objects used as maps (`params`, `triggers`, `actions`, `queries`, the required
  channel maps of an interface) are association lists whose order is the `for ... in`
  iteration order.
* The operator `in` and a property read by a computed name also see the names a plain object
  inherits from `Object.prototype` (`jsIn`, `inheritedName`); `for ... in` visits own keys
  only.
* Promise chains are modelled sequentially: the database queries of one request are issued on
  one connection and settle in issue order, so `Q.all` rejects with the first failure in list
  order.
* The ThingTalk library (`Type.fromString`, `Type.typeUnify`), `JSON.parse`, the interface
  lookup, the example expander, the zip reader and the tier constants are external; they are
  parameters of the definitions below.
* The schema, example and device tables and `db.withTransaction` belong to modules whose
  source is not at hand (`model/schema.js`, `model/example.js`, `model/device.js`,
  `util/db.js`); they are modelled from the specification, each definition saying so.
* A descriptor is modelled with the shape the data model gives it: signatures, argument
  names and questions are lists of strings, `params` entries are arrays, names and URLs are
  strings. Text that `JSON.parse` does not turn into a value of this shape counts as
  rejected by the parser.
-/

namespace ThingpediaUpload

/-! ## Errors -/

/-- The three channel maps of a descriptor. -/
inductive ChannelKind
  | trigger
  | action
  | query
  deriving DecidableEq, Repr

/-- The word used for a channel kind in error messages. -/
def ChannelKind.word : ChannelKind → String
  | .trigger => "trigger"
  | .action => "action"
  | .query => "query"

/-- Every exception the upload route can raise, one constructor per `throw` site (or per
external call that can throw). -/
inductive UploadError
  /-- Line 169. -/
  | missingField
  /-- Line 171: `JSON.parse` failed. -/
  | malformedDescriptor (detail : String)
  /-- Line 181. -/
  | invalidAuthType
  /-- Line 183. -/
  | missingCredentialParams
  /-- Line 185. -/
  | conflictingTypeTags
  /-- Lines 195, 207, 219. -/
  | missingSchema (kind : ChannelKind) (name : String)
  /-- Lines 198, 210, 222. -/
  | invalidNumberOfArguments (name : String)
  /-- Lines 200, 212, 224. -/
  | invalidNumberOfQuestions (name : String)
  /-- A JavaScript `TypeError` raised by reading a property of `undefined`. -/
  | undefinedProperty (prop : String)
  /-- The call `ThingTalk.Type.fromString` rejected a type expression. -/
  | invalidTypeSyntax (detail : String)
  /-- Line 232. -/
  | missingName
  /-- Line 234. -/
  | missingDescription
  /-- Lines 237, 241, 245. -/
  | missingUrl (kind : ChannelKind) (name : String)
  /-- Line 249. -/
  | invalidZipFile
  /-- Line 136. -/
  | invalidDeviceType (type : String)
  /-- Lines 142, 148, 154. -/
  | typeRequires (type : String) (kind : ChannelKind) (name : String)
  /-- Lines 144, 150, 156. -/
  | schemaNotCompatible (name : String) (type : String)
  /-- Line 465. -/
  | notAuthorized
  /-- Line 485. -/
  | packageJsonMissing
  /-- Line 489. -/
  | invalidPackageJson
  /-- Line 330. -/
  | typeError
  /-- A database lookup that must return one row returned none (`getByKind`, `get`). -/
  | notFound (what : String)
  /-- Line 481: the uploaded buffer is not a readable zip archive. -/
  | invalidZip (detail : String)
  /-- Line 487: `JSON.parse` failed on the text of `package.json`. -/
  | malformedManifest (detail : String)
  deriving DecidableEq, Repr

/-- The message carried by the JavaScript error object. -/
def UploadError.message : UploadError → String
  | .missingField => "Not all required fields were presents"
  | .malformedDescriptor d => d
  | .invalidAuthType => "Invalid auth type"
  | .missingCredentialParams =>
      "Username and password must be provided for basic authentication"
  | .conflictingTypeTags => "Interface cannot be both marked online-account and data-source"
  | .missingSchema k n => "Missing " ++ k.word ++ " schema for " ++ n
  | .invalidNumberOfArguments n => "Invalid number of arguments in " ++ n
  | .invalidNumberOfQuestions n => "Invalid number of questions in " ++ n
  | .undefinedProperty p => "Cannot read property " ++ p ++ " of undefined"
  | .invalidTypeSyntax d => d
  | .missingName => "Missing name"
  | .missingDescription => "Missing description"
  | .missingUrl k n => "Missing " ++ k.word ++ " url for " ++ n
  | .invalidZipFile => "Invalid zip file"
  | .invalidDeviceType t => "Invalid device type " ++ t
  | .typeRequires t k n => "Type " ++ t ++ " requires " ++ k.word ++ " " ++ n
  | .schemaNotCompatible n t => "Schema for " ++ n ++ " is not compatible with type " ++ t
  | .notAuthorized => "Not Authorized"
  | .packageJsonMissing => "package.json missing from device zip file"
  | .invalidPackageJson => "Invalid package.json"
  | .typeError => "TypeError"
  | .notFound w => "Wrong number of rows returned for " ++ w
  | .invalidZip d => d
  | .malformedManifest d => d

/-! ## Type compatibility (`schemaCompatible`, lines 116-128) -/

/-- A call made to the external type library while a signature pair is checked. -/
inductive TypeCall (τ : Type)
  /-- The call `ThingTalk.Type.fromString(s)`; `none` is `undefined`. -/
  | parse (s : Option String)
  /-- The call `ThingTalk.Type.typeUnify(t1, t2)`. -/
  | unify (t1 t2 : τ)
  deriving DecidableEq, Repr

/-- Outcome of `schemaCompatible`: the calls made to the type library, in order, and the
value returned (`ok b`) or the exception raised (`error e`). -/
structure Run (τ : Type) where
  calls : List (TypeCall τ)
  result : Except UploadError Bool

/-- The callback loop `s2.every(function(t, i) ...)` of lines 118-127, from index `i` on.
Both `fromString` calls stand outside the `try`, so a parse error propagates; only a
`typeUnify` failure is caught and turned into `false`, which stops `every`. -/
def everyCompatible {τ : Type} (fromString : Option String → Except String τ)
    (typeUnify : τ → τ → Except String τ) (s1 : List String) :
    List String → Nat → Run τ
  | [], _ => ⟨[], .ok true⟩
  | t :: rest, i =>
    match fromString (some t) with
    | .error e => ⟨[.parse (some t)], .error (.invalidTypeSyntax e)⟩
    | .ok t1 =>
      match fromString s1[i]? with
      | .error e => ⟨[.parse (some t), .parse s1[i]?], .error (.invalidTypeSyntax e)⟩
      | .ok t2 =>
        match typeUnify t1 t2 with
        | .error _ => ⟨[.parse (some t), .parse s1[i]?, .unify t1 t2], .ok false⟩
        | .ok _ =>
          let r := everyCompatible fromString typeUnify s1 rest (i + 1)
          ⟨[.parse (some t), .parse s1[i]?, .unify t1 t2] ++ r.calls, r.result⟩

/-- The function `schemaCompatible(s1, s2)`: `s1` is the declared signature, `s2` the required
one. -/
def schemaCompatible {τ : Type} (fromString : Option String → Except String τ)
    (typeUnify : τ → τ → Except String τ) (s1 s2 : List String) : Run τ :=
  if s1.length ≥ s2.length then everyCompatible fromString typeUnify s1 s2 0
  else ⟨[], .ok false⟩

/-- Position `j` of the loop parses on both sides and unifies. -/
def PositionUnifies {τ : Type} (fromString : Option String → Except String τ)
    (typeUnify : τ → τ → Except String τ) (d r : List String) (j : Nat) : Prop :=
  ∃ y t1 t2 u, r[j]? = some y ∧ fromString (some y) = .ok t1 ∧ fromString d[j]? = .ok t2 ∧
    typeUnify t1 t2 = .ok u

/-- Position `i` holds a type expression the parser rejects, on the required or on the
declared side. -/
def PositionMalformed {τ : Type} (fromString : Option String → Except String τ)
    (d r : List String) (i : Nat) : Prop :=
  ∃ x, r[i]? = some x ∧
    ((∃ e, fromString (some x) = .error e) ∨ (∃ e, fromString d[i]? = .error e))

/-! ## Data model -/

/-- JavaScript truthiness of an optional string (a form field or a JSON string property):
`undefined` and the empty string are falsy. -/
def truthy : Option String → Bool
  | none => false
  | some s => decide (s ≠ "")

/-- The method `Array.prototype.indexOf` from position `i` on: the index of the first
occurrence, or `-1`. -/
def jsIndexOfFrom : List String → String → Nat → Int
  | [], _, _ => -1
  | y :: ys, x, i => if y = x then (i : Int) else jsIndexOfFrom ys x (i + 1)

/-- The method `Array.prototype.indexOf`. -/
def jsIndexOf (l : List String) (x : String) : Int := jsIndexOfFrom l x 0

/-- The method `String.prototype.startsWith`. -/
def jsStartsWith (s pre : String) : Bool := pre.toList.isPrefixOf s.toList

/-- The property names every plain object inherits from `Object.prototype`. -/
def objectPrototypeNames : List String :=
  ["constructor", "hasOwnProperty", "isPrototypeOf", "propertyIsEnumerable", "toLocaleString",
   "toString", "valueOf", "__defineGetter__", "__defineSetter__", "__lookupGetter__",
   "__lookupSetter__", "__proto__"]

/-- The name is inherited from `Object.prototype`. -/
def inheritedName (name : String) : Bool := objectPrototypeNames.contains name

/-- The operator `name in obj` on a plain object used as a map: it holds for the own keys and
for the names inherited from `Object.prototype`. -/
def jsIn {β : Type} (name : String) (obj : List (String × β)) : Bool :=
  (obj.lookup name).isSome || inheritedName name

/-- One channel (trigger, action or query) of a descriptor. Lists, when present, are truthy
in JavaScript even when empty. -/
structure Channel where
  schema : Option (List String) := none
  args : Option (List String) := none
  params : Option (List String) := none
  questions : Option (List String) := none
  url : Option String := none
  doc : Option String := none
  label : Option String := none
  confirmation : Option String := none
  canonical : Option String := none
  examples : Option (List String) := none
  deriving DecidableEq, Repr

/-- A channel map, in `for ... in` order; the keys of a JSON object are distinct. -/
abbrev ChannelMap := List (String × Channel)

/-- The `auth` object of a descriptor. -/
structure Auth where
  type : Option String := none
  deriving DecidableEq, Repr

/-- The descriptor (`ast`) as `JSON.parse` returns it: every property may be absent. A
`params` entry is an array such as `["Username", "text"]`, hence truthy when present. -/
structure Descriptor where
  name : Option String := none
  description : Option String := none
  globalName : Option String := none
  params : Option (List (String × List String)) := none
  types : Option (List String) := none
  child_types : Option (List String) := none
  auth : Option Auth := none
  triggers : Option ChannelMap := none
  actions : Option ChannelMap := none
  queries : Option ChannelMap := none
  deriving DecidableEq, Repr

/-- The uploaded file `req.file`. -/
structure UploadedFile where
  buffer : Option (List Nat) := none
  deriving DecidableEq, Repr

/-- The form fields `req.body`. -/
structure Body where
  name : Option String := none
  description : Option String := none
  code : Option String := none
  primary_kind : Option String := none
  fullcode : Option String := none
  approve : Option String := none
  deriving DecidableEq, Repr

/-- The requester `req.user`. -/
structure User where
  developer_org : Nat := 0
  developer_status : Nat := 0
  deriving DecidableEq, Repr

/-- The request. -/
structure Request where
  body : Body := {}
  file : Option UploadedFile := none
  user : User := {}
  deriving DecidableEq, Repr

/-- The required channel maps `rows[0].types` of an interface: `types[0]`, `types[1]` and the
optional `types[2]`. -/
structure InterfaceTypes where
  triggers : List (String × List String) := []
  actions : List (String × List String) := []
  queries : Option (List (String × List String)) := none
  deriving DecidableEq, Repr

/-- A row returned by `schema.getTypesByKinds`. -/
structure InterfaceRow where
  types : InterfaceTypes := {}
  deriving DecidableEq, Repr

/-! ## Interface validation (`validateSchema`, lines 130-159) -/

/-- A `for (var name in map)` loop whose body may throw: the first exception ends it. -/
def forEachEntry {β : Type} (f : String → β → Except UploadError Unit) :
    List (String × β) → Except UploadError Unit
  | [] => .ok ()
  | (name, v) :: rest =>
    match f name v with
    | .error e => .error e
    | .ok _ => forEachEntry f rest

/-- The body of one of the three loops of `validateSchema` (lines 141-144, 147-150,
153-156): the test `name in map`, then `schemaCompatible(map[name].schema, required)`. The
test also holds for a name inherited from `Object.prototype`; the value then read is a
function (or the prototype itself), whose `schema` is `undefined`, as is the `schema` of a
channel that declares none, and `s1.length` at line 117 raises a `TypeError`. -/
def requireChannel {τ : Type} (fromString : Option String → Except String τ)
    (typeUnify : τ → τ → Except String τ) (kind : ChannelKind) (type : String)
    (declared : ChannelMap) (name : String) (required : List String) :
    Except UploadError Unit :=
  if !jsIn name declared then .error (.typeRequires type kind name)
  else
    match (declared.lookup name).bind (fun ch => ch.schema) with
    | none => .error (.undefinedProperty "length")
    | some s =>
      match (schemaCompatible fromString typeUnify s required).result with
      | .error e => .error e
      | .ok true => .ok ()
      | .ok false => .error (.schemaNotCompatible name type)

/-- The function `validateSchema(dbClient, type, ast, allowFailure)`. -/
def validateSchema {τ : Type} (fromString : Option String → Except String τ)
    (typeUnify : τ → τ → Except String τ)
    (getTypesByKinds : List String → List InterfaceRow)
    (type : String) (ast : Descriptor) (allowFailure : Bool) : Except UploadError Unit :=
  match getTypesByKinds [type] with
  | [] => if allowFailure then .ok () else .error (.invalidDeviceType type)
  | row :: _ =>
    match forEachEntry
        (requireChannel fromString typeUnify .trigger type (ast.triggers.getD []))
        row.types.triggers with
    | .error e => .error e
    | .ok _ =>
      match forEachEntry
          (requireChannel fromString typeUnify .action type (ast.actions.getD []))
          row.types.actions with
      | .error e => .error e
      | .ok _ =>
        forEachEntry
          (requireChannel fromString typeUnify .query type (ast.queries.getD []))
          (row.types.queries.getD [])

/-! ## Descriptor validation (`validateDevice`, lines 161-257) -/

/-- The flag `fullcode` of line 166: `!req.body.fullcode`. -/
def fullcodeFlag (req : Request) : Bool := !truthy req.body.fullcode

/-- Lines 172-179 (step 3): defaults for `params`, `types`, `child_types` and `auth`. -/
def Descriptor.withDefaults (ast : Descriptor) : Descriptor :=
  { ast with
    params := some (ast.params.getD [])
    types := some (ast.types.getD [])
    child_types := some (ast.child_types.getD [])
    auth := some (ast.auth.getD { type := some "none" }) }

/-- The value `ast.auth.type`. -/
def Descriptor.authType (ast : Descriptor) : Option String :=
  match ast.auth with
  | none => none
  | some a => a.type

/-- Truthiness of `ast.params[key]`: entries are arrays, so an entry is truthy exactly when the
key is present. -/
def Descriptor.hasParam (ast : Descriptor) (key : String) : Bool :=
  ((ast.params.getD []).lookup key).isSome

/-- Lines 168-181 (steps 1-4): required form fields, `JSON.parse`, defaults, and the check of
the auth type. -/
def parseAndCheckAuth (jsonParse : String → Except String Descriptor) (req : Request) :
    Except UploadError Descriptor :=
  if !truthy req.body.name || !truthy req.body.description || !truthy req.body.code
      || !truthy req.body.primary_kind then
    .error .missingField
  else
    match jsonParse (req.body.code.getD "") with
    | .error e => .error (.malformedDescriptor e)
    | .ok parsed =>
      let ast := parsed.withDefaults
      if !truthy ast.authType
          || jsIndexOf ["none", "oauth2", "basic", "builtin"] (ast.authType.getD "") == -1 then
        .error .invalidAuthType
      else .ok ast

/-- Lines 182-183 (step 5). -/
def checkCredentials (fullcode : Bool) (ast : Descriptor) : Except UploadError Unit :=
  if fullcode && ast.authType == some "basic"
      && (!ast.hasParam "username" || !ast.hasParam "password") then
    .error .missingCredentialParams
  else .ok ()

/-- Lines 184-185 (step 6). -/
def checkTypeTags (ast : Descriptor) : Except UploadError Unit :=
  if jsIndexOf (ast.types.getD []) "online-account" ≥ 0
      && jsIndexOf (ast.types.getD []) "data-source" ≥ 0 then
    .error .conflictingTypeTags
  else .ok ()

/-- Truthiness of `x && x.length !== schema.length` for an optional list `x`. -/
def lengthDiffers (declared : Option (List String)) (schema : List String) : Bool :=
  match declared with
  | none => false
  | some l => l.length != schema.length

/-- The loop `schema.forEach(function(t) { ThingTalk.Type.fromString(t); })`. -/
def parseAll {τ : Type} (fromString : Option String → Except String τ) :
    List String → Except UploadError Unit
  | [] => .ok ()
  | t :: rest =>
    match fromString (some t) with
    | .error e => .error (.invalidTypeSyntax e)
    | .ok _ => parseAll fromString rest

/-- Body of the triggers loop, lines 194-203. The questions test of line 199 compares
`args.length` (not `questions.length`) with the signature length, and reads `args.length`
even when `args` is absent. -/
def checkTrigger {τ : Type} (fromString : Option String → Except String τ)
    (name : String) (ch : Channel) : Except UploadError Unit :=
  match ch.schema with
  | none => .error (.missingSchema .trigger name)
  | some schema =>
    if lengthDiffers ch.args schema || lengthDiffers ch.params schema then
      .error (.invalidNumberOfArguments name)
    else
      match ch.questions, ch.args with
      | none, _ => parseAll fromString schema
      | some _, none => .error (.undefinedProperty "length")
      | some _, some args =>
        if args.length != schema.length then .error (.invalidNumberOfQuestions name)
        else parseAll fromString schema

/-- Body of the actions loop (lines 206-215) and, with `kind := .query`, of the queries loop
(lines 218-227), which differ in the word of the first message only. -/
def checkActionOrQuery {τ : Type} (fromString : Option String → Except String τ)
    (kind : ChannelKind) (name : String) (ch : Channel) : Except UploadError Unit :=
  match ch.schema with
  | none => .error (.missingSchema kind name)
  | some schema =>
    if lengthDiffers ch.args schema || lengthDiffers ch.params schema then
      .error (.invalidNumberOfArguments name)
    else if lengthDiffers ch.questions schema then .error (.invalidNumberOfQuestions name)
    else parseAll fromString schema

/-- Body of the loop over the map of the given kind. -/
def checkChannel {τ : Type} (fromString : Option String → Except String τ)
    (kind : ChannelKind) (name : String) (ch : Channel) : Except UploadError Unit :=
  match kind with
  | .trigger => checkTrigger fromString name ch
  | .action => checkActionOrQuery fromString .action name ch
  | .query => checkActionOrQuery fromString .query name ch

/-- Lines 187-192: defaults for the three channel maps. -/
def Descriptor.withChannelDefaults (ast : Descriptor) : Descriptor :=
  { ast with
    triggers := some (ast.triggers.getD [])
    actions := some (ast.actions.getD [])
    queries := some (ast.queries.getD []) }

/-- Lines 187-228 (step 7): defaults for the three channel maps, then the three loops. -/
def checkChannels {τ : Type} (fromString : Option String → Except String τ)
    (ast0 : Descriptor) : Except UploadError Descriptor :=
  let ast := ast0.withChannelDefaults
  match forEachEntry (checkChannel fromString .trigger) (ast.triggers.getD []) with
  | .error e => .error e
  | .ok _ =>
    match forEachEntry (checkChannel fromString .action) (ast.actions.getD []) with
    | .error e => .error e
    | .ok _ =>
      match forEachEntry (checkChannel fromString .query) (ast.queries.getD []) with
      | .error e => .error e
      | .ok _ => .ok ast

/-- Body of the loops of lines 235-246. -/
def requireUrl (kind : ChannelKind) (name : String) (ch : Channel) : Except UploadError Unit :=
  if !truthy ch.url then .error (.missingUrl kind name) else .ok ()

/-- Lines 230-250 (steps 8 and 9). -/
def checkImplementation (req : Request) (ast : Descriptor) : Except UploadError Unit :=
  if fullcodeFlag req then
    if !truthy ast.name then .error .missingName
    else if !truthy ast.description then .error .missingDescription
    else
      match forEachEntry (requireUrl .trigger) (ast.triggers.getD []) with
      | .error e => .error e
      | .ok _ =>
        match forEachEntry (requireUrl .action) (ast.actions.getD []) with
        | .error e => .error e
        | .ok _ => forEachEntry (requireUrl .query) (ast.queries.getD [])
  else if !jsStartsWith (req.body.primary_kind.getD "") "org.thingpedia.builtin." then
    match req.file with
    | none => .error .invalidZipFile
    | some file =>
      match file.buffer with
      | none => .error .invalidZipFile
      | some buffer => if buffer.length == 0 then .error .invalidZipFile else .ok ()
  else .ok ()

/-- Lines 162-250 (steps 1-9): the synchronous part of `validateDevice`. -/
def validateLocal {τ : Type} (jsonParse : String → Except String Descriptor)
    (fromString : Option String → Except String τ) (req : Request) :
    Except UploadError Descriptor :=
  match parseAndCheckAuth jsonParse req with
  | .error e => .error e
  | .ok ast0 =>
    match checkCredentials (fullcodeFlag req) ast0 with
    | .error e => .error e
    | .ok _ =>
      match checkTypeTags ast0 with
      | .error e => .error e
      | .ok _ =>
        match checkChannels fromString ast0 with
        | .error e => .error e
        | .ok ast =>
          match checkImplementation req ast with
          | .error e => .error e
          | .ok _ => .ok ast

/-- Lines 252-256 (step 10): `validateSchema` for every claimed type, the lookup being allowed
to fail for the descriptor's own alias. The first rejection rejects the whole. -/
def checkInterfaces {τ : Type} (fromString : Option String → Except String τ)
    (typeUnify : τ → τ → Except String τ)
    (getTypesByKinds : List String → List InterfaceRow) (ast : Descriptor) :
    List String → Except UploadError Unit
  | [] => .ok ()
  | type :: rest =>
    match validateSchema fromString typeUnify getTypesByKinds type ast
        (decide (some type = ast.globalName)) with
    | .error e => .error e
    | .ok _ => checkInterfaces fromString typeUnify getTypesByKinds ast rest

/-- The function `validateDevice(dbClient, req)`: the descriptor with its defaults filled, or
the first error. -/
def validateDevice {τ : Type} (jsonParse : String → Except String Descriptor)
    (fromString : Option String → Except String τ) (typeUnify : τ → τ → Except String τ)
    (getTypesByKinds : List String → List InterfaceRow) (req : Request) :
    Except UploadError Descriptor :=
  match validateLocal jsonParse fromString req with
  | .error e => .error e
  | .ok ast =>
    match checkInterfaces fromString typeUnify getTypesByKinds ast (ast.types.getD []) with
    | .error e => .error e
    | .ok _ => .ok ast

/-! ## Schema synchronisation (`ensurePrimarySchema`, lines 259-313) -/

/-- The metadata object built for one channel at lines 270-276. -/
structure ChannelMeta where
  doc : Option String := none
  label : Option String := none
  canonical : Option String := none
  args : List String := []
  questions : List String := []
  deriving DecidableEq, Repr

/-- The array `types = [triggers, actions, queries]` of line 284: channel name to
signature. -/
structure SchemaTypes where
  triggers : List (String × Option (List String)) := []
  actions : List (String × Option (List String)) := []
  queries : List (String × Option (List String)) := []
  deriving DecidableEq, Repr

/-- The array `meta = [triggerMeta, actionMeta, queryMeta]` of line 285. -/
structure SchemaMeta where
  triggers : List (String × ChannelMeta) := []
  actions : List (String × ChannelMeta) := []
  queries : List (String × ChannelMeta) := []
  deriving DecidableEq, Repr

/-- The version fields passed to `schema.update` and `schema.create`. -/
structure SchemaVersions where
  developer_version : Nat
  approved_version : Nat
  deriving DecidableEq, Repr

/-- A schema record: kind identifier, the two version counters (the approved version may be
unset) and the channel and metadata maps. -/
structure SchemaRecord where
  id : Nat
  kind : String
  developer_version : Nat := 0
  approved_version : Option Nat := none
  types : SchemaTypes := {}
  metadata : SchemaMeta := {}
  deriving DecidableEq, Repr

/-- The schema table: its rows and the next primary key. -/
structure SchemaStore where
  records : List SchemaRecord := []
  nextId : Nat := 0
  deriving DecidableEq, Repr

/-- Modelled from the spec: `schema.getByKind` of `model/schema.js`, which is not part of the
sources at hand. Section 6: `getByKind(kind) -> SchemaRecord | not-found`; not-found rejects
the promise. -/
def SchemaStore.getByKind (store : SchemaStore) (kind : String) :
    Except UploadError SchemaRecord :=
  match store.records.find? (fun r => r.kind == kind) with
  | some r => .ok r
  | none => .error (.notFound kind)

/-- The row `r` with the versions and the maps of an update written into it. -/
def SchemaRecord.withUpdate (r : SchemaRecord) (versions : SchemaVersions)
    (types : SchemaTypes) (metadata : SchemaMeta) : SchemaRecord :=
  { r with
    developer_version := versions.developer_version
    approved_version := some versions.approved_version
    types := types
    metadata := metadata }

/-- Modelled from the spec: `schema.update` of `model/schema.js`, which is not part of the
sources at hand. Section 6: `update(id, versions, channelMaps, metadataMaps) -> record`; the
row with the given primary key gets the versions and the maps. -/
def SchemaStore.update (store : SchemaStore) (id : Nat) (versions : SchemaVersions)
    (types : SchemaTypes) (metadata : SchemaMeta) : SchemaStore :=
  { store with
    records := store.records.map (fun r =>
      if r.id = id then r.withUpdate versions types metadata else r) }

/-- Modelled from the spec: `schema.create` of `model/schema.js`, which is not part of the
sources at hand. Section 6: `create(kind, versions, channelMaps, metadataMaps) -> record`; a
row with a fresh primary key is added. -/
def SchemaStore.create (store : SchemaStore) (kind : String) (versions : SchemaVersions)
    (types : SchemaTypes) (metadata : SchemaMeta) : SchemaStore :=
  { records := store.records ++
      [{ id := store.nextId, kind := kind
         developer_version := versions.developer_version
         approved_version := some versions.approved_version
         types := types, metadata := metadata }]
    nextId := store.nextId + 1 }

/-- The value of `existing.approved_version + 1` in JavaScript: `null + 1` is `1`. -/
def approvedPlusOne : Option Nat → Nat
  | none => 1
  | some a => a + 1

/-- The metadata of one channel, lines 270-276: `label` is `confirmation || label`, `args` is
`params || args || []`, `questions` is `questions || []`. -/
def channelMeta (ch : Channel) : ChannelMeta :=
  { doc := ch.doc
    label := if truthy ch.confirmation then ch.confirmation else ch.label
    canonical := ch.canonical
    args := (ch.params.orElse (fun _ => ch.args)).getD []
    questions := ch.questions.getD [] }

/-- The first output of `handleOne` (line 269): channel name to signature. -/
def handleOneTypes (m : ChannelMap) : List (String × Option (List String)) :=
  m.map (fun e => (e.1, e.2.schema))

/-- The second output of `handleOne` (lines 270-276): channel name to metadata. -/
def handleOneMeta (m : ChannelMap) : List (String × ChannelMeta) :=
  m.map (fun e => (e.1, channelMeta e.2))

/-- The value `types` of line 284. -/
def schemaTypesOf (ast : Descriptor) : SchemaTypes :=
  { triggers := handleOneTypes (ast.triggers.getD [])
    actions := handleOneTypes (ast.actions.getD [])
    queries := handleOneTypes (ast.queries.getD []) }

/-- The value `meta` of line 285. -/
def schemaMetaOf (ast : Descriptor) : SchemaMeta :=
  { triggers := handleOneMeta (ast.triggers.getD [])
    actions := handleOneMeta (ast.actions.getD [])
    queries := handleOneMeta (ast.queries.getD []) }

/-- The promise chain `getByKind(kind).then(update).catch(create)` of lines 287-296, repeated
for the alias at lines 301-310: an existing record gets both counters raised by one and the
maps replaced; when the lookup rejects, a record with both counters at zero is created. (The
`catch` also covers a rejection of `update`, which this store never produces.) -/
def upsertSchema (store : SchemaStore) (kind : String) (types : SchemaTypes)
    (metadata : SchemaMeta) : SchemaStore :=
  match store.getByKind kind with
  | .ok existing =>
    store.update existing.id
      { developer_version := existing.developer_version + 1
        approved_version := approvedPlusOne existing.approved_version }
      types metadata
  | .error _ =>
    store.create kind { developer_version := 0, approved_version := 0 } types metadata

/-- The function `ensurePrimarySchema(dbClient, kind, ast)`: the upsert for the primary kind,
then, when `ast['global-name']` is truthy, the same upsert for the alias. -/
def ensurePrimarySchema (store : SchemaStore) (kind : String) (ast : Descriptor) :
    SchemaStore :=
  let store1 := upsertSchema store kind (schemaTypesOf ast) (schemaMetaOf ast)
  if !truthy ast.globalName then store1
  else upsertSchema store1 (ast.globalName.getD "") (schemaTypesOf ast) (schemaMetaOf ast)

/-! ## External collaborators -/

/-- A literal assigned to an argument by the example expander: a string, a number, a boolean
or a two-element array such as `[value, unit]`. -/
inductive Value
  | str (s : String)
  | num (n : Int)
  | bool (b : Bool)
  | pair (fst snd : Value)
  deriving DecidableEq, Repr

/-- An expanded example returned by `expandExamples`: the utterance and the assignment of
literals to argument names, in `for ... in` order. -/
structure Expanded where
  utterance : String
  assignments : List (String × Value) := []
  deriving DecidableEq, Repr

/-- The archive opened by `new JSZip(buffer, ...)`: the text of its entry `package.json`, if
it has one. -/
structure Zip where
  packageJson : Option String := none
  deriving DecidableEq, Repr

/-- The parsed `package.json`, with the two properties added at lines 491-492. -/
structure Manifest where
  name : Option String := none
  main : Option String := none
  thingpedia_version : Option Nat := none
  thingpedia_metadata : Option Descriptor := none
  deriving DecidableEq, Repr

/-- Everything `doCreateOrUpdate` takes from outside this file: `JSON.parse`, the ThingTalk
type library (parser, unifier and the four type tests used by `exampleToAction`), the
interface lookup, the example expander, the two tier constants of `user.DeveloperStatus`,
the zip reader and the parser of `package.json`. -/
structure Env (τ : Type) where
  jsonParse : String → Except String Descriptor
  fromString : Option String → Except String τ
  typeUnify : τ → τ → Except String τ
  isString : τ → Bool
  isNumber : τ → Bool
  isMeasure : τ → Bool
  isBoolean : τ → Bool
  getTypesByKinds : List String → List InterfaceRow
  expandExamples : List String → List (String × τ) → Except String (List Expanded)
  trustedDeveloper : Nat
  admin : Nat
  openZip : Option (List Nat) → Except String Zip
  parseManifest : String → Except String Manifest

/-! ## Example generation (`exampleToAction` and `ensureExamples`, lines 315-386) -/

/-- The expression `v[0]`: the first component of an array, the first character of a string,
`undefined` (`none`) otherwise. -/
def Value.at0 : Value → Option Value
  | .pair a _ => some a
  | .str s =>
    match s.data with
    | c :: _ => some (.str (String.mk [c]))
    | [] => none
  | _ => none

/-- The expression `v[1]`. -/
def Value.at1 : Value → Option Value
  | .pair _ b => some b
  | .str s =>
    match s.data with
    | _ :: c :: _ => some (.str (String.mk [c]))
    | _ => none
  | _ => none

/-- One entry of `args` in the invocation built by `exampleToAction`. A property whose value
is `undefined` is `none`: `JSON.stringify` leaves it out, like an absent one. -/
structure Arg where
  name : String
  type : String
  value : Option Value := none
  unit : Option Value := none
  deriving DecidableEq, Repr

/-- The object `action` of the value returned by `exampleToAction`. -/
structure Invocation where
  name : String
  args : List Arg := []
  deriving DecidableEq, Repr

/-- A row of the example table. The column `target_json` holds `JSON.stringify` of the
invocation; the model keeps the invocation that is serialised. -/
structure ExampleRecord where
  schema_id : Nat
  is_base : Bool
  utterance : String
  target_json : Invocation
  deriving DecidableEq, Repr

/-- The loop of lines 318-331 over the assigned names. Reading `type.isString` of a name
without a type is a JavaScript `TypeError`; a type that passes none of the four tests throws
at line 330, and so does the value read for a name that is not a key of `argtypes` but is
inherited from `Object.prototype`, which has none of the four properties. -/
def exampleArgs {τ : Type} (env : Env τ) (argtypes : List (String × τ)) :
    List (String × Value) → Except UploadError (List Arg)
  | [] => .ok []
  | (name, v) :: rest =>
    match argtypes.lookup name with
    | none =>
      if inheritedName name then .error .typeError
      else .error (.undefinedProperty "isString")
    | some type =>
      if env.isString type then
        match exampleArgs env argtypes rest with
        | .error e => .error e
        | .ok args => .ok ({ name := name, type := "String", value := some v } :: args)
      else if env.isNumber type then
        match exampleArgs env argtypes rest with
        | .error e => .error e
        | .ok args => .ok ({ name := name, type := "Number", value := some v } :: args)
      else if env.isMeasure type then
        match exampleArgs env argtypes rest with
        | .error e => .error e
        | .ok args =>
          .ok ({ name := name, type := "Measure", value := v.at0, unit := v.at1 } :: args)
      else if env.isBoolean type then
        match exampleArgs env argtypes rest with
        | .error e => .error e
        | .ok args => .ok ({ name := name, type := "Bool", value := some v } :: args)
      else .error .typeError

/-- The function `exampleToAction(kind, actionName, assignments, argtypes)`. -/
def exampleToAction {τ : Type} (env : Env τ) (kind actionName : String)
    (assignments : List (String × Value)) (argtypes : List (String × τ)) :
    Except UploadError Invocation :=
  match exampleArgs env argtypes assignments with
  | .error e => .error e
  | .ok args => .ok { name := "tt:" ++ kind ++ "." ++ actionName, args := args }

/-- The assignment `obj[key] = v` on an object used as a map: an existing key keeps its
place. -/
def jsSet {β : Type} : List (String × β) → String → β → List (String × β)
  | [], k, v => [(k, v)]
  | (k', v') :: rest, k, v =>
    if k' = k then (k, v) :: rest else (k', v') :: jsSet rest k v

/-- The loop of lines 354-356, from index `i` on: `argtypes[name] = fromString(schema[i])`.
It stands outside the `try` of line 364. -/
def buildArgtypes {τ : Type} (env : Env τ) (schema : Option (List String)) :
    List String → Nat → List (String × τ) → Except UploadError (List (String × τ))
  | [], _, acc => .ok acc
  | name :: rest, i, acc =>
    match schema with
    | none => .error (.undefinedProperty "schema")
    | some sig =>
      match env.fromString sig[i]? with
      | .error e => .error (.invalidTypeSyntax e)
      | .ok t => buildArgtypes env schema rest (i + 1) (jsSet acc name t)

/-- The loop of lines 358-362: one base record per template. -/
def baseRecords {τ : Type} (env : Env τ) (globalName : String) (schemaId : Nat)
    (name : String) (argtypes : List (String × τ)) :
    List String → Except UploadError (List ExampleRecord)
  | [] => .ok []
  | ex :: rest =>
    match exampleToAction env globalName name [] argtypes with
    | .error e => .error e
    | .ok jsonAction =>
      match baseRecords env globalName schemaId name argtypes rest with
      | .error e => .error e
      | .ok records =>
        .ok ({ schema_id := schemaId, is_base := true, utterance := ex,
               target_json := jsonAction } :: records)

/-- The loop of lines 366-370 inside the `try`: records are pushed until `exampleToAction`
throws; what was pushed before stays in `out`. -/
def expandedRecords {τ : Type} (env : Env τ) (globalName : String) (schemaId : Nat)
    (name : String) (argtypes : List (String × τ)) : List Expanded → List ExampleRecord
  | [] => []
  | ex :: rest =>
    match exampleToAction env globalName name ex.assignments argtypes with
    | .error _ => []
    | .ok jsonAction =>
      { schema_id := schemaId, is_base := false, utterance := ex.utterance,
        target_json := jsonAction } :: expandedRecords env globalName schemaId name argtypes rest

/-- The `try` block of lines 364-373: an exception of the expander is logged and dropped. -/
def expandedPart {τ : Type} (env : Env τ) (globalName : String) (schemaId : Nat) (name : String)
    (argtypes : List (String × τ)) (examples : List String) : List ExampleRecord :=
  match env.expandExamples examples argtypes with
  | .error _ => []
  | .ok expanded => expandedRecords env globalName schemaId name argtypes expanded

/-- One iteration of the loop of lines 347-374: the records pushed for the action `name`. -/
def actionExamples {τ : Type} (env : Env τ) (globalName : String) (schemaId : Nat) (name : String)
    (fromChannel : Channel) : Except UploadError (List ExampleRecord) :=
  match fromChannel.examples with
  | none => .ok []
  | some examples =>
    match buildArgtypes env fromChannel.schema
        ((fromChannel.params.orElse (fun _ => fromChannel.args)).getD []) 0 [] with
    | .error e => .error e
    | .ok argtypes =>
      match baseRecords env globalName schemaId name argtypes examples with
      | .error e => .error e
      | .ok base => .ok (base ++ expandedPart env globalName schemaId name argtypes examples)

/-- The loop of lines 347-374 over the given actions. -/
def generateFrom {τ : Type} (env : Env τ) (globalName : String) (schemaId : Nat) :
    ChannelMap → Except UploadError (List ExampleRecord)
  | [] => .ok []
  | (name, fromChannel) :: rest =>
    match actionExamples env globalName schemaId name fromChannel with
    | .error e => .error e
    | .ok records =>
      match generateFrom env globalName schemaId rest with
      | .error e => .error e
      | .ok more => .ok (records ++ more)

/-- The inner function `generateAllExamples(schemaId)`: actions only. -/
def generateAllExamples {τ : Type} (env : Env τ) (ast : Descriptor) (schemaId : Nat) :
    Except UploadError (List ExampleRecord) :=
  generateFrom env (ast.globalName.getD "") schemaId (ast.actions.getD [])

/-- Modelled from the spec: `exampleModel.deleteBySchema` of `model/example.js`, which is not
part of the sources at hand. Section 6: `deleteBySchema(schemaId)` removes the example
records of that schema. -/
def deleteBySchema (examples : List ExampleRecord) (schemaId : Nat) : List ExampleRecord :=
  examples.filter (fun r => r.schema_id != schemaId)

/-- Modelled from the spec: `exampleModel.createMany` of `model/example.js`, which is not part
of the sources at hand. Section 6: `createMany(records)` adds the records. -/
def createMany (examples : List ExampleRecord) (records : List ExampleRecord) :
    List ExampleRecord :=
  examples ++ records

/-! ## The transaction (`doCreateOrUpdate`, lines 388-523) -/

/-- The fields `obj` handed to `model.create` and `model.update`. The property
`approved_version` is absent (`none`), `null` (`some none`) or a number. -/
structure DeviceFields where
  primary_kind : String
  global_name : Option String
  name : String
  description : String
  fullcode : Bool
  owner : Nat
  developer_version : Nat
  approved_version : Option (Option Nat)
  deriving DecidableEq, Repr

/-- A device record. -/
structure DeviceRecord where
  id : Nat
  primary_kind : String
  global_name : Option String := none
  name : String := ""
  description : String := ""
  fullcode : Bool := false
  owner : Nat := 0
  developer_version : Nat := 0
  approved_version : Option Nat := none
  kinds : List String := []
  child_kinds : List String := []
  code : Descriptor := {}
  deriving DecidableEq, Repr

/-- The device table: its rows and the next primary key. -/
structure DeviceStore where
  records : List DeviceRecord := []
  nextId : Nat := 0
  deriving DecidableEq, Repr

/-- Modelled from the spec: `model.get` of `model/device.js`, which is not part of the sources
at hand. Section 6: `get(id) -> DeviceRecord`; a missing row rejects the promise. -/
def DeviceStore.get (store : DeviceStore) (id : Option Nat) : Except UploadError DeviceRecord :=
  match id with
  | none => .error (.notFound "device")
  | some i =>
    match store.records.find? (fun r => r.id == i) with
    | some r => .ok r
    | none => .error (.notFound "device")

/-- Modelled from the spec: `model.create` of `model/device.js`, which is not part of the
sources at hand. Section 6: `create(fields, extraInterfaceKinds, extraChildKinds,
serializedDescriptor) -> record`; a row with a fresh primary key is added, an absent
approved version being unset. -/
def DeviceStore.create (store : DeviceStore) (obj : DeviceFields)
    (extraKinds extraChildKinds : List String) (code : Descriptor) : DeviceStore :=
  { records := store.records ++
      [{ id := store.nextId, primary_kind := obj.primary_kind, global_name := obj.global_name
         name := obj.name, description := obj.description, fullcode := obj.fullcode
         owner := obj.owner, developer_version := obj.developer_version
         approved_version := obj.approved_version.getD none
         kinds := extraKinds, child_kinds := extraChildKinds, code := code }]
    nextId := store.nextId + 1 }

/-- Modelled from the spec: `model.update` of `model/device.js`, which is not part of the
sources at hand. Section 6: `update(id, fields, ..., ...) -> record`; the row with the given
primary key gets the fields present in `obj`, and section 4.5: an update without an approved
version leaves the approval of the prior record unchanged. -/
def DeviceStore.update (store : DeviceStore) (id : Option Nat) (obj : DeviceFields)
    (extraKinds extraChildKinds : List String) (code : Descriptor) : DeviceStore :=
  { store with
    records := store.records.map (fun r =>
      if some r.id = id then
        { r with
          primary_kind := obj.primary_kind, global_name := obj.global_name
          name := obj.name, description := obj.description, fullcode := obj.fullcode
          owner := obj.owner, developer_version := obj.developer_version
          approved_version := obj.approved_version.getD r.approved_version
          kinds := extraKinds, child_kinds := extraChildKinds, code := code }
      else r) }

/-- The persisted state: schema table, example table and device table. -/
structure Db where
  schemas : SchemaStore := {}
  examples : List ExampleRecord := []
  devices : DeviceStore := {}
  deriving DecidableEq, Repr

/-- The function `ensureExamples(dbClient, ast)`: nothing without an alias; otherwise the
examples of the alias's schema are deleted and the generated ones inserted, when there are
any. -/
def ensureExamples {τ : Type} (env : Env τ) (db : Db) (ast : Descriptor) :
    Except UploadError Db :=
  if !truthy ast.globalName then .ok db
  else
    match db.schemas.getByKind (ast.globalName.getD "") with
    | .error e => .error e
    | .ok existing =>
      let deleted := deleteBySchema db.examples existing.id
      match generateAllExamples env ast existing.id with
      | .error e => .error e
      | .ok examples =>
        if examples.length > 0 then .ok { db with examples := createMany deleted examples }
        else .ok { db with examples := deleted }

/-- The response sent to the client. -/
inductive Response
  /-- The edit form rendered again with the validation error (lines 405-417). -/
  | form (error : UploadError)
  /-- Lines 512 and 514. -/
  | redirect (location : String)
  /-- The error page with status 400 (lines 520-521). -/
  | errorPage (error : UploadError)
  /-- No response is sent. -/
  | nothing
  deriving DecidableEq, Repr

/-- The callback handed to `setTimeout` at line 495: the archive, the manifest to write into
it, and the kind and version under which the package is stored. -/
structure PackagingTask where
  zip : Zip
  manifest : Manifest
  primary_kind : String
  developer_version : Nat
  deriving DecidableEq, Repr

/-- What one request leaves behind: the persisted state, the response and the scheduled
packaging tasks. -/
structure Outcome where
  db : Db
  response : Response
  scheduled : List PackagingTask
  deriving DecidableEq, Repr

/-- The flag `approve` of line 394: `!!req.body.approve`. -/
def approveFlag (req : Request) : Bool := truthy req.body.approve

/-- The object `obj` after the create branch, lines 440-459. -/
def createFields {τ : Type} (env : Env τ) (req : Request) (ast : Descriptor) : DeviceFields :=
  { primary_kind := req.body.primary_kind.getD ""
    global_name := if truthy ast.globalName then ast.globalName else none
    name := req.body.name.getD ""
    description := req.body.description.getD ""
    fullcode := fullcodeFlag req
    owner := req.user.developer_org
    developer_version := 0
    approved_version :=
      if req.user.developer_status < env.trustedDeveloper || !approveFlag req then some none
      else some (some 0) }

/-- The object `obj` after the update branch, lines 440-446 and 467-471. -/
def updateFields {τ : Type} (env : Env τ) (req : Request) (ast : Descriptor)
    (old : DeviceRecord) : DeviceFields :=
  { primary_kind := req.body.primary_kind.getD ""
    global_name := if truthy ast.globalName then ast.globalName else none
    name := req.body.name.getD ""
    description := req.body.description.getD ""
    fullcode := fullcodeFlag req
    owner := old.owner
    developer_version := old.developer_version + 1
    approved_version :=
      if req.user.developer_status ≥ env.trustedDeveloper && approveFlag req then
        some (some (old.developer_version + 1))
      else none }

/-- The step of lines 429-475: the device record is created, or loaded, checked for
authorization and updated. The value is the new device table and the object `obj`. -/
def upsertDevice {τ : Type} (env : Env τ) (id : Option Nat) (create : Bool) (req : Request)
    (ast : Descriptor) (devices : DeviceStore) :
    Except UploadError (DeviceStore × DeviceFields) :=
  if create then
    let obj := createFields env req ast
    .ok (devices.create obj (ast.types.getD []) (ast.child_types.getD []) ast, obj)
  else
    match devices.get id with
    | .error e => .error e
    | .ok old =>
      if old.owner ≠ req.user.developer_org && req.user.developer_status < env.admin then
        .error .notAuthorized
      else
        let obj := updateFields env req ast old
        .ok (devices.update id obj (ast.types.getD []) (ast.child_types.getD []) ast, obj)

/-- The step of lines 476-508: for a device that is neither full code nor builtin, the
archive must hold a `package.json` with a name and an entry point; the upload is then
scheduled with `setTimeout`. -/
def packageStep {τ : Type} (env : Env τ) (req : Request) (gAst : Descriptor)
    (obj : DeviceFields) : Except UploadError (List PackagingTask) :=
  if !obj.fullcode && !jsStartsWith obj.primary_kind "org.thingpedia.builtin." then
    match req.file with
    | none => .error (.undefinedProperty "buffer")
    | some file =>
      match env.openZip file.buffer with
      | .error e => .error (.invalidZip e)
      | .ok zipFile =>
        match zipFile.packageJson with
        | none => .error .packageJsonMissing
        | some text =>
          match env.parseManifest text with
          | .error e => .error (.malformedManifest e)
          | .ok parsed =>
            if !truthy parsed.name || !truthy parsed.main then .error .invalidPackageJson
            else
              .ok [{ zip := zipFile
                     manifest :=
                       { parsed with
                         thingpedia_version := some obj.developer_version
                         thingpedia_metadata := some gAst }
                     primary_kind := obj.primary_kind
                     developer_version := obj.developer_version }]
  else .ok []

/-- The callback handed to `db.withTransaction` (lines 400-516). A validation error is
caught, rendered into the edit form and turned into `null`, which makes every later step a
no-op; any other exception leaves the callback. -/
def transactionBody {τ : Type} (env : Env τ) (id : Option Nat) (create : Bool) (req : Request)
    (db : Db) : Except UploadError Outcome :=
  match validateDevice env.jsonParse env.fromString env.typeUnify env.getTypesByKinds req with
  | .error e => .ok { db := db, response := .form e, scheduled := [] }
  | .ok ast =>
    let db1 : Db :=
      { db with
        schemas := ensurePrimarySchema db.schemas (req.body.primary_kind.getD "") ast }
    match ensureExamples env db1 ast with
    | .error e => .error e
    | .ok db2 =>
      match upsertDevice env id create req ast db2.devices with
      | .error e => .error e
      | .ok (devices, obj) =>
        match packageStep env req ast obj with
        | .error e => .error e
        | .ok scheduled =>
          .ok { db := { db2 with devices := devices }
                response :=
                  if obj.primary_kind ≠ "" then
                    .redirect ("/thingpedia/devices/by-id/" ++ obj.primary_kind)
                  else .nothing
                scheduled := scheduled }

/-- Modelled from the spec: `db.withTransaction` of `util/db.js`, which is not part of the
sources at hand. Section 5: the callback runs under one transaction; when it succeeds its
writes are committed, and any failure leaves no partial writes (full rollback). The value is
the persisted state after the transaction and the result of the callback. -/
def withTransaction (db : Db) (callback : Db → Except UploadError Outcome) :
    Db × Except UploadError Outcome :=
  match callback db with
  | .ok outcome => (outcome.db, .ok outcome)
  | .error e => (db, .error e)

/-- The function `doCreateOrUpdate(id, create, req, res)`, run on the persisted state `db`.
An exception that leaves the transaction is rendered as the error page (lines 518-521). -/
def doCreateOrUpdate {τ : Type} (env : Env τ) (id : Option Nat) (create : Bool) (req : Request)
    (db : Db) : Outcome :=
  match withTransaction db (transactionBody env id create req) with
  | (db', .ok outcome) => { outcome with db := db' }
  | (db', .error e) => { db := db', response := .errorPage e, scheduled := [] }

/-! ## Vocabulary of the statements -/

/-- The descriptor's channel map of the given kind (`{}` when absent). -/
def Descriptor.channels (ast : Descriptor) : ChannelKind → ChannelMap
  | .trigger => ast.triggers.getD []
  | .action => ast.actions.getD []
  | .query => ast.queries.getD []

/-- Tags every entry of a map with the kind of the map. -/
def tagged {β : Type} (kind : ChannelKind) (m : List (String × β)) :
    List (ChannelKind × String × β) :=
  m.map (fun e => (kind, e.1, e.2))

/-- The channels of a descriptor in the order the loops of `validateDevice` visit them:
triggers, then actions, then queries. -/
def Descriptor.channelsInOrder (ast : Descriptor) : List (ChannelKind × String × Channel) :=
  tagged .trigger (ast.channels .trigger) ++ tagged .action (ast.channels .action)
    ++ tagged .query (ast.channels .query)

/-- The required channels of an interface in the order the loops of `validateSchema` visit
them: `types[0]`, then `types[1]`, then `types[2] || {}`. -/
def InterfaceTypes.required (t : InterfaceTypes) : List (ChannelKind × String × List String) :=
  tagged .trigger t.triggers ++ tagged .action t.actions ++ tagged .query (t.queries.getD [])

/-- The required channel `c` is a key of the descriptor's map of its kind and the declared
signature is `schemaCompatible` with the required one. -/
def Satisfies {τ : Type} (fromString : Option String → Except String τ)
    (typeUnify : τ → τ → Except String τ) (ast : Descriptor)
    (c : ChannelKind × String × List String) : Prop :=
  ∃ ch s, (ast.channels c.1).lookup c.2.1 = some ch ∧ ch.schema = some s ∧
    (schemaCompatible fromString typeUnify s c.2.2).result = .ok true

/-- The channel declares `args` or `params` whose length differs from the length of the
signature. -/
def ArgsMismatch (ch : Channel) (schema : List String) : Prop :=
  (∃ a, ch.args = some a ∧ a.length ≠ schema.length) ∨
    (∃ p, ch.params = some p ∧ p.length ≠ schema.length)

/-- Errors that only step 7 and the later steps of `validateDevice` raise. -/
def UploadError.late : UploadError → Bool
  | .missingSchema _ _ => true
  | .invalidNumberOfArguments _ => true
  | .invalidNumberOfQuestions _ => true
  | .undefinedProperty _ => true
  | .invalidTypeSyntax _ => true
  | .missingName => true
  | .missingDescription => true
  | .missingUrl _ _ => true
  | .invalidZipFile => true
  | .invalidDeviceType _ => true
  | .typeRequires _ _ _ => true
  | .schemaNotCompatible _ _ => true
  | _ => false

/-- A loop over channels tagged with their kind; the first exception ends it. The three
consecutive loops of `validateSchema` and of `validateDevice` are one such loop over the
concatenation of the three maps. -/
def forEachTagged {β : Type} (f : ChannelKind → String → β → Except UploadError Unit) :
    List (ChannelKind × String × β) → Except UploadError Unit
  | [] => .ok ()
  | (kind, name, v) :: rest =>
    match f kind name v with
    | .error e => .error e
    | .ok _ => forEachTagged f rest

/-- The table is well formed: primary keys are distinct and below the next key. -/
def SchemaStore.WF (store : SchemaStore) : Prop :=
  (store.records.map (fun r => r.id)).Nodup ∧ ∀ r ∈ store.records, r.id < store.nextId

/-- The version invariant of a schema record: the approved version is unset or at most the
developer version. -/
def SchemaRecord.VersionsOk (r : SchemaRecord) : Prop :=
  ∀ a, r.approved_version = some a → a ≤ r.developer_version

/-- The version invariant of a device record. -/
def DeviceRecord.VersionsOk (r : DeviceRecord) : Prop :=
  ∀ a, r.approved_version = some a → a ≤ r.developer_version

/-- The record a synchronisation makes of an existing record: both counters raised by one,
maps replaced by those of the descriptor. -/
def SchemaRecord.synced (r : SchemaRecord) (ast : Descriptor) : SchemaRecord :=
  r.withUpdate
    { developer_version := r.developer_version + 1
      approved_version := approvedPlusOne r.approved_version }
    (schemaTypesOf ast) (schemaMetaOf ast)

/-- The record a synchronisation creates for a kind without a record. -/
def freshSchema (id : Nat) (kind : String) (ast : Descriptor) : SchemaRecord :=
  { id := id, kind := kind, developer_version := 0, approved_version := some 0
    types := schemaTypesOf ast, metadata := schemaMetaOf ast }

/-- The base record of a template: no argument is bound. -/
def baseRecord (globalName : String) (schemaId : Nat) (name : String) (ex : String) :
    ExampleRecord :=
  { schema_id := schemaId, is_base := true, utterance := ex
    target_json := { name := "tt:" ++ globalName ++ "." ++ name, args := [] } }

/-- The base records of one action: one per template, in template order. -/
def baseOf (globalName : String) (schemaId : Nat) (name : String) (examples : List String) :
    List ExampleRecord :=
  examples.map (baseRecord globalName schemaId name)

/-- The base records of the actions whose `examples` is a list, action after action. -/
def baseAll (globalName : String) (schemaId : Nat) : ChannelMap → List ExampleRecord
  | [] => []
  | (name, ch) :: rest =>
    (match ch.examples with
      | none => []
      | some examples => baseOf globalName schemaId name examples)
      ++ baseAll globalName schemaId rest

/-- The total number of templates of the actions whose `examples` is a list. -/
def templateCount : ChannelMap → Nat
  | [] => 0
  | (_, ch) :: rest =>
    (match ch.examples with
      | none => 0
      | some examples => examples.length) + templateCount rest

/-- The tag `exampleToAction` gives a type, by the tests of lines 320-328 in their order;
`none` for a type that passes none of them. -/
def tagOf {τ : Type} (env : Env τ) (t : τ) : Option String :=
  if env.isString t then some "String"
  else if env.isNumber t then some "Number"
  else if env.isMeasure t then some "Measure"
  else if env.isBoolean t then some "Bool"
  else none

/-- The entry of `args` for an assigned name with the given tag: a measure carries the two
components of the assigned array, every other tag the assigned literal. -/
def argOf (name tag : String) (v : Value) : Arg :=
  if tag = "Measure" then { name := name, type := tag, value := v.at0, unit := v.at1 }
  else { name := name, type := tag, value := some v }

/-- The non-base record of an expanded example with its serialised invocation. -/
def expandedRecord (schemaId : Nat) (ex : Expanded) (jsonAction : Invocation) :
    ExampleRecord :=
  { schema_id := schemaId, is_base := false, utterance := ex.utterance
    target_json := jsonAction }

/-- The tag of the type an argument name has in `argtypes`, or the empty string. -/
def tagFor {τ : Type} (env : Env τ) (argtypes : List (String × τ)) (name : String) : String :=
  ((argtypes.lookup name).bind (tagOf env)).getD ""

/-- A stand-in for `JSON.parse` on a finite table of source texts, used only to evaluate the
model on concrete inputs. -/
def parseFromTable (table : List (String × Descriptor)) (code : String) :
    Except String Descriptor :=
  match table.lookup code with
  | some d => .ok d
  | none => .error "Unexpected token"

/-! ## A small instance of the external type library

Used only to evaluate the model on concrete inputs. -/

/-- Primitive types of the sample type language. -/
inductive SampleType
  | any
  | boolean
  | string
  | number
  | date
  | measure
  deriving DecidableEq, Repr

/-- Sample parser: the five primitive type names and `Measure(m)` parse, everything else is
rejected. -/
def sampleFromString : Option String → Except String SampleType
  | none => .error "Invalid type undefined"
  | some s =>
    if s = "Any" then .ok .any
    else if s = "Boolean" then .ok .boolean
    else if s = "String" then .ok .string
    else if s = "Number" then .ok .number
    else if s = "Date" then .ok .date
    else if s = "Measure(m)" then .ok .measure
    else .error ("Invalid type " ++ s)

/-- Sample unifier: identical types unify, and `Any` unifies with everything. -/
def sampleTypeUnify (t1 t2 : SampleType) : Except String SampleType :=
  if t1 = t2 then .ok t1
  else if t1 = .any then .ok t2
  else if t2 = .any then .ok t1
  else .error "cannot unify"

/-! ## Concrete inputs

Requests, descriptors and interface tables on which the model is evaluated. -/

/-- Form fields of a full-code submission (the `fullcode` field is absent) whose code body is
the text `src`. -/
def sampleBody : Body :=
  { name := some "My device", description := some "A device", code := some "src",
    primary_kind := some "com.example.device" }

/-- A full-code request. -/
def sampleRequest : Request := { body := sampleBody }

/-- Interface table: `iface` requires the triggers `a : [Number]` and `b : []`, in this
order; no other interface exists. -/
def sampleInterfaces : List String → List InterfaceRow
  | ["iface"] => [{ types := { triggers := [("a", ["Number"]), ("b", [])] } }]
  | _ => []

/-- A descriptor claiming `iface` whose trigger `a` has the incompatible signature `[String]`
and which has no trigger `b`. -/
def descriptorIncompatibleThenMissing : Descriptor :=
  { name := some "My device", description := some "A device", types := some ["iface"],
    triggers := some [("a", { schema := some ["String"], url := some "http://x/a" })] }

/-- A descriptor claiming `iface` whose trigger `a` is compatible and which has no trigger
`b`. -/
def descriptorMissingSecond : Descriptor :=
  { name := some "My device", description := some "A device", types := some ["iface"],
    triggers := some [("a", { schema := some ["Number"], url := some "http://x/a" })] }

/-- Interface table: `proto` requires the single trigger `constructor : []`; no other
interface exists. -/
def interfacesInherited : List String → List InterfaceRow
  | ["proto"] => [{ types := { triggers := [("constructor", [])] } }]
  | _ => []

/-- A descriptor claiming `proto` that declares no channel at all. -/
def descriptorClaimsProto : Descriptor :=
  { name := some "My device", description := some "A device", types := some ["proto"] }

/-- A descriptor with the alias `myalias` that claims `myalias` itself and the unknown
interface `ghost`. -/
def descriptorSelfAndGhost : Descriptor :=
  { name := some "My device", description := some "A device", globalName := some "myalias",
    types := some ["myalias", "ghost"] }

/-- A channel with a signature of length two, two argument names and a single
clarification question. -/
def channelOneQuestion : Channel :=
  { schema := some ["Date", "Number"], args := some ["time", "measurement"],
    questions := some ["What time?"], url := some "http://x/poll" }

/-- A descriptor whose only channel is the trigger `source`, with one question for a signature
of length two. -/
def descriptorTriggerQuestions : Descriptor :=
  { name := some "My device", description := some "A device",
    triggers := some [("source", channelOneQuestion)] }

/-- The same channel declared as an action. -/
def descriptorActionQuestions : Descriptor :=
  { name := some "My device", description := some "A device",
    actions := some [("source", channelOneQuestion)] }

/-- A descriptor whose only channel is a trigger with one question for a signature of length
one, and no `args`. -/
def descriptorTriggerNoArgs : Descriptor :=
  { name := some "My device", description := some "A device",
    triggers := some [("source",
      { schema := some ["Date"], questions := some ["What time?"],
        url := some "http://x/poll" })] }

/-- A descriptor whose action `set` is fine and whose query `get` declares two argument names
for a signature of length one. -/
def descriptorBadQueryArgs : Descriptor :=
  { name := some "My device", description := some "A device",
    actions := some [("set",
      { schema := some ["Boolean"], args := some ["power"], url := some "http://x/set" })],
    queries := some [("get",
      { schema := some ["Boolean"], args := some ["power", "extra"],
        url := some "http://x/get" })] }

/-- A descriptor with basic authentication and no `params`. -/
def descriptorBasicNoParams : Descriptor :=
  { name := some "My device", description := some "A device",
    auth := some { type := some "basic" } }

/-- A descriptor tagged both `online-account` and `data-source`. -/
def descriptorBothTags : Descriptor :=
  { name := some "My device", description := some "A device",
    types := some ["online-account", "data-source"] }

/-- A request whose form lacks a name and whose code body is not JSON. -/
def requestNoName : Request :=
  { body := { sampleBody with name := some "", code := some "not json" } }

/-- A descriptor without a `name` property whose only channel has a URL. -/
def descriptorNoName : Descriptor :=
  { description := some "A device",
    actions := some [("set",
      { schema := some ["Boolean"], args := some ["power"], url := some "http://x/set" })] }

/-- A descriptor with a name and a description whose query `get` has no URL. -/
def descriptorNoUrl : Descriptor :=
  { name := some "My device", description := some "A device",
    actions := some [("set",
      { schema := some ["Boolean"], args := some ["power"], url := some "http://x/set" })],
    queries := some [("get", { schema := some ["Boolean"], args := some ["power"] })] }

/-- A submission that is not full code (the form field `fullcode` is set) and carries no
file. -/
def requestPackageNoFile : Request :=
  { body := { sampleBody with fullcode := some "1" } }

/-- A descriptor without channels. -/
def descriptorPlain : Descriptor :=
  { name := some "My device", description := some "A device" }

/-- A schema table with one record, for the kind `com.example.device`, at versions 3 and
3. -/
def storeOneSchema : SchemaStore :=
  { records := [{ id := 0, kind := "com.example.device", developer_version := 3,
                  approved_version := some 3 }],
    nextId := 1 }

/-- A schema table with a record for `com.example.device` at versions 3 and 3 and a record
for `myalias` at versions 7 and 2. -/
def storeTwoSchemas : SchemaStore :=
  { records := [{ id := 0, kind := "com.example.device", developer_version := 3,
                  approved_version := some 3 },
                { id := 1, kind := "myalias", developer_version := 7,
                  approved_version := some 2 }],
    nextId := 2 }

/-- A descriptor whose alias is its own primary kind `com.example.device`. -/
def descriptorAliasIsKind : Descriptor :=
  { name := some "My device", description := some "A device",
    globalName := some "com.example.device" }

/-- A descriptor with the alias `myalias`. -/
def descriptorWithAlias : Descriptor :=
  { name := some "My device", description := some "A device", globalName := some "myalias" }

/-- A sample environment: `JSON.parse` reads the given table, the type library is the sample
one, the expander returns no variant, tier 2 is trusted developer and tier 3 administrator,
and every uploaded archive holds a well-formed `package.json`. -/
def sampleEnv (table : List (String × Descriptor)) : Env SampleType :=
  { jsonParse := parseFromTable table
    fromString := sampleFromString
    typeUnify := sampleTypeUnify
    isString := fun t => decide (t = .string)
    isNumber := fun t => decide (t = .number)
    isMeasure := fun t => decide (t = .measure)
    isBoolean := fun t => decide (t = .boolean)
    getTypesByKinds := sampleInterfaces
    expandExamples := fun _ _ => .ok []
    trustedDeveloper := 2
    admin := 3
    openZip := fun _ => .ok { packageJson := some "manifest" }
    parseManifest := fun _ => .ok { name := some "pkg", main := some "index.js" } }

/-- A persisted state with one schema record and one device record: device 0 of organization
5, at developer version 3 and approved version 2. -/
def sampleDb : Db :=
  { schemas := storeOneSchema
    devices :=
      { records := [{ id := 0, primary_kind := "com.example.device", owner := 5,
                      developer_version := 3, approved_version := some 2 }],
        nextId := 1 } }

/-- A full-code request of an ordinary-tier member (tier 1) of organization 5 who asks for
approval. -/
def requestOrdinaryApprove : Request :=
  { body := { sampleBody with approve := some "1" },
    user := { developer_org := 5, developer_status := 1 } }

/-- A full-code request of a trusted developer (tier 2) of organization 5 who asks for
approval. -/
def requestTrustedApprove : Request :=
  { body := { sampleBody with approve := some "1" },
    user := { developer_org := 5, developer_status := 2 } }

/-- A full-code request of a trusted developer (tier 2) of another organization, 9. -/
def requestStranger : Request :=
  { body := { sampleBody with approve := some "1" },
    user := { developer_org := 9, developer_status := 2 } }

/-- A descriptor with the alias `myalias` whose action `set` has two templates and whose
action `stop` has none; its trigger and its query carry templates too. -/
def descriptorWithExamples : Descriptor :=
  { name := some "My device", description := some "A device", globalName := some "myalias",
    triggers := some [("changed",
      { schema := some ["Boolean"], args := some ["power"], url := some "http://x/changed",
        examples := some ["when it changes"] })],
    actions := some [
      ("set",
        { schema := some ["Boolean", "Date"], args := some ["power", "until"],
          url := some "http://x/set", examples := some ["turn it on", "switch it on"] }),
      ("stop", { schema := some [], url := some "http://x/stop" })],
    queries := some [("get",
      { schema := some ["Boolean"], args := some ["power"], url := some "http://x/get",
        examples := some ["is it on"] })] }

/-- An environment whose expander returns two variants for every action: the first assigns
the boolean argument `power`, the second the argument `until`, whose type `Date` is none of
the four types `exampleToAction` serialises. -/
def envTwoVariants : Env SampleType :=
  { sampleEnv [] with
    expandExamples := fun _ _ =>
      .ok [{ utterance := "turn it on now", assignments := [("power", .bool true)] },
           { utterance := "turn it on until noon", assignments := [("until", .str "noon")] }] }

/-- A persisted state whose schema table has a record for `myalias` with id 1 and whose
example table holds one record of that schema and one of schema 9. -/
def dbWithExamples : Db :=
  { schemas := storeTwoSchemas
    examples := [baseRecord "myalias" 1 "set" "an old template",
                 baseRecord "other" 9 "go" "go now"] }

/-- A submission that is not full code and carries a file of three bytes. -/
def requestPackage : Request :=
  { body := { sampleBody with fullcode := some "1" }, file := some { buffer := some [80, 75, 3] },
    user := { developer_org := 5, developer_status := 1 } }

/-- An environment in which the uploaded archive has no `package.json`. -/
def envNoManifest (table : List (String × Descriptor)) : Env SampleType :=
  { sampleEnv table with openZip := fun _ => .ok {} }

/-! ## Lemmas on loops -/

theorem forEachEntry_ok_iff {β : Type} (f : String → β → Except UploadError Unit)
    (l : List (String × β)) :
    forEachEntry f l = .ok () ↔ ∀ e ∈ l, f e.1 e.2 = .ok () := by
  induction l with
  | nil => simp [forEachEntry]
  | cons e l ih =>
    obtain ⟨n, v⟩ := e
    cases h : f n v with
    | error err => simp [forEachEntry, h]
    | ok u => cases u; simp [forEachEntry, h, ih]

theorem forEachEntry_append {β : Type} (f : String → β → Except UploadError Unit)
    (pre l : List (String × β)) (hpre : ∀ e ∈ pre, f e.1 e.2 = .ok ()) :
    forEachEntry f (pre ++ l) = forEachEntry f l := by
  induction pre with
  | nil => rfl
  | cons e pre ih =>
    obtain ⟨n, v⟩ := e
    have h := hpre (n, v) (by simp)
    simp only [] at h
    simp only [List.cons_append, forEachEntry, h]
    exact ih (fun e he => hpre e (by simp [he]))

theorem forEachEntry_first_error {β : Type} (f : String → β → Except UploadError Unit)
    (pre post : List (String × β)) (n : String) (v : β) (err : UploadError)
    (hpre : ∀ e ∈ pre, f e.1 e.2 = .ok ()) (h : f n v = .error err) :
    forEachEntry f (pre ++ (n, v) :: post) = .error err := by
  rw [forEachEntry_append f pre _ hpre]
  simp only [forEachEntry, h]

theorem forEachEntry_error {β : Type} (f : String → β → Except UploadError Unit)
    (l : List (String × β)) (err : UploadError) (h : forEachEntry f l = .error err) :
    ∃ e ∈ l, f e.1 e.2 = .error err := by
  induction l with
  | nil => simp [forEachEntry] at h
  | cons e l ih =>
    obtain ⟨n, v⟩ := e
    cases hf : f n v with
    | error err' =>
      simp only [forEachEntry, hf, Except.error.injEq] at h
      exact ⟨(n, v), by simp, by rw [hf, h]⟩
    | ok u =>
      simp only [forEachEntry, hf] at h
      obtain ⟨e, he, hfe⟩ := ih h
      exact ⟨e, by simp [he], hfe⟩

theorem forEachTagged_append {β : Type}
    (f : ChannelKind → String → β → Except UploadError Unit)
    (l1 l2 : List (ChannelKind × String × β)) :
    forEachTagged f (l1 ++ l2)
      = match forEachTagged f l1 with
        | .error e => .error e
        | .ok _ => forEachTagged f l2 := by
  induction l1 with
  | nil => rfl
  | cons c l1 ih =>
    obtain ⟨k, n, v⟩ := c
    cases h : f k n v with
    | error err => simp only [List.cons_append, forEachTagged, h]
    | ok u =>
      simp only [List.cons_append, forEachTagged, h]
      exact ih

theorem forEachTagged_tagged {β : Type}
    (f : ChannelKind → String → β → Except UploadError Unit) (kind : ChannelKind)
    (m : List (String × β)) :
    forEachTagged f (tagged kind m) = forEachEntry (f kind) m := by
  induction m with
  | nil => rfl
  | cons e m ih =>
    obtain ⟨n, v⟩ := e
    have ih' : forEachTagged f (List.map (fun e => (kind, e.1, e.2)) m)
        = forEachEntry (f kind) m := ih
    cases h : f kind n v with
    | error err => simp only [tagged, List.map_cons, forEachTagged, forEachEntry, h]
    | ok u => simp only [tagged, List.map_cons, forEachTagged, forEachEntry, h, ih']

theorem forEachTagged_ok_iff {β : Type}
    (f : ChannelKind → String → β → Except UploadError Unit)
    (l : List (ChannelKind × String × β)) :
    forEachTagged f l = .ok () ↔ ∀ c ∈ l, f c.1 c.2.1 c.2.2 = .ok () := by
  induction l with
  | nil => simp [forEachTagged]
  | cons c l ih =>
    obtain ⟨k, n, v⟩ := c
    cases h : f k n v with
    | error err => simp [forEachTagged, h]
    | ok u => cases u; simp [forEachTagged, h, ih]

theorem forEachTagged_first_error {β : Type}
    (f : ChannelKind → String → β → Except UploadError Unit)
    (pre post : List (ChannelKind × String × β)) (k : ChannelKind) (n : String) (v : β)
    (err : UploadError)
    (hpre : ∀ c ∈ pre, f c.1 c.2.1 c.2.2 = .ok ()) (h : f k n v = .error err) :
    forEachTagged f (pre ++ (k, n, v) :: post) = .error err := by
  rw [forEachTagged_append, (forEachTagged_ok_iff f pre).2 hpre]
  simp only [forEachTagged, h]

theorem forEachTagged_error {β : Type}
    (f : ChannelKind → String → β → Except UploadError Unit)
    (l : List (ChannelKind × String × β)) (err : UploadError)
    (h : forEachTagged f l = .error err) :
    ∃ c ∈ l, f c.1 c.2.1 c.2.2 = .error err := by
  induction l with
  | nil => simp [forEachTagged] at h
  | cons c l ih =>
    obtain ⟨k, n, v⟩ := c
    cases hf : f k n v with
    | error err' =>
      simp only [forEachTagged, hf, Except.error.injEq] at h
      exact ⟨(k, n, v), by simp, by rw [hf, h]⟩
    | ok u =>
      simp only [forEachTagged, hf] at h
      obtain ⟨c, hc, hfc⟩ := ih h
      exact ⟨c, by simp [hc], hfc⟩

/-! ## Lemmas on `validateSchema` -/

theorem validateSchema_eq_forEachTagged {τ : Type}
    (fromString : Option String → Except String τ) (typeUnify : τ → τ → Except String τ)
    (getTypesByKinds : List String → List InterfaceRow) (type : String) (ast : Descriptor)
    (allowFailure : Bool) (row : InterfaceRow) (rows : List InterfaceRow)
    (hrow : getTypesByKinds [type] = row :: rows) :
    validateSchema fromString typeUnify getTypesByKinds type ast allowFailure
      = forEachTagged
          (fun k n r => requireChannel fromString typeUnify k type (ast.channels k) n r)
          row.types.required := by
  unfold validateSchema InterfaceTypes.required
  rw [hrow]
  simp only [forEachTagged_append, forEachTagged_tagged, Descriptor.channels]
  cases forEachEntry (requireChannel fromString typeUnify .trigger type (ast.triggers.getD []))
      row.types.triggers with
  | error e => rfl
  | ok u =>
    cases forEachEntry
        (requireChannel fromString typeUnify .action type (ast.actions.getD []))
        row.types.actions with
    | error e => rfl
    | ok u => rfl

theorem requireChannel_own {τ : Type} (fromString : Option String → Except String τ)
    (typeUnify : τ → τ → Except String τ) (kind : ChannelKind) (type : String)
    (declared : ChannelMap) (name : String) (required : List String) (ch : Channel)
    (h : declared.lookup name = some ch) :
    requireChannel fromString typeUnify kind type declared name required
      = match ch.schema with
        | none => .error (.undefinedProperty "length")
        | some s =>
          match (schemaCompatible fromString typeUnify s required).result with
          | .error e => .error e
          | .ok true => .ok ()
          | .ok false => .error (.schemaNotCompatible name type) := by
  simp only [requireChannel, jsIn, h, Option.isSome_some, Bool.true_or, Bool.not_true,
    Bool.false_eq_true, if_false, Option.some_bind]

theorem requireChannel_absent {τ : Type} (fromString : Option String → Except String τ)
    (typeUnify : τ → τ → Except String τ) (kind : ChannelKind) (type : String)
    (declared : ChannelMap) (name : String) (required : List String)
    (h : declared.lookup name = none) :
    requireChannel fromString typeUnify kind type declared name required
      = if inheritedName name then .error (.undefinedProperty "length")
        else .error (.typeRequires type kind name) := by
  cases hi : inheritedName name <;>
    simp [requireChannel, jsIn, h, hi]

theorem requireChannel_ok_iff {τ : Type}
    (fromString : Option String → Except String τ) (typeUnify : τ → τ → Except String τ)
    (type : String) (ast : Descriptor) (c : ChannelKind × String × List String) :
    requireChannel fromString typeUnify c.1 type (ast.channels c.1) c.2.1 c.2.2 = .ok ()
      ↔ Satisfies fromString typeUnify ast c := by
  unfold Satisfies
  cases h1 : List.lookup c.2.1 (ast.channels c.1) with
  | none =>
    rw [requireChannel_absent _ _ _ _ _ _ _ h1]
    cases inheritedName c.2.1 <;> simp
  | some ch =>
    rw [requireChannel_own _ _ _ _ _ _ _ ch h1]
    cases h2 : ch.schema with
    | none => simp [h2]
    | some s =>
      cases h3 : (schemaCompatible fromString typeUnify s c.2.2).result with
      | error e => simp [h2, h3]
      | ok b => cases b <;> simp [h2, h3]

/-! ## Lemmas on `checkInterfaces` -/

theorem checkInterfaces_ok_iff {τ : Type}
    (fromString : Option String → Except String τ) (typeUnify : τ → τ → Except String τ)
    (getTypesByKinds : List String → List InterfaceRow) (ast : Descriptor)
    (types : List String) :
    checkInterfaces fromString typeUnify getTypesByKinds ast types = .ok ()
      ↔ ∀ t ∈ types, validateSchema fromString typeUnify getTypesByKinds t ast
          (decide (some t = ast.globalName)) = .ok () := by
  induction types with
  | nil => simp [checkInterfaces]
  | cons t types ih =>
    cases h : validateSchema fromString typeUnify getTypesByKinds t ast
        (decide (some t = ast.globalName)) with
    | error err => simp [checkInterfaces, h]
    | ok u => cases u; simp [checkInterfaces, h, ih]

theorem checkInterfaces_skip {τ : Type}
    (fromString : Option String → Except String τ) (typeUnify : τ → τ → Except String τ)
    (getTypesByKinds : List String → List InterfaceRow) (ast : Descriptor)
    (pre rest : List String)
    (hpre : ∀ t ∈ pre, validateSchema fromString typeUnify getTypesByKinds t ast
      (decide (some t = ast.globalName)) = .ok ()) :
    checkInterfaces fromString typeUnify getTypesByKinds ast (pre ++ rest)
      = checkInterfaces fromString typeUnify getTypesByKinds ast rest := by
  induction pre with
  | nil => rfl
  | cons t pre ih =>
    have h := hpre t (by simp)
    simp only [List.cons_append, checkInterfaces, h]
    exact ih (fun u hu => hpre u (by simp [hu]))

theorem checkInterfaces_first_error {τ : Type}
    (fromString : Option String → Except String τ) (typeUnify : τ → τ → Except String τ)
    (getTypesByKinds : List String → List InterfaceRow) (ast : Descriptor)
    (pre post : List String) (t : String) (err : UploadError)
    (hpre : ∀ t ∈ pre, validateSchema fromString typeUnify getTypesByKinds t ast
      (decide (some t = ast.globalName)) = .ok ())
    (h : validateSchema fromString typeUnify getTypesByKinds t ast
      (decide (some t = ast.globalName)) = .error err) :
    checkInterfaces fromString typeUnify getTypesByKinds ast (pre ++ t :: post)
      = .error err := by
  rw [checkInterfaces_skip fromString typeUnify getTypesByKinds ast pre _ hpre]
  simp only [checkInterfaces, h]

theorem checkInterfaces_error {τ : Type}
    (fromString : Option String → Except String τ) (typeUnify : τ → τ → Except String τ)
    (getTypesByKinds : List String → List InterfaceRow) (ast : Descriptor)
    (types : List String) (err : UploadError)
    (h : checkInterfaces fromString typeUnify getTypesByKinds ast types = .error err) :
    ∃ t ∈ types, validateSchema fromString typeUnify getTypesByKinds t ast
      (decide (some t = ast.globalName)) = .error err := by
  induction types with
  | nil => simp [checkInterfaces] at h
  | cons t types ih =>
    cases hv : validateSchema fromString typeUnify getTypesByKinds t ast
        (decide (some t = ast.globalName)) with
    | error err' =>
      simp only [checkInterfaces, hv, Except.error.injEq] at h
      exact ⟨t, by simp, by rw [hv, h]⟩
    | ok u =>
      simp only [checkInterfaces, hv] at h
      obtain ⟨u, hu, hvu⟩ := ih h
      exact ⟨u, by simp [hu], hvu⟩

theorem validateDevice_of_local {τ : Type} (jsonParse : String → Except String Descriptor)
    (fromString : Option String → Except String τ) (typeUnify : τ → τ → Except String τ)
    (getTypesByKinds : List String → List InterfaceRow) (req : Request) (ast : Descriptor)
    (hlocal : validateLocal jsonParse fromString req = .ok ast) :
    validateDevice jsonParse fromString typeUnify getTypesByKinds req
      = match checkInterfaces fromString typeUnify getTypesByKinds ast (ast.types.getD []) with
        | .error e => .error e
        | .ok _ => .ok ast := by
  simp only [validateDevice, hlocal]

/-! ## Which errors each part can raise -/

theorem everyCompatible_error {τ : Type} (fromString : Option String → Except String τ)
    (typeUnify : τ → τ → Except String τ) (s1 : List String) :
    ∀ (rest : List String) (i : Nat) (err : UploadError),
      (everyCompatible fromString typeUnify s1 rest i).result = .error err →
      ∃ d, err = .invalidTypeSyntax d := by
  intro rest
  induction rest with
  | nil => intro i err h; simp [everyCompatible] at h
  | cons t rest ih =>
    intro i err h
    cases h1 : fromString (some t) with
    | error e1 =>
      simp only [everyCompatible, h1, Except.error.injEq] at h
      exact ⟨e1, h.symm⟩
    | ok t1 =>
      cases h2 : fromString s1[i]? with
      | error e2 =>
        simp only [everyCompatible, h1, h2, Except.error.injEq] at h
        exact ⟨e2, h.symm⟩
      | ok t2 =>
        cases h3 : typeUnify t1 t2 with
        | error e3 => simp [everyCompatible, h1, h2, h3] at h
        | ok u =>
          simp only [everyCompatible, h1, h2, h3] at h
          exact ih (i + 1) err h

theorem schemaCompatible_error {τ : Type} (fromString : Option String → Except String τ)
    (typeUnify : τ → τ → Except String τ) (s1 s2 : List String) (err : UploadError)
    (h : (schemaCompatible fromString typeUnify s1 s2).result = .error err) :
    ∃ d, err = .invalidTypeSyntax d := by
  unfold schemaCompatible at h
  split at h
  · exact everyCompatible_error fromString typeUnify s1 s2 0 err h
  · simp at h

theorem requireChannel_error {τ : Type} (fromString : Option String → Except String τ)
    (typeUnify : τ → τ → Except String τ) (kind : ChannelKind) (type : String)
    (declared : ChannelMap) (name : String) (required : List String) (err : UploadError)
    (h : requireChannel fromString typeUnify kind type declared name required = .error err) :
    err = .typeRequires type kind name ∨ err = .undefinedProperty "length" ∨
      err = .schemaNotCompatible name type ∨ ∃ d, err = .invalidTypeSyntax d := by
  cases h1 : List.lookup name declared with
  | none =>
    rw [requireChannel_absent _ _ _ _ _ _ _ h1] at h
    cases hi : inheritedName name with
    | true =>
      simp only [hi, if_true, Except.error.injEq] at h
      exact Or.inr (Or.inl h.symm)
    | false =>
      simp only [hi, Bool.false_eq_true, if_false, Except.error.injEq] at h
      exact Or.inl h.symm
  | some ch =>
    rw [requireChannel_own _ _ _ _ _ _ _ ch h1] at h
    cases h2 : ch.schema with
    | none =>
      simp only [h2, Except.error.injEq] at h
      exact Or.inr (Or.inl h.symm)
    | some sig =>
      cases h3 : (schemaCompatible fromString typeUnify sig required).result with
      | error e =>
        simp only [h2, h3, Except.error.injEq] at h
        subst h
        exact Or.inr (Or.inr (Or.inr (schemaCompatible_error _ _ _ _ _ h3)))
      | ok b =>
        cases b with
        | true => simp [h2, h3] at h
        | false =>
          simp only [h2, h3, Except.error.injEq] at h
          exact Or.inr (Or.inr (Or.inl h.symm))

theorem validateSchema_error {τ : Type} (fromString : Option String → Except String τ)
    (typeUnify : τ → τ → Except String τ)
    (getTypesByKinds : List String → List InterfaceRow) (type : String) (ast : Descriptor)
    (allowFailure : Bool) (err : UploadError)
    (h : validateSchema fromString typeUnify getTypesByKinds type ast allowFailure
      = .error err) :
    (err = .invalidDeviceType type ∧ allowFailure = false ∧ getTypesByKinds [type] = []) ∨
      (∃ kind name, err = .typeRequires type kind name) ∨ err = .undefinedProperty "length" ∨
      (∃ name, err = .schemaNotCompatible name type) ∨ ∃ d, err = .invalidTypeSyntax d := by
  cases hrows : getTypesByKinds [type] with
  | nil =>
    unfold validateSchema at h
    rw [hrows] at h
    cases allowFailure with
    | true => simp at h
    | false =>
      simp only [Bool.false_eq_true, if_false, Except.error.injEq] at h
      exact Or.inl ⟨h.symm, rfl, rfl⟩
  | cons row rows =>
    rw [validateSchema_eq_forEachTagged fromString typeUnify getTypesByKinds type ast
      allowFailure row rows hrows] at h
    obtain ⟨c, _, hc⟩ := forEachTagged_error _ _ _ h
    rcases requireChannel_error _ _ _ _ _ _ _ _ hc with h1 | h1 | h1 | h1
    · exact Or.inr (Or.inl ⟨_, _, h1⟩)
    · exact Or.inr (Or.inr (Or.inl h1))
    · exact Or.inr (Or.inr (Or.inr (Or.inl ⟨_, h1⟩)))
    · exact Or.inr (Or.inr (Or.inr (Or.inr h1)))

theorem validateSchema_no_rows {τ : Type} (fromString : Option String → Except String τ)
    (typeUnify : τ → τ → Except String τ)
    (getTypesByKinds : List String → List InterfaceRow) (type : String) (ast : Descriptor)
    (allowFailure : Bool) (hrows : getTypesByKinds [type] = []) :
    validateSchema fromString typeUnify getTypesByKinds type ast allowFailure
      = if allowFailure then .ok () else .error (.invalidDeviceType type) := by
  unfold validateSchema
  rw [hrows]

theorem checkInterfaces_filter {τ : Type} (fromString : Option String → Except String τ)
    (typeUnify : τ → τ → Except String τ)
    (getTypesByKinds : List String → List InterfaceRow) (ast : Descriptor) (t : String)
    (hrows : getTypesByKinds [t] = []) (halias : some t = ast.globalName)
    (types : List String) :
    checkInterfaces fromString typeUnify getTypesByKinds ast types
      = checkInterfaces fromString typeUnify getTypesByKinds ast
          (types.filter (fun u => decide (u ≠ t))) := by
  induction types with
  | nil => rfl
  | cons u types ih =>
    by_cases hu : u = t
    · subst hu
      have hv := validateSchema_no_rows fromString typeUnify getTypesByKinds u ast
        (decide (some u = ast.globalName)) hrows
      simp only [halias, decide_True, if_true] at hv
      simp only [checkInterfaces, halias, decide_True, hv, ne_eq, not_true_eq_false,
        decide_False, List.filter_cons_of_neg, Bool.false_eq_true, not_false_eq_true]
      simpa [halias] using ih
    · simp only [checkInterfaces, ne_eq, hu, not_false_eq_true, decide_True,
        List.filter_cons_of_pos]
      cases validateSchema fromString typeUnify getTypesByKinds u ast
          (decide (some u = ast.globalName)) with
      | error e => rfl
      | ok v => simpa using ih

/-! ## Lemmas on `validateDevice` -/

theorem jsIndexOfFrom_nonneg_iff (l : List String) (x : String) :
    ∀ i : Nat, 0 ≤ jsIndexOfFrom l x i ↔ x ∈ l := by
  induction l with
  | nil => intro i; simp [jsIndexOfFrom]
  | cons y l ih =>
    intro i
    by_cases h : y = x
    · simp [jsIndexOfFrom, h]
    · have hne : ¬ x = y := fun e => h e.symm
      simp [jsIndexOfFrom, h, hne, ih (i + 1)]

theorem checkTypeTags_error_iff (ast : Descriptor) :
    checkTypeTags ast = .error .conflictingTypeTags
      ↔ "online-account" ∈ ast.types.getD [] ∧ "data-source" ∈ ast.types.getD [] := by
  unfold checkTypeTags jsIndexOf
  by_cases h : "online-account" ∈ ast.types.getD [] ∧ "data-source" ∈ ast.types.getD []
  · simp [jsIndexOfFrom_nonneg_iff, h]
  · simp only [ge_iff_le, jsIndexOfFrom_nonneg_iff, Bool.and_eq_true, decide_eq_true_eq, h,
      if_false, iff_false]
    intro hc
    cases hc

theorem checkTypeTags_ok_iff (ast : Descriptor) :
    checkTypeTags ast = .ok ()
      ↔ ¬ ("online-account" ∈ ast.types.getD [] ∧ "data-source" ∈ ast.types.getD []) := by
  unfold checkTypeTags jsIndexOf
  by_cases h : "online-account" ∈ ast.types.getD [] ∧ "data-source" ∈ ast.types.getD []
  · simp [jsIndexOfFrom_nonneg_iff, h]
  · simp [jsIndexOfFrom_nonneg_iff, h]

theorem checkChannels_eq_forEachTagged {τ : Type}
    (fromString : Option String → Except String τ) (ast0 : Descriptor) :
    checkChannels fromString ast0
      = match forEachTagged (checkChannel fromString) ast0.channelsInOrder with
        | .error e => .error e
        | .ok _ => .ok ast0.withChannelDefaults := by
  unfold checkChannels Descriptor.channelsInOrder
  simp only [forEachTagged_append, forEachTagged_tagged, Descriptor.channels,
    Descriptor.withChannelDefaults, Option.getD_some]
  cases forEachEntry (checkChannel fromString .trigger) (ast0.triggers.getD []) with
  | error e => rfl
  | ok u =>
    cases forEachEntry (checkChannel fromString .action) (ast0.actions.getD []) with
    | error e => rfl
    | ok u =>
      cases forEachEntry (checkChannel fromString .query) (ast0.queries.getD []) with
      | error e => rfl
      | ok u => rfl

theorem withChannelDefaults_channels (ast0 : Descriptor) (kind : ChannelKind) :
    ast0.withChannelDefaults.channels kind = ast0.channels kind := by
  cases kind <;> simp [Descriptor.channels, Descriptor.withChannelDefaults]

theorem mem_channelsInOrder (ast : Descriptor) (kind : ChannelKind) (name : String)
    (ch : Channel) :
    (kind, name, ch) ∈ ast.channelsInOrder ↔ (name, ch) ∈ ast.channels kind := by
  cases kind <;> simp [Descriptor.channelsInOrder, tagged]

theorem checkChannel_args_mismatch {τ : Type}
    (fromString : Option String → Except String τ) (kind : ChannelKind) (name : String)
    (ch : Channel) (sig : List String) (hsig : ch.schema = some sig)
    (hbad : ArgsMismatch ch sig) :
    checkChannel fromString kind name ch = .error (.invalidNumberOfArguments name) := by
  have hd : (lengthDiffers ch.args sig || lengthDiffers ch.params sig) = true := by
    rcases hbad with ⟨a, ha, hne⟩ | ⟨q, hq, hne⟩
    · simp [lengthDiffers, ha, hne]
    · simp [lengthDiffers, hq, hne]
  cases kind <;> simp only [checkChannel, checkTrigger, checkActionOrQuery, hsig, hd, if_true]

theorem checkChannel_ok_args {τ : Type}
    (fromString : Option String → Except String τ) (kind : ChannelKind) (name : String)
    (ch : Channel) (sig : List String) (hsig : ch.schema = some sig)
    (hok : checkChannel fromString kind name ch = .ok ()) :
    (∀ a, ch.args = some a → a.length = sig.length) ∧
      (∀ q, ch.params = some q → q.length = sig.length) := by
  by_contra hcon
  have hbad : ArgsMismatch ch sig := by
    unfold ArgsMismatch
    by_contra hno
    apply hcon
    constructor
    · intro a ha
      by_contra hne
      exact hno (Or.inl ⟨a, ha, hne⟩)
    · intro q hq
      by_contra hne
      exact hno (Or.inr ⟨q, hq, hne⟩)
  rw [checkChannel_args_mismatch fromString kind name ch sig hsig hbad] at hok
  cases hok

theorem parseAll_late {τ : Type} (fromString : Option String → Except String τ)
    (l : List String) (err : UploadError) (h : parseAll fromString l = .error err) :
    err.late = true := by
  induction l with
  | nil => simp [parseAll] at h
  | cons t l ih =>
    cases h1 : fromString (some t) with
    | error e =>
      simp only [parseAll, h1, Except.error.injEq] at h
      subst h
      rfl
    | ok u =>
      simp only [parseAll, h1] at h
      exact ih h

theorem checkChannel_late {τ : Type} (fromString : Option String → Except String τ)
    (kind : ChannelKind) (name : String) (ch : Channel) (err : UploadError)
    (h : checkChannel fromString kind name ch = .error err) : err.late = true := by
  have haq : ∀ k, checkActionOrQuery fromString k name ch = .error err → err.late = true := by
    intro k h
    unfold checkActionOrQuery at h
    split at h
    · cases h; rfl
    · split at h
      · cases h; rfl
      · split at h
        · cases h; rfl
        · exact parseAll_late fromString _ err h
  cases kind with
  | action => exact haq _ h
  | query => exact haq _ h
  | trigger =>
    simp only [checkChannel] at h
    unfold checkTrigger at h
    split at h
    · cases h; rfl
    · split at h
      · cases h; rfl
      · split at h
        · exact parseAll_late fromString _ err h
        · cases h; rfl
        · split at h
          · cases h; rfl
          · exact parseAll_late fromString _ err h

theorem checkChannels_late {τ : Type} (fromString : Option String → Except String τ)
    (ast0 : Descriptor) (err : UploadError) (h : checkChannels fromString ast0 = .error err) :
    err.late = true := by
  rw [checkChannels_eq_forEachTagged] at h
  cases hf : forEachTagged (checkChannel fromString) ast0.channelsInOrder with
  | ok u => rw [hf] at h; cases h
  | error e =>
    rw [hf] at h
    simp only [Except.error.injEq] at h
    subst h
    obtain ⟨c, _, hc⟩ := forEachTagged_error _ _ _ hf
    exact checkChannel_late fromString _ _ _ _ hc

theorem requireUrl_late (kind : ChannelKind) (l : ChannelMap) (err : UploadError)
    (h : forEachEntry (requireUrl kind) l = .error err) : err.late = true := by
  obtain ⟨e, _, he⟩ := forEachEntry_error _ _ _ h
  unfold requireUrl at he
  split at he
  · cases he; rfl
  · cases he

theorem checkImplementation_late (req : Request) (ast : Descriptor) (err : UploadError)
    (h : checkImplementation req ast = .error err) : err.late = true := by
  unfold checkImplementation at h
  split at h
  · split at h
    · cases h; rfl
    · split at h
      · cases h; rfl
      · split at h
        · rename_i e he
          cases h
          exact requireUrl_late _ _ _ he
        · split at h
          · rename_i e he
            cases h
            exact requireUrl_late _ _ _ he
          · exact requireUrl_late _ _ _ h
  · split at h
    · split at h
      · cases h; rfl
      · split at h
        · cases h; rfl
        · split at h
          · cases h; rfl
          · cases h
    · cases h

theorem checkInterfaces_late {τ : Type} (fromString : Option String → Except String τ)
    (typeUnify : τ → τ → Except String τ)
    (getTypesByKinds : List String → List InterfaceRow) (ast : Descriptor)
    (types : List String) (err : UploadError)
    (h : checkInterfaces fromString typeUnify getTypesByKinds ast types = .error err) :
    err.late = true := by
  obtain ⟨t, _, ht⟩ := checkInterfaces_error _ _ _ _ _ _ h
  rcases validateSchema_error _ _ _ _ _ _ _ ht with h1 | h1 | h1 | h1 | h1
  · rw [h1.1]; rfl
  · obtain ⟨_, _, h1⟩ := h1; rw [h1]; rfl
  · rw [h1]; rfl
  · obtain ⟨_, h1⟩ := h1; rw [h1]; rfl
  · obtain ⟨_, h1⟩ := h1; rw [h1]; rfl

theorem validateDevice_after_channels {τ : Type}
    (jsonParse : String → Except String Descriptor)
    (fromString : Option String → Except String τ) (typeUnify : τ → τ → Except String τ)
    (getTypesByKinds : List String → List InterfaceRow) (req : Request) (ast0 : Descriptor)
    (hp : parseAndCheckAuth jsonParse req = .ok ast0)
    (hc : checkCredentials (fullcodeFlag req) ast0 = .ok ())
    (ht : checkTypeTags ast0 = .ok ()) :
    validateDevice jsonParse fromString typeUnify getTypesByKinds req
      = match checkChannels fromString ast0 with
        | .error e => .error e
        | .ok ast =>
          match checkImplementation req ast with
          | .error e => .error e
          | .ok _ =>
            match checkInterfaces fromString typeUnify getTypesByKinds ast
                (ast.types.getD []) with
            | .error e => .error e
            | .ok _ => .ok ast := by
  simp only [validateDevice, validateLocal, hp, hc, ht]
  cases checkChannels fromString ast0 with
  | error e => rfl
  | ok ast =>
    simp only []
    cases checkImplementation req ast with
    | error e => rfl
    | ok u => rfl

theorem validateDevice_late {τ : Type}
    (jsonParse : String → Except String Descriptor)
    (fromString : Option String → Except String τ) (typeUnify : τ → τ → Except String τ)
    (getTypesByKinds : List String → List InterfaceRow) (req : Request) (ast0 : Descriptor)
    (err : UploadError)
    (hp : parseAndCheckAuth jsonParse req = .ok ast0)
    (hc : checkCredentials (fullcodeFlag req) ast0 = .ok ())
    (ht : checkTypeTags ast0 = .ok ())
    (h : validateDevice jsonParse fromString typeUnify getTypesByKinds req = .error err) :
    err.late = true := by
  rw [validateDevice_after_channels jsonParse fromString typeUnify getTypesByKinds req ast0
    hp hc ht] at h
  cases h1 : checkChannels fromString ast0 with
  | error e =>
    rw [h1] at h
    simp only [Except.error.injEq] at h
    subst h
    exact checkChannels_late _ _ _ h1
  | ok ast =>
    rw [h1] at h
    simp only at h
    cases h2 : checkImplementation req ast with
    | error e =>
      rw [h2] at h
      simp only [Except.error.injEq] at h
      subst h
      exact checkImplementation_late _ _ _ h2
    | ok u =>
      rw [h2] at h
      simp only at h
      cases h3 : checkInterfaces fromString typeUnify getTypesByKinds ast (ast.types.getD [])
        with
      | error e =>
        rw [h3] at h
        simp only [Except.error.injEq] at h
        subst h
        exact checkInterfaces_late _ _ _ _ _ _ h3
      | ok u => rw [h3] at h; cases h

theorem validateDevice_ok_channels {τ : Type}
    (jsonParse : String → Except String Descriptor)
    (fromString : Option String → Except String τ) (typeUnify : τ → τ → Except String τ)
    (getTypesByKinds : List String → List InterfaceRow) (req : Request) (ast : Descriptor)
    (h : validateDevice jsonParse fromString typeUnify getTypesByKinds req = .ok ast) :
    ∃ ast0, parseAndCheckAuth jsonParse req = .ok ast0 ∧
      checkChannels fromString ast0 = .ok ast := by
  unfold validateDevice at h
  cases h1 : validateLocal jsonParse fromString req with
  | error e => rw [h1] at h; cases h
  | ok ast1 =>
    rw [h1] at h
    simp only at h
    have hast : ast1 = ast := by
      cases h2 : checkInterfaces fromString typeUnify getTypesByKinds ast1
          (ast1.types.getD []) with
      | error e => rw [h2] at h; cases h
      | ok u =>
        rw [h2] at h
        simp only [Except.ok.injEq] at h
        exact h
    subst hast
    unfold validateLocal at h1
    cases h3 : parseAndCheckAuth jsonParse req with
    | error e => rw [h3] at h1; cases h1
    | ok ast0 =>
      rw [h3] at h1
      simp only at h1
      cases h4 : checkCredentials (fullcodeFlag req) ast0 with
      | error e => rw [h4] at h1; cases h1
      | ok u =>
        rw [h4] at h1
        simp only at h1
        cases h5 : checkTypeTags ast0 with
        | error e => rw [h5] at h1; cases h1
        | ok u =>
          rw [h5] at h1
          simp only at h1
          cases h6 : checkChannels fromString ast0 with
          | error e => rw [h6] at h1; cases h1
          | ok ast2 =>
            rw [h6] at h1
            simp only at h1
            cases h7 : checkImplementation req ast2 with
            | error e => rw [h7] at h1; cases h1
            | ok u =>
              rw [h7] at h1
              simp only [Except.ok.injEq] at h1
              subst h1
              exact ⟨ast0, rfl, h6⟩

theorem checkCredentials_eq (fullcode : Bool) (ast : Descriptor) :
    checkCredentials fullcode ast
      = if fullcode = true ∧ ast.authType = some "basic" ∧
            ((ast.params.getD []).lookup "username" = none ∨
              (ast.params.getD []).lookup "password" = none) then
          .error .missingCredentialParams
        else .ok () := by
  unfold checkCredentials Descriptor.hasParam
  cases fullcode <;> cases h1 : List.lookup "username" (ast.params.getD []) <;>
    cases h2 : List.lookup "password" (ast.params.getD []) <;>
    by_cases h3 : ast.authType = some "basic" <;> simp [h3]

theorem checkTypeTags_error (ast : Descriptor) (err : UploadError)
    (h : checkTypeTags ast = .error err) : err = .conflictingTypeTags := by
  unfold checkTypeTags at h
  split at h
  · cases h; rfl
  · cases h

theorem validateDevice_after_implementation {τ : Type}
    (jsonParse : String → Except String Descriptor)
    (fromString : Option String → Except String τ) (typeUnify : τ → τ → Except String τ)
    (getTypesByKinds : List String → List InterfaceRow) (req : Request)
    (ast0 ast : Descriptor)
    (hp : parseAndCheckAuth jsonParse req = .ok ast0)
    (hc : checkCredentials (fullcodeFlag req) ast0 = .ok ())
    (ht : checkTypeTags ast0 = .ok ())
    (hch : checkChannels fromString ast0 = .ok ast) :
    validateDevice jsonParse fromString typeUnify getTypesByKinds req
      = match checkImplementation req ast with
        | .error e => .error e
        | .ok _ =>
          match checkInterfaces fromString typeUnify getTypesByKinds ast
              (ast.types.getD []) with
          | .error e => .error e
          | .ok _ => .ok ast := by
  rw [validateDevice_after_channels jsonParse fromString typeUnify getTypesByKinds req ast0
    hp hc ht, hch]

theorem checkImplementation_fullcode (req : Request) (ast : Descriptor)
    (hfull : fullcodeFlag req = true) :
    checkImplementation req ast
      = if truthy ast.name = false then .error .missingName
        else if truthy ast.description = false then .error .missingDescription
        else forEachTagged requireUrl ast.channelsInOrder := by
  unfold checkImplementation Descriptor.channelsInOrder
  simp only [hfull, if_true, forEachTagged_append, forEachTagged_tagged, Descriptor.channels]
  cases truthy ast.name with
  | false => simp
  | true =>
    cases truthy ast.description with
    | false => simp
    | true =>
      simp only [Bool.not_true, Bool.false_eq_true, if_false]
      cases forEachEntry (requireUrl .trigger) (ast.triggers.getD []) with
      | error e => rfl
      | ok u =>
        simp only []
        cases forEachEntry (requireUrl .action) (ast.actions.getD []) with
        | error e => rfl
        | ok u => rfl

theorem requireUrl_ok_iff (kind : ChannelKind) (name : String) (ch : Channel) :
    requireUrl kind name ch = .ok () ↔ truthy ch.url = true := by
  unfold requireUrl
  cases truthy ch.url <;> simp

theorem checkImplementation_package (req : Request) (ast : Descriptor)
    (hnot : fullcodeFlag req = false) :
    checkImplementation req ast
      = if jsStartsWith (req.body.primary_kind.getD "") "org.thingpedia.builtin." = false ∧
            (req.file = none ∨
              ∃ f, req.file = some f ∧ (f.buffer = none ∨ f.buffer = some [])) then
          .error .invalidZipFile
        else .ok () := by
  unfold checkImplementation
  simp only [hnot, Bool.false_eq_true, if_false]
  cases jsStartsWith (req.body.primary_kind.getD "") "org.thingpedia.builtin." with
  | true => simp
  | false =>
    cases hf : req.file with
    | none => simp
    | some f =>
      cases hb : f.buffer with
      | none => simp [hb]
      | some b =>
        cases b with
        | nil => simp [hb]
        | cons x xs => simp [hb]

theorem checkInterfaces_not_zip {τ : Type} (fromString : Option String → Except String τ)
    (typeUnify : τ → τ → Except String τ)
    (getTypesByKinds : List String → List InterfaceRow) (ast : Descriptor)
    (types : List String) :
    checkInterfaces fromString typeUnify getTypesByKinds ast types
      ≠ .error .invalidZipFile := by
  intro h
  obtain ⟨t, _, ht⟩ := checkInterfaces_error _ _ _ _ _ _ h
  rcases validateSchema_error _ _ _ _ _ _ _ ht with h1 | h1 | h1 | h1 | h1
  · cases h1.1
  · obtain ⟨_, _, h1⟩ := h1; cases h1
  · cases h1
  · obtain ⟨_, h1⟩ := h1; cases h1
  · obtain ⟨_, h1⟩ := h1; cases h1

/-! ## Lemmas on the schema table -/

theorem getByKind_mem (store : SchemaStore) (kind : String) (r : SchemaRecord)
    (h : store.getByKind kind = .ok r) : r ∈ store.records ∧ r.kind = kind := by
  unfold SchemaStore.getByKind at h
  cases hf : store.records.find? (fun r => r.kind == kind) with
  | none => rw [hf] at h; cases h
  | some r' =>
    rw [hf] at h
    simp only [Except.ok.injEq] at h
    subst h
    exact ⟨List.mem_of_find?_eq_some hf, by simpa using List.find?_some hf⟩

theorem getByKind_error (store : SchemaStore) (kind : String) (e : UploadError)
    (h : store.getByKind kind = .error e) :
    e = .notFound kind ∧ ∀ r ∈ store.records, r.kind ≠ kind := by
  unfold SchemaStore.getByKind at h
  cases hf : store.records.find? (fun r => r.kind == kind) with
  | some r' => rw [hf] at h; cases h
  | none =>
    rw [hf] at h
    simp only [Except.error.injEq] at h
    refine ⟨h.symm, fun r hr => ?_⟩
    have := List.find?_eq_none.1 hf r hr
    simpa using this

theorem SchemaStore.WF.eq_of_id {store : SchemaStore} (hwf : store.WF)
    {r1 r2 : SchemaRecord} (h1 : r1 ∈ store.records) (h2 : r2 ∈ store.records)
    (hid : r1.id = r2.id) : r1 = r2 :=
  List.inj_on_of_nodup_map hwf.1 h1 h2 hid

theorem getByKind_update (store : SchemaStore) (id : Nat) (versions : SchemaVersions)
    (types : SchemaTypes) (metadata : SchemaMeta) (kind : String) :
    (store.update id versions types metadata).getByKind kind
      = match store.getByKind kind with
        | .ok r => .ok (if r.id = id then r.withUpdate versions types metadata else r)
        | .error e => .error e := by
  unfold SchemaStore.getByKind SchemaStore.update
  simp only [List.find?_map]
  have hcomp : ((fun r : SchemaRecord => r.kind == kind) ∘
      fun r => if r.id = id then r.withUpdate versions types metadata else r)
      = fun r => r.kind == kind := by
    funext r
    simp only [Function.comp]
    split <;> rfl
  rw [hcomp]
  cases store.records.find? (fun r => r.kind == kind) <;> rfl

theorem getByKind_create (store : SchemaStore) (kind' : String) (versions : SchemaVersions)
    (types : SchemaTypes) (metadata : SchemaMeta) (kind : String) :
    (store.create kind' versions types metadata).getByKind kind
      = match store.getByKind kind with
        | .ok r => .ok r
        | .error _ =>
          if kind' = kind then
            .ok { id := store.nextId, kind := kind'
                  developer_version := versions.developer_version
                  approved_version := some versions.approved_version
                  types := types, metadata := metadata }
          else .error (.notFound kind) := by
  unfold SchemaStore.getByKind SchemaStore.create
  simp only [List.find?_append]
  cases store.records.find? (fun r => r.kind == kind) with
  | some r => rfl
  | none =>
    by_cases hk : kind' = kind
    · simp [List.find?, hk]
    · have hb : (kind' == kind) = false := by simpa using hk
      simp [List.find?, hk, hb]

theorem upsertSchema_found (store : SchemaStore) (kind : String) (ast : Descriptor)
    (existing : SchemaRecord) (h : store.getByKind kind = .ok existing) :
    upsertSchema store kind (schemaTypesOf ast) (schemaMetaOf ast)
      = store.update existing.id
          { developer_version := existing.developer_version + 1
            approved_version := approvedPlusOne existing.approved_version }
          (schemaTypesOf ast) (schemaMetaOf ast) := by
  simp only [upsertSchema, h]

theorem upsertSchema_missing (store : SchemaStore) (kind : String) (ast : Descriptor)
    (e : UploadError) (h : store.getByKind kind = .error e) :
    upsertSchema store kind (schemaTypesOf ast) (schemaMetaOf ast)
      = store.create kind { developer_version := 0, approved_version := 0 }
          (schemaTypesOf ast) (schemaMetaOf ast) := by
  simp only [upsertSchema, h]

theorem upsertSchema_getByKind (store : SchemaStore) (kind : String) (ast : Descriptor) :
    (upsertSchema store kind (schemaTypesOf ast) (schemaMetaOf ast)).getByKind kind
      = match store.getByKind kind with
        | .ok existing => .ok (existing.synced ast)
        | .error _ => .ok (freshSchema store.nextId kind ast) := by
  cases h : store.getByKind kind with
  | ok existing =>
    rw [upsertSchema_found store kind ast existing h, getByKind_update, h]
    simp [SchemaRecord.synced]
  | error e =>
    rw [upsertSchema_missing store kind ast e h, getByKind_create, h]
    simp [freshSchema]

theorem upsertSchema_other (store : SchemaStore) (hwf : store.WF) (kind other : String)
    (ast : Descriptor) (hne : kind ≠ other) :
    (upsertSchema store kind (schemaTypesOf ast) (schemaMetaOf ast)).getByKind other
      = store.getByKind other := by
  cases h : store.getByKind kind with
  | ok existing =>
    rw [upsertSchema_found store kind ast existing h, getByKind_update]
    cases ho : store.getByKind other with
    | error e => rfl
    | ok r =>
      obtain ⟨hr, hrk⟩ := getByKind_mem store other r ho
      obtain ⟨he, hek⟩ := getByKind_mem store kind existing h
      have hid : ¬ r.id = existing.id := by
        intro hid
        have := hwf.eq_of_id hr he hid
        rw [this, hek] at hrk
        exact hne hrk
      simp [hid]
  | error e =>
    rw [upsertSchema_missing store kind ast e h, getByKind_create]
    cases ho : store.getByKind other with
    | ok r => rfl
    | error e' =>
      simp only [hne, if_false]
      rw [(getByKind_error store other e' ho).1]

theorem upsertSchema_wf (store : SchemaStore) (hwf : store.WF) (kind : String)
    (types : SchemaTypes) (metadata : SchemaMeta) :
    (upsertSchema store kind types metadata).WF := by
  unfold upsertSchema
  cases h : store.getByKind kind with
  | ok existing =>
    simp only [SchemaStore.update, SchemaStore.WF]
    have hmap : List.map (fun r => r.id)
        (List.map (fun r : SchemaRecord =>
          if r.id = existing.id then r.withUpdate
            { developer_version := existing.developer_version + 1
              approved_version := approvedPlusOne existing.approved_version }
            types metadata else r) store.records)
        = List.map (fun r => r.id) store.records := by
      rw [List.map_map]
      apply List.map_congr_left
      intro r _
      simp only [Function.comp]
      split <;> rfl
    refine ⟨by rw [hmap]; exact hwf.1, ?_⟩
    intro r hr
    obtain ⟨r0, hr0, hrr⟩ := List.mem_map.1 hr
    have hlt := hwf.2 r0 hr0
    rw [← hrr]
    split
    · exact hlt
    · exact hlt
  | error e =>
    simp only [SchemaStore.create, SchemaStore.WF]
    refine ⟨?_, ?_⟩
    · rw [List.map_append, List.nodup_append]
      refine ⟨hwf.1, by simp, ?_⟩
      intro a ha hb
      simp only [List.map_cons, List.map_nil, List.mem_singleton] at hb
      obtain ⟨r, hr, hra⟩ := List.mem_map.1 ha
      have := hwf.2 r hr
      omega
    · intro r hr
      rcases List.mem_append.1 hr with hr | hr
      · have := hwf.2 r hr
        omega
      · simp only [List.mem_singleton] at hr
        subst hr
        simp

theorem approvedPlusOne_le (r : SchemaRecord) (h : r.VersionsOk) :
    approvedPlusOne r.approved_version ≤ r.developer_version + 1 := by
  cases ha : r.approved_version with
  | none => simp [approvedPlusOne]
  | some a =>
    have := h a ha
    simp only [approvedPlusOne]
    omega

theorem upsertSchema_invariant (store : SchemaStore) (hwf : store.WF) (kind : String)
    (ast : Descriptor) (r : SchemaRecord) (hr : r ∈ store.records) (hok : r.VersionsOk) :
    ∃ r' ∈ (upsertSchema store kind (schemaTypesOf ast) (schemaMetaOf ast)).records,
      r'.id = r.id ∧ r.developer_version ≤ r'.developer_version ∧ r'.VersionsOk := by
  cases h : store.getByKind kind with
  | ok existing =>
    rw [upsertSchema_found store kind ast existing h]
    obtain ⟨he, _⟩ := getByKind_mem store kind existing h
    by_cases hid : r.id = existing.id
    · have hre : r = existing := hwf.eq_of_id hr he hid
      subst hre
      refine ⟨r.synced ast, ?_, rfl, ?_, ?_⟩
      · simp only [SchemaStore.update, List.mem_map]
        exact ⟨r, hr, by simp [SchemaRecord.synced]⟩
      · simp [SchemaRecord.synced, SchemaRecord.withUpdate]
      · intro a ha
        simp only [SchemaRecord.synced, SchemaRecord.withUpdate, Option.some.injEq] at ha
        have := approvedPlusOne_le r hok
        simp only [SchemaRecord.synced, SchemaRecord.withUpdate]
        omega
    · refine ⟨r, ?_, rfl, Nat.le_refl _, hok⟩
      simp only [SchemaStore.update, List.mem_map]
      exact ⟨r, hr, by simp [hid]⟩
  | error e =>
    rw [upsertSchema_missing store kind ast e h]
    exact ⟨r, by simp [SchemaStore.create, hr], rfl, Nat.le_refl _, hok⟩

/-! ## Lemmas on example generation after a successful validation -/

theorem parseAll_ok {τ : Type} (fromString : Option String → Except String τ)
    (l : List String) (h : parseAll fromString l = .ok ()) :
    ∀ x ∈ l, ∃ t, fromString (some x) = .ok t := by
  induction l with
  | nil => intro x hx; cases hx
  | cons y l ih =>
    cases h1 : fromString (some y) with
    | error e => simp [parseAll, h1] at h
    | ok t =>
      simp only [parseAll, h1] at h
      intro x hx
      rcases List.mem_cons.1 hx with hx | hx
      · subst hx
        exact ⟨t, h1⟩
      · exact ih h x hx

theorem checkActionOrQuery_ok {τ : Type} (fromString : Option String → Except String τ)
    (kind : ChannelKind) (name : String) (ch : Channel)
    (h : checkActionOrQuery fromString kind name ch = .ok ()) :
    ∃ sig, ch.schema = some sig ∧ lengthDiffers ch.args sig = false ∧
      lengthDiffers ch.params sig = false ∧ parseAll fromString sig = .ok () := by
  unfold checkActionOrQuery at h
  cases hs : ch.schema with
  | none => simp [hs] at h
  | some sig =>
    simp only [hs] at h
    cases ha : lengthDiffers ch.args sig with
    | true => simp [ha] at h
    | false =>
      cases hq : lengthDiffers ch.params sig with
      | true => simp [ha, hq] at h
      | false =>
        simp only [ha, hq, Bool.or_self, Bool.false_eq_true, if_false] at h
        split at h
        · cases h
        · exact ⟨sig, rfl, ha, hq, h⟩

theorem argnames_length (ch : Channel) (sig : List String)
    (ha : lengthDiffers ch.args sig = false) (hq : lengthDiffers ch.params sig = false) :
    ((ch.params.orElse (fun _ => ch.args)).getD []).length ≤ sig.length := by
  cases hp : ch.params with
  | some l =>
    simp only [hp, lengthDiffers, bne_eq_false_iff_eq] at hq
    simp [Option.orElse, hq]
  | none =>
    cases hargs : ch.args with
    | some l =>
      simp only [hargs, lengthDiffers, bne_eq_false_iff_eq] at ha
      simp [Option.orElse, ha]
    | none => simp [Option.orElse]

theorem buildArgtypes_ok {τ : Type} (env : Env τ) (sig : List String)
    (hparse : ∀ x ∈ sig, ∃ t, env.fromString (some x) = .ok t) :
    ∀ (argnames : List String) (i : Nat) (acc : List (String × τ)),
      i + argnames.length ≤ sig.length →
      ∃ argtypes, buildArgtypes env (some sig) argnames i acc = .ok argtypes := by
  intro argnames
  induction argnames with
  | nil => intro i acc _; exact ⟨acc, rfl⟩
  | cons name rest ih =>
    intro i acc hlen
    simp only [List.length_cons] at hlen
    have hi : i < sig.length := by omega
    have hget : sig[i]? = some sig[i] := List.getElem?_eq_getElem hi
    obtain ⟨t, ht⟩ := hparse sig[i] (List.getElem_mem hi)
    simp only [buildArgtypes, hget, ht]
    exact ih (i + 1) (jsSet acc name t) (by omega)

theorem baseRecords_ok {τ : Type} (env : Env τ) (globalName : String) (schemaId : Nat)
    (name : String) (argtypes : List (String × τ)) (examples : List String) :
    ∃ records, baseRecords env globalName schemaId name argtypes examples = .ok records := by
  induction examples with
  | nil => exact ⟨[], rfl⟩
  | cons ex rest ih =>
    obtain ⟨records, hr⟩ := ih
    simp only [baseRecords, exampleToAction, exampleArgs, hr]
    exact ⟨_, rfl⟩

theorem actionExamples_ok {τ : Type} (env : Env τ) (globalName : String) (schemaId : Nat)
    (name : String) (ch : Channel)
    (h : checkActionOrQuery env.fromString .action name ch = .ok ()) :
    ∃ records, actionExamples env globalName schemaId name ch = .ok records := by
  obtain ⟨sig, hs, ha, hq, hp⟩ := checkActionOrQuery_ok env.fromString .action name ch h
  unfold actionExamples
  cases hex : ch.examples with
  | none => exact ⟨[], rfl⟩
  | some examples =>
    obtain ⟨argtypes, hb⟩ := buildArgtypes_ok env sig (parseAll_ok env.fromString sig hp)
      ((ch.params.orElse (fun _ => ch.args)).getD []) 0 []
      (by have := argnames_length ch sig ha hq; omega)
    obtain ⟨base, hbase⟩ := baseRecords_ok env globalName schemaId name argtypes examples
    simp only [hs, hb, hbase]
    exact ⟨_, rfl⟩

theorem generateFrom_ok {τ : Type} (env : Env τ) (globalName : String) (schemaId : Nat)
    (actions : ChannelMap)
    (h : ∀ e ∈ actions, checkActionOrQuery env.fromString .action e.1 e.2 = .ok ()) :
    ∃ records, generateFrom env globalName schemaId actions = .ok records := by
  induction actions with
  | nil => exact ⟨[], rfl⟩
  | cons e rest ih =>
    obtain ⟨name, ch⟩ := e
    obtain ⟨records, hr⟩ := actionExamples_ok env globalName schemaId name ch
      (h (name, ch) (by simp))
    obtain ⟨more, hm⟩ := ih (fun e he => h e (by simp [he]))
    simp only [generateFrom, hr, hm]
    exact ⟨_, rfl⟩

theorem validateDevice_ok_actions {τ : Type}
    (jsonParse : String → Except String Descriptor)
    (fromString : Option String → Except String τ) (typeUnify : τ → τ → Except String τ)
    (getTypesByKinds : List String → List InterfaceRow) (req : Request) (ast : Descriptor)
    (h : validateDevice jsonParse fromString typeUnify getTypesByKinds req = .ok ast) :
    ∀ e ∈ ast.actions.getD [], checkActionOrQuery fromString .action e.1 e.2 = .ok () := by
  obtain ⟨ast0, _, hc⟩ := validateDevice_ok_channels _ _ _ _ _ _ h
  rw [checkChannels_eq_forEachTagged] at hc
  cases hf : forEachTagged (checkChannel fromString) ast0.channelsInOrder with
  | error e => rw [hf] at hc; cases hc
  | ok u =>
    rw [hf] at hc
    simp only [Except.ok.injEq] at hc
    subst hc
    cases u
    intro e he
    have hmem : (ChannelKind.action, e.1, e.2) ∈ ast0.channelsInOrder := by
      rw [mem_channelsInOrder]
      simpa [Descriptor.channels, Descriptor.withChannelDefaults] using he
    exact (forEachTagged_ok_iff _ _).1 hf _ hmem

theorem ensurePrimarySchema_alias_found (store : SchemaStore) (kind : String)
    (ast : Descriptor) (h : truthy ast.globalName = true) :
    ∃ r, (ensurePrimarySchema store kind ast).getByKind (ast.globalName.getD "") = .ok r := by
  unfold ensurePrimarySchema
  simp only [h, Bool.not_true, Bool.false_eq_true, if_false]
  rw [upsertSchema_getByKind]
  cases (upsertSchema store kind (schemaTypesOf ast) (schemaMetaOf ast)).getByKind
      (ast.globalName.getD "") with
  | ok r => exact ⟨_, rfl⟩
  | error e => exact ⟨_, rfl⟩

theorem ensureExamples_frame {τ : Type} (env : Env τ) (db db' : Db) (ast : Descriptor)
    (h : ensureExamples env db ast = .ok db') :
    db'.schemas = db.schemas ∧ db'.devices = db.devices := by
  unfold ensureExamples at h
  split at h
  · cases h; exact ⟨rfl, rfl⟩
  · split at h
    · cases h
    · split at h
      · cases h
      · split at h
        · cases h; exact ⟨rfl, rfl⟩
        · cases h; exact ⟨rfl, rfl⟩

theorem ensureExamples_ok {τ : Type} (env : Env τ) (req : Request) (ast : Descriptor)
    (db : Db)
    (h : validateDevice env.jsonParse env.fromString env.typeUnify env.getTypesByKinds req
      = .ok ast)
    (hfound : truthy ast.globalName = true →
      ∃ r, db.schemas.getByKind (ast.globalName.getD "") = .ok r) :
    ∃ db', ensureExamples env db ast = .ok db' := by
  unfold ensureExamples
  cases htr : truthy ast.globalName with
  | false => exact ⟨db, by simp⟩
  | true =>
    obtain ⟨r, hr⟩ := hfound htr
    obtain ⟨records, hg⟩ := generateFrom_ok env (ast.globalName.getD "") r.id
      (ast.actions.getD []) (validateDevice_ok_actions _ _ _ _ _ _ h)
    simp only [Bool.not_true, Bool.false_eq_true, if_false, hr, generateAllExamples, hg]
    split
    · exact ⟨_, rfl⟩
    · exact ⟨_, rfl⟩

/-! ## Lemmas on `doCreateOrUpdate` -/

theorem doCreateOrUpdate_eq {τ : Type} (env : Env τ) (id : Option Nat) (create : Bool)
    (req : Request) (db : Db) :
    doCreateOrUpdate env id create req db
      = match transactionBody env id create req db with
        | .ok outcome => outcome
        | .error e => { db := db, response := .errorPage e, scheduled := [] } := by
  unfold doCreateOrUpdate withTransaction
  cases transactionBody env id create req db with
  | ok outcome => rfl
  | error e => rfl

theorem transactionBody_valid {τ : Type} (env : Env τ) (id : Option Nat) (create : Bool)
    (req : Request) (db : Db) (ast : Descriptor)
    (h : validateDevice env.jsonParse env.fromString env.typeUnify env.getTypesByKinds req
      = .ok ast) :
    ∃ db2 : Db,
      db2.schemas = ensurePrimarySchema db.schemas (req.body.primary_kind.getD "") ast ∧
      db2.devices = db.devices ∧
      transactionBody env id create req db
        = match upsertDevice env id create req ast db.devices with
          | .error e => .error e
          | .ok (devices, obj) =>
            match packageStep env req ast obj with
            | .error e => .error e
            | .ok scheduled =>
              .ok { db := { db2 with devices := devices }
                    response :=
                      if obj.primary_kind ≠ "" then
                        .redirect ("/thingpedia/devices/by-id/" ++ obj.primary_kind)
                      else .nothing
                    scheduled := scheduled } := by
  obtain ⟨db2, hdb2⟩ := ensureExamples_ok env req ast
    { db with
      schemas := ensurePrimarySchema db.schemas (req.body.primary_kind.getD "") ast } h
    (fun htr => ensurePrimarySchema_alias_found db.schemas _ ast htr)
  obtain ⟨hs, hd⟩ := ensureExamples_frame env _ db2 ast hdb2
  refine ⟨db2, hs, hd, ?_⟩
  unfold transactionBody
  simp only [h, hdb2, hd]

theorem packageStep_not_authorization {τ : Type} (env : Env τ) (req : Request)
    (gAst : Descriptor) (obj : DeviceFields) :
    packageStep env req gAst obj ≠ .error .notAuthorized := by
  unfold packageStep
  intro h
  split at h
  · split at h
    · cases h
    · split at h
      · cases h
      · split at h
        · cases h
        · split at h
          · cases h
          · split at h
            · cases h
            · cases h
  · cases h

theorem DeviceStore.get_update (store : DeviceStore) (id : Option Nat) (obj : DeviceFields)
    (extraKinds extraChildKinds : List String) (code : Descriptor) (old : DeviceRecord)
    (h : store.get id = .ok old) :
    (store.update id obj extraKinds extraChildKinds code).get id
      = .ok { old with
              primary_kind := obj.primary_kind, global_name := obj.global_name
              name := obj.name, description := obj.description, fullcode := obj.fullcode
              owner := obj.owner, developer_version := obj.developer_version
              approved_version := obj.approved_version.getD old.approved_version
              kinds := extraKinds, child_kinds := extraChildKinds, code := code } := by
  cases id with
  | none => simp [DeviceStore.get] at h
  | some i =>
    unfold DeviceStore.get at h
    cases hf : store.records.find? (fun r => r.id == i) with
    | none => simp [hf] at h
    | some r =>
      simp only [hf, Except.ok.injEq] at h
      subst h
      have hid : r.id = i := by simpa using List.find?_some hf
      unfold DeviceStore.get DeviceStore.update
      simp only [List.find?_map]
      have hcomp : ((fun r : DeviceRecord => r.id == i) ∘ fun r : DeviceRecord =>
          if some r.id = some i then
            { r with
              primary_kind := obj.primary_kind, global_name := obj.global_name
              name := obj.name, description := obj.description, fullcode := obj.fullcode
              owner := obj.owner, developer_version := obj.developer_version
              approved_version := obj.approved_version.getD r.approved_version
              kinds := extraKinds, child_kinds := extraChildKinds, code := code }
          else r) = fun r => r.id == i := by
        funext r
        simp only [Function.comp]
        split <;> rfl
      rw [hcomp, hf]
      simp [hid]

theorem doCreateOrUpdate_success {τ : Type} (env : Env τ) (id : Option Nat) (create : Bool)
    (req : Request) (db : Db) (loc : String)
    (h : (doCreateOrUpdate env id create req db).response = .redirect loc) :
    ∃ (ast : Descriptor) (db2 : Db) (devices : DeviceStore) (obj : DeviceFields)
      (scheduled : List PackagingTask),
      validateDevice env.jsonParse env.fromString env.typeUnify env.getTypesByKinds req
        = .ok ast ∧
      db2.schemas = ensurePrimarySchema db.schemas (req.body.primary_kind.getD "") ast ∧
      upsertDevice env id create req ast db.devices = .ok (devices, obj) ∧
      packageStep env req ast obj = .ok scheduled ∧
      doCreateOrUpdate env id create req db
        = { db := { db2 with devices := devices }, response := .redirect loc
            scheduled := scheduled } := by
  cases hv : validateDevice env.jsonParse env.fromString env.typeUnify env.getTypesByKinds req
    with
  | error e =>
    rw [doCreateOrUpdate_eq] at h
    simp [transactionBody, hv] at h
  | ok ast =>
    obtain ⟨db2, hs, _, hbody⟩ := transactionBody_valid env id create req db ast hv
    rw [doCreateOrUpdate_eq, hbody] at h
    cases hu : upsertDevice env id create req ast db.devices with
    | error e => simp [hu] at h
    | ok p =>
      obtain ⟨devices, obj⟩ := p
      cases hp : packageStep env req ast obj with
      | error e => simp [hu, hp] at h
      | ok scheduled =>
        simp only [hu, hp] at h
        refine ⟨ast, db2, devices, obj, scheduled, rfl, hs, hu, hp, ?_⟩
        rw [doCreateOrUpdate_eq, hbody]
        simp only [hu, hp]
        rw [h]

theorem validateDevice_ok_kind {τ : Type}
    (jsonParse : String → Except String Descriptor)
    (fromString : Option String → Except String τ) (typeUnify : τ → τ → Except String τ)
    (getTypesByKinds : List String → List InterfaceRow) (req : Request) (ast : Descriptor)
    (h : validateDevice jsonParse fromString typeUnify getTypesByKinds req = .ok ast) :
    req.body.primary_kind.getD "" ≠ "" := by
  obtain ⟨ast0, hp, _⟩ := validateDevice_ok_channels _ _ _ _ _ _ h
  unfold parseAndCheckAuth at hp
  split at hp
  · cases hp
  · rename_i hfields
    simp only [Bool.or_eq_true, Bool.not_eq_true', not_or, Bool.not_eq_false] at hfields
    have hk := hfields.2
    cases hkind : req.body.primary_kind with
    | none => simp [hkind, truthy] at hk
    | some k => simpa [hkind, truthy] using hk

theorem upsertDevice_update {τ : Type} (env : Env τ) (id : Option Nat) (req : Request)
    (ast : Descriptor) (devices : DeviceStore) (old : DeviceRecord)
    (hold : devices.get id = .ok old) :
    upsertDevice env id false req ast devices
      = if old.owner ≠ req.user.developer_org ∧ req.user.developer_status < env.admin then
          .error .notAuthorized
        else
          .ok (devices.update id (updateFields env req ast old) (ast.types.getD [])
            (ast.child_types.getD []) ast, updateFields env req ast old) := by
  unfold upsertDevice
  simp only [Bool.false_eq_true, if_false, hold]
  by_cases h1 : old.owner = req.user.developer_org
  · simp [h1]
  · by_cases h2 : req.user.developer_status < env.admin
    · simp [h1, h2]
    · simp [h1, h2]

/-! ## Lemmas on the generated examples -/

theorem exampleToAction_nil {τ : Type} (env : Env τ) (kind name : String)
    (argtypes : List (String × τ)) :
    exampleToAction env kind name [] argtypes
      = .ok { name := "tt:" ++ kind ++ "." ++ name, args := [] } := rfl

theorem baseRecords_eq {τ : Type} (env : Env τ) (globalName : String) (schemaId : Nat)
    (name : String) (argtypes : List (String × τ)) (examples : List String) :
    baseRecords env globalName schemaId name argtypes examples
      = .ok (baseOf globalName schemaId name examples) := by
  induction examples with
  | nil => rfl
  | cons ex rest ih => simp only [baseRecords, exampleToAction_nil, ih]; rfl

theorem actionExamples_eq {τ : Type} (env : Env τ) (globalName : String) (schemaId : Nat)
    (name : String) (ch : Channel) (examples : List String) (argtypes : List (String × τ))
    (hex : ch.examples = some examples)
    (hargs : buildArgtypes env ch.schema ((ch.params.orElse (fun _ => ch.args)).getD []) 0 []
      = .ok argtypes) :
    actionExamples env globalName schemaId name ch
      = .ok (baseOf globalName schemaId name examples
          ++ expandedPart env globalName schemaId name argtypes examples) := by
  simp only [actionExamples, hex, hargs, baseRecords_eq]

theorem expandedRecords_not_base {τ : Type} (env : Env τ) (globalName : String)
    (schemaId : Nat) (name : String) (argtypes : List (String × τ)) (l : List Expanded) :
    (expandedRecords env globalName schemaId name argtypes l).filter (fun r => r.is_base)
      = [] := by
  induction l with
  | nil => rfl
  | cons ex rest ih =>
    simp only [expandedRecords]
    split
    · rfl
    · simp [ih]

theorem expandedRecords_schema {τ : Type} (env : Env τ) (globalName : String)
    (schemaId : Nat) (name : String) (argtypes : List (String × τ)) (l : List Expanded) :
    ∀ r ∈ expandedRecords env globalName schemaId name argtypes l, r.schema_id = schemaId := by
  induction l with
  | nil => intro r hr; cases hr
  | cons ex rest ih =>
    intro r hr
    simp only [expandedRecords] at hr
    split at hr
    · cases hr
    · rcases List.mem_cons.1 hr with h | h
      · rw [h]
      · exact ih r h

theorem baseOf_filter (globalName : String) (schemaId : Nat) (name : String)
    (examples : List String) :
    (baseOf globalName schemaId name examples).filter (fun r => r.is_base)
      = baseOf globalName schemaId name examples := by
  induction examples with
  | nil => rfl
  | cons ex rest ih =>
    have ih' : List.filter (fun r => r.is_base)
        (List.map (baseRecord globalName schemaId name) rest)
        = List.map (baseRecord globalName schemaId name) rest := ih
    simp [baseOf, baseRecord, ih']

theorem actionExamples_spec {τ : Type} (env : Env τ) (globalName : String) (schemaId : Nat)
    (name : String) (ch : Channel) (records : List ExampleRecord)
    (h : actionExamples env globalName schemaId name ch = .ok records) :
    records.filter (fun r => r.is_base)
        = (match ch.examples with
          | none => []
          | some examples => baseOf globalName schemaId name examples) ∧
      (∀ r ∈ records, r.schema_id = schemaId) ∧
      ((∀ l a, env.expandExamples l a = .ok []) →
        records = (match ch.examples with
          | none => []
          | some examples => baseOf globalName schemaId name examples)) := by
  unfold actionExamples at h
  cases hex : ch.examples with
  | none =>
    simp only [hex, Except.ok.injEq] at h
    subst h
    exact ⟨rfl, fun r hr => (by cases hr), fun _ => rfl⟩
  | some examples =>
    simp only [hex, baseRecords_eq] at h
    split at h
    · cases h
    · rename_i argtypes _
      simp only [Except.ok.injEq] at h
      subst h
      refine ⟨?_, ?_, ?_⟩
      · simp only [List.filter_append, baseOf_filter, expandedPart]
        split
        · simp
        · simp [expandedRecords_not_base]
      · intro r hr
        rcases List.mem_append.1 hr with hr | hr
        · simp only [baseOf, List.mem_map] at hr
          obtain ⟨ex, _, hex'⟩ := hr
          rw [← hex']
          rfl
        · simp only [expandedPart] at hr
          split at hr
          · cases hr
          · exact expandedRecords_schema _ _ _ _ _ _ r hr
      · intro hnone
        simp [expandedPart, hnone, expandedRecords]

theorem generateFrom_append {τ : Type} (env : Env τ) (globalName : String) (schemaId : Nat)
    (l1 l2 : ChannelMap) :
    generateFrom env globalName schemaId (l1 ++ l2)
      = match generateFrom env globalName schemaId l1 with
        | .error e => .error e
        | .ok r1 =>
          match generateFrom env globalName schemaId l2 with
          | .error e => .error e
          | .ok r2 => .ok (r1 ++ r2) := by
  induction l1 with
  | nil =>
    simp only [List.nil_append, generateFrom]
    cases generateFrom env globalName schemaId l2 with
    | error e => rfl
    | ok r => rfl
  | cons e l1 ih =>
    obtain ⟨name, ch⟩ := e
    simp only [List.cons_append, generateFrom]
    cases actionExamples env globalName schemaId name ch with
    | error e => rfl
    | ok records =>
      simp only []
      have ih' : generateFrom env globalName schemaId (l1.append l2) = _ := ih
      rw [ih']
      cases generateFrom env globalName schemaId l1 with
      | error e => rfl
      | ok r1 =>
        simp only []
        cases generateFrom env globalName schemaId l2 with
        | error e => rfl
        | ok r2 => simp

theorem generateFrom_spec {τ : Type} (env : Env τ) (globalName : String) (schemaId : Nat)
    (actions : ChannelMap) :
    ∀ records, generateFrom env globalName schemaId actions = .ok records →
      records.filter (fun r => r.is_base) = baseAll globalName schemaId actions ∧
      (∀ r ∈ records, r.schema_id = schemaId) ∧
      ((∀ l a, env.expandExamples l a = .ok []) →
        records = baseAll globalName schemaId actions) := by
  induction actions with
  | nil =>
    intro records h
    simp only [generateFrom, Except.ok.injEq] at h
    subst h
    exact ⟨rfl, fun r hr => (by cases hr), fun _ => rfl⟩
  | cons e rest ih =>
    obtain ⟨name, ch⟩ := e
    intro records h
    simp only [generateFrom] at h
    cases ha : actionExamples env globalName schemaId name ch with
    | error e => rw [ha] at h; cases h
    | ok recs =>
      rw [ha] at h
      simp only at h
      cases hg : generateFrom env globalName schemaId rest with
      | error e => rw [hg] at h; cases h
      | ok more =>
        rw [hg] at h
        simp only [Except.ok.injEq] at h
        subst h
        obtain ⟨h1, h2, h3⟩ := actionExamples_spec env globalName schemaId name ch recs ha
        obtain ⟨i1, i2, i3⟩ := ih more hg
        refine ⟨?_, ?_, ?_⟩
        · simp only [List.filter_append, h1, i1, baseAll]
        · intro r hr
          rcases List.mem_append.1 hr with hr | hr
          · exact h2 r hr
          · exact i2 r hr
        · intro hnone
          simp only [baseAll]
          rw [← h3 hnone, ← i3 hnone]

theorem baseAll_length (globalName : String) (schemaId : Nat) (actions : ChannelMap) :
    (baseAll globalName schemaId actions).length = templateCount actions := by
  induction actions with
  | nil => rfl
  | cons e rest ih =>
    obtain ⟨name, ch⟩ := e
    simp only [baseAll, templateCount, List.length_append, ih]
    cases ch.examples with
    | none => rfl
    | some l => simp [baseOf]

theorem expandedRecords_until_failure {τ : Type} (env : Env τ) (globalName : String)
    (schemaId : Nat) (name : String) (argtypes : List (String × τ))
    (good : List Expanded) (bad : Expanded) (rest : List Expanded) (e : UploadError)
    (hgood : ∀ x ∈ good, ∃ inv,
      exampleToAction env globalName name x.assignments argtypes = .ok inv)
    (hbad : exampleToAction env globalName name bad.assignments argtypes = .error e) :
    expandedRecords env globalName schemaId name argtypes (good ++ bad :: rest)
        = expandedRecords env globalName schemaId name argtypes good ∧
      (expandedRecords env globalName schemaId name argtypes good).length = good.length := by
  induction good with
  | nil => simp [expandedRecords, hbad]
  | cons x good ih =>
    obtain ⟨inv, hinv⟩ := hgood x (by simp)
    obtain ⟨ih1, ih2⟩ := ih (fun y hy => hgood y (by simp [hy]))
    have ih1' : expandedRecords env globalName schemaId name argtypes
        (good.append (bad :: rest))
        = expandedRecords env globalName schemaId name argtypes good := ih1
    simp only [List.cons_append, expandedRecords, hinv, List.length_cons, ih2]
    exact ⟨by rw [ih1'], trivial⟩

theorem exampleArgs_typed {τ : Type} (env : Env τ) (argtypes : List (String × τ)) :
    ∀ assignments : List (String × Value),
      (∀ e ∈ assignments, ∃ t tag, argtypes.lookup e.1 = some t ∧ tagOf env t = some tag) →
      exampleArgs env argtypes assignments
        = .ok (assignments.map (fun e => argOf e.1 (tagFor env argtypes e.1) e.2)) := by
  intro assignments
  induction assignments with
  | nil => intro _; rfl
  | cons e rest ih =>
    obtain ⟨name, v⟩ := e
    intro h
    obtain ⟨t, tag, hl, ht⟩ := h (name, v) (by simp)
    have hl' : List.lookup name argtypes = some t := hl
    have ih' := ih (fun e he => h e (by simp [he]))
    simp only [exampleArgs, hl', ih', List.map_cons, tagFor, Option.bind_some]
    unfold tagOf at ht ⊢
    by_cases h1 : env.isString t = true
    · simp [h1, argOf]
    · by_cases h2 : env.isNumber t = true
      · simp [h1, h2, argOf]
      · by_cases h3 : env.isMeasure t = true
        · simp [h1, h2, h3, argOf]
        · by_cases h4 : env.isBoolean t = true
          · simp [h1, h2, h3, h4, argOf]
          · simp [h1, h2, h3, h4] at ht

theorem exampleArgs_other_type {τ : Type} (env : Env τ) (argtypes : List (String × τ)) :
    ∀ assignments : List (String × Value),
      (∀ e ∈ assignments, ∃ t, argtypes.lookup e.1 = some t) →
      (∃ e ∈ assignments, ∃ t, argtypes.lookup e.1 = some t ∧ tagOf env t = none) →
      exampleArgs env argtypes assignments = .error .typeError := by
  intro assignments
  induction assignments with
  | nil => rintro _ ⟨e, he, _⟩; cases he
  | cons e rest ih =>
    obtain ⟨name, v⟩ := e
    intro hall hbad
    obtain ⟨t, hl⟩ := hall (name, v) (by simp)
    have hl' : List.lookup name argtypes = some t := hl
    by_cases hnone : tagOf env t = none
    · unfold tagOf at hnone
      simp only [exampleArgs, hl']
      by_cases h1 : env.isString t = true
      · simp [h1] at hnone
      · by_cases h2 : env.isNumber t = true
        · simp [h1, h2] at hnone
        · by_cases h3 : env.isMeasure t = true
          · simp [h1, h2, h3] at hnone
          · by_cases h4 : env.isBoolean t = true
            · simp [h1, h2, h3, h4] at hnone
            · simp [h1, h2, h3, h4]
    · have hrest : exampleArgs env argtypes rest = .error .typeError := by
        apply ih (fun e he => hall e (by simp [he]))
        obtain ⟨e, he, t', hl2, ht2⟩ := hbad
        rcases List.mem_cons.1 he with h | h
        · subst h
          rw [hl'] at hl2
          simp only [Option.some.injEq] at hl2
          subst hl2
          exact absurd ht2 hnone
        · exact ⟨e, h, t', hl2, ht2⟩
      simp only [exampleArgs, hl', hrest]
      unfold tagOf at hnone
      by_cases h1 : env.isString t = true
      · simp [h1]
      · by_cases h2 : env.isNumber t = true
        · simp [h1, h2]
        · by_cases h3 : env.isMeasure t = true
          · simp [h1, h2, h3]
          · by_cases h4 : env.isBoolean t = true
            · simp [h1, h2, h3, h4]
            · simp [h1, h2, h3, h4] at hnone

theorem upsertDevice_fields {τ : Type} (env : Env τ) (id : Option Nat) (create : Bool)
    (req : Request) (ast : Descriptor) (devices devices' : DeviceStore) (obj : DeviceFields)
    (h : upsertDevice env id create req ast devices = .ok (devices', obj)) :
    obj.fullcode = fullcodeFlag req ∧ obj.primary_kind = req.body.primary_kind.getD "" := by
  unfold upsertDevice at h
  split at h
  · simp only [Except.ok.injEq, Prod.mk.injEq] at h
    rw [← h.2]
    exact ⟨rfl, rfl⟩
  · split at h
    · cases h
    · split at h
      · cases h
      · simp only [Except.ok.injEq, Prod.mk.injEq] at h
        rw [← h.2]
        exact ⟨rfl, rfl⟩

theorem deleteBySchema_filter_same (examples : List ExampleRecord) (schemaId : Nat) :
    (deleteBySchema examples schemaId).filter (fun r => r.schema_id == schemaId) = [] := by
  induction examples with
  | nil => rfl
  | cons r rest ih =>
    unfold deleteBySchema at ih ⊢
    by_cases h : r.schema_id = schemaId
    · simp [List.filter_cons, h, ih]
    · simp [List.filter_cons, h, ih]

theorem deleteBySchema_filter_other (examples : List ExampleRecord) (schemaId : Nat) :
    (deleteBySchema examples schemaId).filter (fun r => r.schema_id != schemaId)
      = examples.filter (fun r => r.schema_id != schemaId) := by
  unfold deleteBySchema
  simp [List.filter_filter]

theorem filter_same_of_all (l : List ExampleRecord) (schemaId : Nat)
    (h : ∀ r ∈ l, r.schema_id = schemaId) :
    l.filter (fun r => r.schema_id == schemaId) = l ∧
      l.filter (fun r => r.schema_id != schemaId) = [] := by
  induction l with
  | nil => exact ⟨rfl, rfl⟩
  | cons r rest ih =>
    have hr := h r (by simp)
    obtain ⟨i1, i2⟩ := ih (fun x hx => h x (by simp [hx]))
    simp [List.filter_cons, hr, i1, i2]

/-! ## Lemmas on the compatibility loop -/

theorem everyCompatible_congr {τ : Type} (fromString : Option String → Except String τ)
    (typeUnify : τ → τ → Except String τ) (s1 s1' : List String) :
    ∀ (rest : List String) (i : Nat),
      (∀ j, i ≤ j → j < i + rest.length → s1[j]? = s1'[j]?) →
      everyCompatible fromString typeUnify s1 rest i
        = everyCompatible fromString typeUnify s1' rest i := by
  intro rest
  induction rest with
  | nil => intro i _; rfl
  | cons t rest ih =>
    intro i h
    have hi : s1[i]? = s1'[i]? := h i (Nat.le_refl i) (by simp)
    have hrest := ih (i + 1) (fun j h1 h2 => h j (by omega) (by simp; omega))
    simp only [everyCompatible, hi, hrest]

theorem everyCompatible_self {τ : Type} (fromString : Option String → Except String τ)
    (typeUnify : τ → τ → Except String τ) (s : List String)
    (hrefl : ∀ x ∈ s, ∃ t, fromString (some x) = .ok t ∧ ∃ u, typeUnify t t = .ok u) :
    ∀ (rest : List String) (i : Nat), s.drop i = rest →
      (everyCompatible fromString typeUnify s rest i).result = .ok true := by
  intro rest
  induction rest with
  | nil => intro i _; rfl
  | cons t rest ih =>
    intro i h
    have hi : s[i]? = some t := by
      have := congrArg List.head? h
      simpa [List.head?_drop] using this
    have hmem : t ∈ s := List.getElem?_mem hi
    have hdrop : s.drop (i + 1) = rest := by
      have := congrArg List.tail h
      simpa [List.tail_drop] using this
    obtain ⟨ty, hp, u, hu⟩ := hrefl t hmem
    simp only [everyCompatible, hi, hp, hu]
    exact ih (i + 1) hdrop

theorem everyCompatible_malformed {τ : Type} (fromString : Option String → Except String τ)
    (typeUnify : τ → τ → Except String τ) (s1 : List String) :
    ∀ (rest : List String) (i k : Nat) (x : String), rest[k]? = some x →
      ((∃ e, fromString (some x) = .error e) ∨ (∃ e, fromString s1[i + k]? = .error e)) →
      ((everyCompatible fromString typeUnify s1 rest i).result = .ok false ∨
        ∃ e, (everyCompatible fromString typeUnify s1 rest i).result
          = .error (.invalidTypeSyntax e)) ∧
      ((∀ j < k, ∃ y t1 t2 u, rest[j]? = some y ∧ fromString (some y) = .ok t1 ∧
          fromString s1[i + j]? = .ok t2 ∧ typeUnify t1 t2 = .ok u) →
        ∃ e, (everyCompatible fromString typeUnify s1 rest i).result
          = .error (.invalidTypeSyntax e)) := by
  intro rest
  induction rest with
  | nil => intro i k x h; simp at h
  | cons t rest ih =>
    intro i k x hk hbad
    cases k with
    | zero =>
      simp only [List.getElem?_cons_zero, Option.some.injEq] at hk
      subst hk
      simp only [Nat.add_zero] at hbad
      have key : ∃ e, (everyCompatible fromString typeUnify s1 (t :: rest) i).result
          = .error (.invalidTypeSyntax e) := by
        rcases hbad with ⟨e, he⟩ | ⟨e, he⟩
        · exact ⟨e, by simp only [everyCompatible, he]⟩
        · cases h1 : fromString (some t) with
          | error e1 => exact ⟨e1, by simp only [everyCompatible, h1]⟩
          | ok t1 => exact ⟨e, by simp only [everyCompatible, h1, he]⟩
      exact ⟨Or.inr key, fun _ => key⟩
    | succ k =>
      simp only [List.getElem?_cons_succ] at hk
      have hbad' : (∃ e, fromString (some x) = .error e) ∨
          (∃ e, fromString s1[i + 1 + k]? = .error e) := by
        have : i + 1 + k = i + (k + 1) := by omega
        rw [this]; exact hbad
      obtain ⟨ih1, ih2⟩ := ih (i + 1) k x hk hbad'
      cases h1 : fromString (some t) with
      | error e1 =>
        refine ⟨Or.inr ⟨e1, by simp only [everyCompatible, h1]⟩, fun _ => ⟨e1, ?_⟩⟩
        simp only [everyCompatible, h1]
      | ok t1 =>
        cases h2 : fromString s1[i]? with
        | error e2 =>
          refine ⟨Or.inr ⟨e2, by simp only [everyCompatible, h1, h2]⟩,
            fun _ => ⟨e2, ?_⟩⟩
          simp only [everyCompatible, h1, h2]
        | ok t2 =>
          cases h3 : typeUnify t1 t2 with
          | error e3 =>
            refine ⟨Or.inl (by simp only [everyCompatible, h1, h2, h3]), fun hall => ?_⟩
            obtain ⟨y, u1, u2, u, hy, hp1, hp2, hu⟩ := hall 0 (by omega)
            simp only [List.getElem?_cons_zero, Option.some.injEq] at hy
            subst hy
            simp only [Nat.add_zero] at hp2
            rw [h1] at hp1
            rw [h2] at hp2
            cases hp1
            cases hp2
            rw [h3] at hu
            cases hu
          | ok u3 =>
            simp only [everyCompatible, h1, h2, h3]
            refine ⟨ih1, fun hall => ih2 (fun j hj => ?_)⟩
            obtain ⟨y, u1, u2, u, hy, hp1, hp2, hu⟩ := hall (j + 1) (by omega)
            simp only [List.getElem?_cons_succ] at hy
            have : i + (j + 1) = i + 1 + j := by omega
            rw [this] at hp2
            exact ⟨y, u1, u2, u, hy, hp1, hp2, hu⟩

/-! ## Theorems -/

/-- C1: when the declared signature is shorter than the required one, `schemaCompatible`
returns `false`, and it does so without a single call to the type parser or the unifier
(the call log is empty), whatever those two functions do. -/
theorem schemaCompatible_shorter_declared {τ : Type}
    (fromString : Option String → Except String τ) (typeUnify : τ → τ → Except String τ)
    (d r : List String) (h : d.length < r.length) :
    schemaCompatible fromString typeUnify d r = ⟨[], .ok false⟩ := by
  unfold schemaCompatible
  rw [if_neg (by omega)]

theorem schemaCompatible_shorter_declared_witness :
    ["String"].length < ["String", "Number"].length ∧
      schemaCompatible sampleFromString sampleTypeUnify ["String"] ["String", "Number"]
        = ⟨[], .ok false⟩ :=
  ⟨by decide, schemaCompatible_shorter_declared _ _ _ _ (by decide)⟩

/-- C2: `schemaCompatible s s` returns `true` for every signature `s` whose entries all parse,
the unifier accepting two identical parsed types. -/
theorem schemaCompatible_refl {τ : Type}
    (fromString : Option String → Except String τ) (typeUnify : τ → τ → Except String τ)
    (s : List String)
    (hparse : ∀ x ∈ s, ∃ t, fromString (some x) = .ok t)
    (hunify : ∀ x ∈ s, ∀ t, fromString (some x) = .ok t → ∃ u, typeUnify t t = .ok u) :
    (schemaCompatible fromString typeUnify s s).result = .ok true := by
  unfold schemaCompatible
  rw [if_pos (Nat.le_refl _)]
  refine everyCompatible_self fromString typeUnify s ?_ s 0 (by simp)
  intro x hx
  obtain ⟨t, ht⟩ := hparse x hx
  exact ⟨t, ht, hunify x hx t ht⟩

theorem schemaCompatible_refl_witness :
    (schemaCompatible sampleFromString sampleTypeUnify ["String", "Number"]
      ["String", "Number"]).result = .ok true :=
  schemaCompatible_refl sampleFromString sampleTypeUnify ["String", "Number"]
    (by simp [sampleFromString])
    (by
      intro x _ t _
      exact ⟨t, by simp [sampleTypeUnify]⟩)

/-- C3: when the declared signature is at least as long as the required one,
`schemaCompatible d r` is `schemaCompatible` of the first `length r` entries of `d` and `r`:
the value or exception is the same and so is the sequence of parser and unifier calls, so the
entries of `d` from position `length r` on are never read, well-formed or not. -/
theorem schemaCompatible_ignores_extra {τ : Type}
    (fromString : Option String → Except String τ) (typeUnify : τ → τ → Except String τ)
    (d r : List String) (h : d.length ≥ r.length) :
    schemaCompatible fromString typeUnify d r
      = schemaCompatible fromString typeUnify (d.take r.length) r := by
  unfold schemaCompatible
  have hlen : (d.take r.length).length ≥ r.length := by
    simp only [List.length_take]; omega
  rw [if_pos h, if_pos hlen]
  apply everyCompatible_congr
  intro j _ hj
  rw [List.getElem?_take]
  rw [if_pos (by omega)]

theorem schemaCompatible_ignores_extra_witness :
    ["String", "Bogus(", "Number"].length ≥ ["Any"].length ∧
      schemaCompatible sampleFromString sampleTypeUnify ["String", "Bogus(", "Number"] ["Any"]
        = schemaCompatible sampleFromString sampleTypeUnify
            (["String", "Bogus(", "Number"].take ["Any"].length) ["Any"] :=
  ⟨by decide, schemaCompatible_ignores_extra _ _ _ _ (by decide)⟩

/-- C4 (as stated, refuted): with the malformed required expression `Bogus(` at the only
shared position, `schemaCompatible` raises the parser's error; it does not return `false`. -/
theorem schemaCompatible_malformed_raises :
    (schemaCompatible sampleFromString sampleTypeUnify ["String"] ["Bogus("]).result
        = .error (.invalidTypeSyntax "Invalid type Bogus(") ∧
      (schemaCompatible sampleFromString sampleTypeUnify ["String"] ["Bogus("]).result
        ≠ .ok false := by
  constructor
  · simp [schemaCompatible, everyCompatible, sampleFromString]
  · simp [schemaCompatible, everyCompatible, sampleFromString]

/-- C4 (amended): when the declared signature is at least as long as the required one and
the type expression at a shared position `i` is malformed on either side, `schemaCompatible`
never returns `true`: it returns `false` or raises a parser error; and it raises a parser
error whenever every position before `i` parses and unifies. -/
theorem schemaCompatible_malformed {τ : Type}
    (fromString : Option String → Except String τ) (typeUnify : τ → τ → Except String τ)
    (d r : List String) (i : Nat) (h : d.length ≥ r.length)
    (hbad : PositionMalformed fromString d r i) :
    ((schemaCompatible fromString typeUnify d r).result = .ok false ∨
        ∃ e, (schemaCompatible fromString typeUnify d r).result
          = .error (.invalidTypeSyntax e)) ∧
      ((∀ j < i, PositionUnifies fromString typeUnify d r j) →
        ∃ e, (schemaCompatible fromString typeUnify d r).result
          = .error (.invalidTypeSyntax e)) := by
  obtain ⟨x, hx, hbad⟩ := hbad
  unfold schemaCompatible
  rw [if_pos h]
  have := everyCompatible_malformed fromString typeUnify d r 0 i x hx
    (by simpa using hbad)
  refine ⟨this.1, fun hall => this.2 (fun j hj => ?_)⟩
  obtain ⟨y, t1, t2, u, hy, h1, h2, hu⟩ := hall j hj
  exact ⟨y, t1, t2, u, hy, h1, by simpa using h2, hu⟩

theorem schemaCompatible_malformed_witness :
    ((schemaCompatible sampleFromString sampleTypeUnify ["String", "Number"]
          ["String", "Bogus("]).result = .ok false ∨
        ∃ e, (schemaCompatible sampleFromString sampleTypeUnify ["String", "Number"]
          ["String", "Bogus("]).result = .error (.invalidTypeSyntax e)) ∧
      ((∀ j < 1, PositionUnifies sampleFromString sampleTypeUnify ["String", "Number"]
          ["String", "Bogus("] j) →
        ∃ e, (schemaCompatible sampleFromString sampleTypeUnify ["String", "Number"]
          ["String", "Bogus("]).result = .error (.invalidTypeSyntax e)) :=
  schemaCompatible_malformed sampleFromString sampleTypeUnify ["String", "Number"]
    ["String", "Bogus("] 1 (by decide)
    ⟨"Bogus(", by simp, Or.inl ⟨"Invalid type Bogus(", by simp [sampleFromString]⟩⟩

/-- C5 (as stated, refuted): the descriptor passes steps 1-9 and claims the interface
`iface`, whose schema is found; the required trigger `b` is absent from the descriptor, yet
validation fails with the incompatible-schema error for the trigger `a`, which is checked
first, and not with the missing-required-channel error naming `b`. -/
theorem validateDevice_incompatible_before_missing :
    (∃ ast, validateLocal (parseFromTable [("src", descriptorIncompatibleThenMissing)])
        sampleFromString sampleRequest = .ok ast ∧ ast.types = some ["iface"] ∧
        (ast.channels .trigger).lookup "b" = none) ∧
      sampleInterfaces ["iface"]
        = [{ types := { triggers := [("a", ["Number"]), ("b", [])] } }] ∧
      validateDevice (parseFromTable [("src", descriptorIncompatibleThenMissing)])
        sampleFromString sampleTypeUnify sampleInterfaces sampleRequest
        = .error (.schemaNotCompatible "a" "iface") ∧
      validateDevice (parseFromTable [("src", descriptorIncompatibleThenMissing)])
        sampleFromString sampleTypeUnify sampleInterfaces sampleRequest
        ≠ .error (.typeRequires "iface" .trigger "b") := by
  refine ⟨⟨_, rfl, rfl, rfl⟩, rfl, rfl, ?_⟩
  intro h
  have h' : validateDevice (parseFromTable [("src", descriptorIncompatibleThenMissing)])
      sampleFromString sampleTypeUnify sampleInterfaces sampleRequest
      = .error (.schemaNotCompatible "a" "iface") := rfl
  rw [h'] at h
  cases h

/-- C5 (amended): for a descriptor that passes steps 1-9 and a claimed interface type whose
schema is found, the interface types before it passing: the required channels are examined
in the order triggers, actions, queries, each first for presence (`name in map`) and then
for compatibility, and the first one that fails decides. If it is absent from the map and
its name is not one that every object inherits from `Object.prototype`, validation fails
with the missing-required-channel error naming it; if it is absent but its name is
inherited (`constructor`, `toString`, ...), the presence test passes and validation fails
with the `TypeError` raised on the length of the missing signature; if it is present and
`schemaCompatible` (declared first, required second) returns `false`, validation fails
with the incompatible-schema error naming it; and if every required channel is present and
compatible, this interface raises no error. -/
theorem validateDevice_interface_first_failure {τ : Type}
    (jsonParse : String → Except String Descriptor)
    (fromString : Option String → Except String τ) (typeUnify : τ → τ → Except String τ)
    (getTypesByKinds : List String → List InterfaceRow) (req : Request) (ast : Descriptor)
    (type : String) (row : InterfaceRow) (rows : List InterfaceRow) (tpre tpost : List String)
    (hlocal : validateLocal jsonParse fromString req = .ok ast)
    (htypes : ast.types.getD [] = tpre ++ type :: tpost)
    (hpre : ∀ t ∈ tpre, validateSchema fromString typeUnify getTypesByKinds t ast
      (decide (some t = ast.globalName)) = .ok ())
    (hrow : getTypesByKinds [type] = row :: rows) :
    (∀ pre kind name required post,
        row.types.required = pre ++ (kind, name, required) :: post →
        (∀ c ∈ pre, Satisfies fromString typeUnify ast c) →
        ((ast.channels kind).lookup name = none → inheritedName name = false →
          validateDevice jsonParse fromString typeUnify getTypesByKinds req
            = .error (.typeRequires type kind name)) ∧
        ((ast.channels kind).lookup name = none → inheritedName name = true →
          validateDevice jsonParse fromString typeUnify getTypesByKinds req
            = .error (.undefinedProperty "length")) ∧
        (∀ ch s, (ast.channels kind).lookup name = some ch → ch.schema = some s →
          (schemaCompatible fromString typeUnify s required).result = .ok false →
          validateDevice jsonParse fromString typeUnify getTypesByKinds req
            = .error (.schemaNotCompatible name type))) ∧
      ((∀ c ∈ row.types.required, Satisfies fromString typeUnify ast c) →
        validateSchema fromString typeUnify getTypesByKinds type ast
          (decide (some type = ast.globalName)) = .ok ()) := by
  have hschema := validateSchema_eq_forEachTagged fromString typeUnify getTypesByKinds type ast
    (decide (some type = ast.globalName)) row rows hrow
  have hdev : ∀ err, validateSchema fromString typeUnify getTypesByKinds type ast
      (decide (some type = ast.globalName)) = .error err →
      validateDevice jsonParse fromString typeUnify getTypesByKinds req = .error err := by
    intro err herr
    rw [validateDevice_of_local jsonParse fromString typeUnify getTypesByKinds req ast hlocal,
      htypes,
      checkInterfaces_first_error fromString typeUnify getTypesByKinds ast tpre tpost type err
        hpre herr]
  refine ⟨?_, ?_⟩
  · intro pre kind name required post hsplit hsat
    have hpre' : ∀ c ∈ pre,
        requireChannel fromString typeUnify c.1 type (ast.channels c.1) c.2.1 c.2.2 = .ok () :=
      fun c hc => (requireChannel_ok_iff fromString typeUnify type ast c).2 (hsat c hc)
    refine ⟨fun hnone hown => hdev _ ?_, fun hnone hinh => hdev _ ?_,
      fun ch sig hsome hsig hfalse => hdev _ ?_⟩
    · rw [hschema, hsplit]
      apply forEachTagged_first_error _ pre post kind name required _ hpre'
      simp only [requireChannel_absent _ _ _ _ _ _ _ hnone, hown, Bool.false_eq_true, if_false]
    · rw [hschema, hsplit]
      apply forEachTagged_first_error _ pre post kind name required _ hpre'
      simp only [requireChannel_absent _ _ _ _ _ _ _ hnone, hinh, if_true]
    · rw [hschema, hsplit]
      apply forEachTagged_first_error _ pre post kind name required _ hpre'
      simp only [requireChannel_own _ _ _ _ _ _ _ ch hsome, hsig, hfalse]
  · intro hall
    rw [hschema, forEachTagged_ok_iff]
    exact fun c hc => (requireChannel_ok_iff fromString typeUnify type ast c).2 (hall c hc)

theorem validateDevice_interface_first_failure_witness :
    validateDevice (parseFromTable [("src", descriptorMissingSecond)])
        sampleFromString sampleTypeUnify sampleInterfaces sampleRequest
      = .error (.typeRequires "iface" .trigger "b") ∧
    validateDevice (parseFromTable [("src", descriptorClaimsProto)])
        sampleFromString sampleTypeUnify interfacesInherited sampleRequest
      = .error (.undefinedProperty "length") :=
  ⟨((validateDevice_interface_first_failure
      (parseFromTable [("src", descriptorMissingSecond)]) sampleFromString sampleTypeUnify
      sampleInterfaces sampleRequest
      { descriptorMissingSecond with
        params := some [], child_types := some [], auth := some { type := some "none" },
        actions := some [], queries := some [] }
      "iface" { types := { triggers := [("a", ["Number"]), ("b", [])] } } [] [] []
      rfl rfl (by simp) rfl).1
    [(.trigger, "a", ["Number"])] .trigger "b" [] [] rfl
    (by
      intro c hc
      simp only [List.mem_singleton] at hc
      subst hc
      exact ⟨{ schema := some ["Number"], url := some "http://x/a" }, ["Number"], rfl, rfl,
        rfl⟩)).1 rfl rfl,
   ((validateDevice_interface_first_failure
      (parseFromTable [("src", descriptorClaimsProto)]) sampleFromString sampleTypeUnify
      interfacesInherited sampleRequest
      { descriptorClaimsProto with
        params := some [], child_types := some [], auth := some { type := some "none" },
        triggers := some [], actions := some [], queries := some [] }
      "proto" { types := { triggers := [("constructor", [])] } } [] [] []
      rfl rfl (by simp) rfl).1
    [] .trigger "constructor" [] [] rfl (by simp)).2.1 rfl rfl⟩

/-- C6: for a descriptor that passes steps 1-9 and a claimed interface type `t` whose lookup
returns no rows. The check of `t` raises the unknown-interface-type error exactly when `t`
differs from the descriptor's alias. At the level of the whole validation: the error
naming `t` is raised only if `t` differs from the alias; if `t` differs from the alias,
validation fails, and the failure is the unknown-interface-type error naming `t` when the
interface types listed before `t` pass (the first failure wins); if `t` equals the alias,
its check succeeds and the outcome of step 10 is the one obtained with `t` removed from the
types list. -/
theorem validateDevice_unknown_interface {τ : Type}
    (jsonParse : String → Except String Descriptor)
    (fromString : Option String → Except String τ) (typeUnify : τ → τ → Except String τ)
    (getTypesByKinds : List String → List InterfaceRow) (req : Request) (ast : Descriptor)
    (t : String)
    (hlocal : validateLocal jsonParse fromString req = .ok ast)
    (hmem : t ∈ ast.types.getD [])
    (hrows : getTypesByKinds [t] = []) :
    (validateSchema fromString typeUnify getTypesByKinds t ast
        (decide (some t = ast.globalName)) = .error (.invalidDeviceType t)
      ↔ some t ≠ ast.globalName) ∧
    (validateDevice jsonParse fromString typeUnify getTypesByKinds req
        = .error (.invalidDeviceType t) → some t ≠ ast.globalName) ∧
    (some t ≠ ast.globalName →
      (∃ e, validateDevice jsonParse fromString typeUnify getTypesByKinds req = .error e) ∧
      ∀ tpre tpost, ast.types.getD [] = tpre ++ t :: tpost →
        (∀ u ∈ tpre, validateSchema fromString typeUnify getTypesByKinds u ast
          (decide (some u = ast.globalName)) = .ok ()) →
        validateDevice jsonParse fromString typeUnify getTypesByKinds req
          = .error (.invalidDeviceType t)) ∧
    (some t = ast.globalName →
      validateSchema fromString typeUnify getTypesByKinds t ast
        (decide (some t = ast.globalName)) = .ok () ∧
      checkInterfaces fromString typeUnify getTypesByKinds ast (ast.types.getD [])
        = checkInterfaces fromString typeUnify getTypesByKinds ast
            ((ast.types.getD []).filter (fun u => decide (u ≠ t)))) := by
  have hv := validateSchema_no_rows fromString typeUnify getTypesByKinds t ast
    (decide (some t = ast.globalName)) hrows
  have hdev := validateDevice_of_local jsonParse fromString typeUnify getTypesByKinds req ast
    hlocal
  have hneq : some t ≠ ast.globalName →
      validateSchema fromString typeUnify getTypesByKinds t ast
        (decide (some t = ast.globalName)) = .error (.invalidDeviceType t) := by
    intro hne
    rw [hv]
    simp [hne]
  refine ⟨⟨?_, hneq⟩, ?_, ?_, ?_⟩
  · intro h heq
    rw [hv] at h
    simp [heq] at h
  · intro h heq
    rw [hdev] at h
    cases hc : checkInterfaces fromString typeUnify getTypesByKinds ast (ast.types.getD [])
      with
    | ok u => rw [hc] at h; cases h
    | error e =>
      rw [hc] at h
      simp only [Except.error.injEq] at h
      subst h
      obtain ⟨u, _, hu⟩ := checkInterfaces_error _ _ _ _ _ _ hc
      rcases validateSchema_error _ _ _ _ _ _ _ hu with h1 | h1 | h1 | h1 | h1
      · obtain ⟨h1, h2, _⟩ := h1
        simp only [UploadError.invalidDeviceType.injEq] at h1
        subst h1
        simp [heq] at h2
      · obtain ⟨_, _, h1⟩ := h1; cases h1
      · cases h1
      · obtain ⟨_, h1⟩ := h1; cases h1
      · obtain ⟨_, h1⟩ := h1; cases h1
  · intro hne
    refine ⟨?_, ?_⟩
    · rw [hdev]
      cases hc : checkInterfaces fromString typeUnify getTypesByKinds ast (ast.types.getD [])
        with
      | error e => exact ⟨e, rfl⟩
      | ok u =>
        have := (checkInterfaces_ok_iff fromString typeUnify getTypesByKinds ast _).1 hc t hmem
        rw [hneq hne] at this
        cases this
    · intro tpre tpost hsplit hpre
      rw [hdev, hsplit,
        checkInterfaces_first_error fromString typeUnify getTypesByKinds ast tpre tpost t _
          hpre (hneq hne)]
  · intro heq
    refine ⟨?_, checkInterfaces_filter fromString typeUnify getTypesByKinds ast t hrows heq _⟩
    rw [hv]
    simp [heq]

theorem validateDevice_unknown_interface_witness :
    validateDevice (parseFromTable [("src", descriptorSelfAndGhost)])
        sampleFromString sampleTypeUnify sampleInterfaces sampleRequest
      = .error (.invalidDeviceType "ghost") :=
  ((validateDevice_unknown_interface
      (parseFromTable [("src", descriptorSelfAndGhost)]) sampleFromString sampleTypeUnify
      sampleInterfaces sampleRequest
      descriptorSelfAndGhost.withDefaults.withChannelDefaults "ghost"
      rfl (by decide) rfl).2.2.1 (by decide)).2 ["myalias"] [] rfl
    (by
      intro u hu
      simp only [List.mem_singleton] at hu
      subst hu
      rfl)

/-- C7 (the code at the failing input): a trigger with a signature of length two and a single
clarification question is accepted, while the same channel declared as an action is
rejected with the arity error; and a trigger that declares questions without `args` fails
with a JavaScript `TypeError` even though its question count equals its signature length. -/
theorem validateDevice_trigger_questions_unchecked :
    validateDevice (parseFromTable [("src", descriptorTriggerQuestions)])
        sampleFromString sampleTypeUnify sampleInterfaces sampleRequest
      = .ok descriptorTriggerQuestions.withDefaults.withChannelDefaults ∧
    validateDevice (parseFromTable [("src", descriptorActionQuestions)])
        sampleFromString sampleTypeUnify sampleInterfaces sampleRequest
      = .error (.invalidNumberOfQuestions "source") ∧
    validateDevice (parseFromTable [("src", descriptorTriggerNoArgs)])
        sampleFromString sampleTypeUnify sampleInterfaces sampleRequest
      = .error (.undefinedProperty "length") :=
  ⟨rfl, rfl, rfl⟩

/-- C8: a channel of any of the three maps that has a signature and declares `args` or
`params` of another length fails its check with the error `Invalid number of arguments in
<channel>`; a submission containing such a channel is never accepted, and validation fails
with that very error when steps 1-6 pass and the channels visited before it pass their
checks (the first failure wins). Consequently, in every accepted descriptor each declared
`args` and `params` list has as many entries as the signature of its channel. -/
theorem validateDevice_args_arity {τ : Type}
    (jsonParse : String → Except String Descriptor)
    (fromString : Option String → Except String τ) (typeUnify : τ → τ → Except String τ)
    (getTypesByKinds : List String → List InterfaceRow) (req : Request) :
    (∀ kind name ch sig, ch.schema = some sig → ArgsMismatch ch sig →
      checkChannel fromString kind name ch = .error (.invalidNumberOfArguments name)) ∧
    (∀ ast0 kind name ch sig, parseAndCheckAuth jsonParse req = .ok ast0 →
      (name, ch) ∈ ast0.channels kind → ch.schema = some sig → ArgsMismatch ch sig →
      ∃ e, validateDevice jsonParse fromString typeUnify getTypesByKinds req = .error e) ∧
    (∀ ast0 pre kind name ch post sig,
      parseAndCheckAuth jsonParse req = .ok ast0 →
      checkCredentials (fullcodeFlag req) ast0 = .ok () →
      checkTypeTags ast0 = .ok () →
      ast0.channelsInOrder = pre ++ (kind, name, ch) :: post →
      (∀ c ∈ pre, checkChannel fromString c.1 c.2.1 c.2.2 = .ok ()) →
      ch.schema = some sig → ArgsMismatch ch sig →
      validateDevice jsonParse fromString typeUnify getTypesByKinds req
        = .error (.invalidNumberOfArguments name)) ∧
    (∀ ast, validateDevice jsonParse fromString typeUnify getTypesByKinds req = .ok ast →
      ∀ kind name ch sig, (name, ch) ∈ ast.channels kind → ch.schema = some sig →
        (∀ a, ch.args = some a → a.length = sig.length) ∧
        (∀ q, ch.params = some q → q.length = sig.length)) := by
  have hall : ∀ ast0 ast, checkChannels fromString ast0 = .ok ast →
      ast = ast0.withChannelDefaults ∧
      ∀ c ∈ ast0.channelsInOrder, checkChannel fromString c.1 c.2.1 c.2.2 = .ok () := by
    intro ast0 ast h
    rw [checkChannels_eq_forEachTagged] at h
    cases hf : forEachTagged (checkChannel fromString) ast0.channelsInOrder with
    | error e => rw [hf] at h; cases h
    | ok u =>
      rw [hf] at h
      simp only [Except.ok.injEq] at h
      cases u
      exact ⟨h.symm, (forEachTagged_ok_iff _ _).1 hf⟩
  refine ⟨fun kind name ch sig hsig hbad =>
    checkChannel_args_mismatch fromString kind name ch sig hsig hbad, ?_, ?_, ?_⟩
  · intro ast0 kind name ch sig hp hmem hsig hbad
    cases hv : validateDevice jsonParse fromString typeUnify getTypesByKinds req with
    | error e => exact ⟨e, rfl⟩
    | ok ast =>
      obtain ⟨ast1, hp1, hc1⟩ := validateDevice_ok_channels _ _ _ _ _ _ hv
      rw [hp] at hp1
      simp only [Except.ok.injEq] at hp1
      subst hp1
      have hok := (hall ast0 ast hc1).2 (kind, name, ch)
        ((mem_channelsInOrder ast0 kind name ch).2 hmem)
      rw [checkChannel_args_mismatch fromString kind name ch sig hsig hbad] at hok
      cases hok
  · intro ast0 pre kind name ch post sig hp hc ht hsplit hpre hsig hbad
    rw [validateDevice_after_channels jsonParse fromString typeUnify getTypesByKinds req ast0
      hp hc ht, checkChannels_eq_forEachTagged, hsplit,
      forEachTagged_first_error _ pre post kind name ch _ hpre
        (checkChannel_args_mismatch fromString kind name ch sig hsig hbad)]
  · intro ast hv kind name ch sig hmem hsig
    obtain ⟨ast0, _, hc⟩ := validateDevice_ok_channels _ _ _ _ _ _ hv
    obtain ⟨hast, hok⟩ := hall ast0 ast hc
    subst hast
    rw [withChannelDefaults_channels] at hmem
    exact checkChannel_ok_args fromString kind name ch sig hsig
      (hok (kind, name, ch) ((mem_channelsInOrder ast0 kind name ch).2 hmem))

theorem validateDevice_args_arity_witness :
    validateDevice (parseFromTable [("src", descriptorBadQueryArgs)])
        sampleFromString sampleTypeUnify sampleInterfaces sampleRequest
      = .error (.invalidNumberOfArguments "get") :=
  (validateDevice_args_arity (parseFromTable [("src", descriptorBadQueryArgs)])
      sampleFromString sampleTypeUnify sampleInterfaces sampleRequest).2.2.1
    descriptorBadQueryArgs.withDefaults
    [(.action, "set",
      { schema := some ["Boolean"], args := some ["power"], url := some "http://x/set" })]
    .query "get"
    { schema := some ["Boolean"], args := some ["power", "extra"],
      url := some "http://x/get" }
    [] ["Boolean"] rfl rfl rfl rfl
    (by
      intro c hc
      simp only [List.mem_singleton] at hc
      subst hc
      rfl)
    rfl (Or.inl ⟨["power", "extra"], rfl, by decide⟩)

/-- C9: for a full-code submission (the validator's `fullcode` flag is set) that passes steps
1-4 with auth type `basic`, validation fails with the missing-credential-params error
exactly when the descriptor's `params` lack a `username` entry or lack a `password` entry. -/
theorem validateDevice_basic_credentials {τ : Type}
    (jsonParse : String → Except String Descriptor)
    (fromString : Option String → Except String τ) (typeUnify : τ → τ → Except String τ)
    (getTypesByKinds : List String → List InterfaceRow) (req : Request) (ast : Descriptor)
    (hfull : fullcodeFlag req = true)
    (hpass : parseAndCheckAuth jsonParse req = .ok ast)
    (hbasic : ast.authType = some "basic") :
    validateDevice jsonParse fromString typeUnify getTypesByKinds req
        = .error .missingCredentialParams
      ↔ ((ast.params.getD []).lookup "username" = none ∨
          (ast.params.getD []).lookup "password" = none) := by
  have hcred := checkCredentials_eq (fullcodeFlag req) ast
  constructor
  · intro h
    by_contra hno
    rw [if_neg (fun hc => hno hc.2.2)] at hcred
    cases ht : checkTypeTags ast with
    | error e =>
      have he := checkTypeTags_error ast e ht
      subst he
      simp only [validateDevice, validateLocal, hpass, hcred, ht] at h
      cases h
    | ok u =>
      have := validateDevice_late jsonParse fromString typeUnify getTypesByKinds req ast _
        hpass hcred ht h
      cases this
  · intro hlack
    rw [if_pos ⟨hfull, hbasic, hlack⟩] at hcred
    simp only [validateDevice, validateLocal, hpass, hcred]

theorem validateDevice_basic_credentials_witness :
    validateDevice (parseFromTable [("src", descriptorBasicNoParams)])
        sampleFromString sampleTypeUnify sampleInterfaces sampleRequest
      = .error .missingCredentialParams :=
  (validateDevice_basic_credentials (parseFromTable [("src", descriptorBasicNoParams)])
      sampleFromString sampleTypeUnify sampleInterfaces sampleRequest
      descriptorBasicNoParams.withDefaults rfl rfl rfl).2 (Or.inl rfl)

/-- C10: for a submission that passes steps 1-5, validation fails with the
conflicting-type-tags error exactly when the descriptor's types list contains both
`online-account` and `data-source`, whatever the channel maps, the type parser, the unifier
and the interface lookups are. -/
theorem validateDevice_conflicting_tags {τ : Type}
    (jsonParse : String → Except String Descriptor)
    (fromString : Option String → Except String τ) (typeUnify : τ → τ → Except String τ)
    (getTypesByKinds : List String → List InterfaceRow) (req : Request) (ast : Descriptor)
    (hpass : parseAndCheckAuth jsonParse req = .ok ast)
    (hcred : checkCredentials (fullcodeFlag req) ast = .ok ()) :
    validateDevice jsonParse fromString typeUnify getTypesByKinds req
        = .error .conflictingTypeTags
      ↔ ("online-account" ∈ ast.types.getD [] ∧ "data-source" ∈ ast.types.getD []) := by
  constructor
  · intro h
    by_contra hno
    have ht := (checkTypeTags_ok_iff ast).2 hno
    have := validateDevice_late jsonParse fromString typeUnify getTypesByKinds req ast _
      hpass hcred ht h
    cases this
  · intro hboth
    have ht := (checkTypeTags_error_iff ast).2 hboth
    simp only [validateDevice, validateLocal, hpass, hcred, ht]

theorem validateDevice_conflicting_tags_witness :
    validateDevice (parseFromTable [("src", descriptorBothTags)])
        sampleFromString sampleTypeUnify sampleInterfaces sampleRequest
      = .error .conflictingTypeTags :=
  (validateDevice_conflicting_tags (parseFromTable [("src", descriptorBothTags)])
      sampleFromString sampleTypeUnify sampleInterfaces sampleRequest
      descriptorBothTags.withDefaults rfl rfl).2 ⟨by decide, by decide⟩

/-- C11: when the form lacks a name, a description, a code body or a primary kind (absent
or empty), validation fails with the missing-field error, whatever `JSON.parse`, the type
library and the interface lookup would do with the rest of the submission: the code body is
not parsed and no later step is reached. -/
theorem validateDevice_missing_field {τ : Type}
    (jsonParse : String → Except String Descriptor)
    (fromString : Option String → Except String τ) (typeUnify : τ → τ → Except String τ)
    (getTypesByKinds : List String → List InterfaceRow) (req : Request)
    (h : truthy req.body.name = false ∨ truthy req.body.description = false ∨
      truthy req.body.code = false ∨ truthy req.body.primary_kind = false) :
    validateDevice jsonParse fromString typeUnify getTypesByKinds req
      = .error .missingField := by
  have hp : parseAndCheckAuth jsonParse req = .error .missingField := by
    unfold parseAndCheckAuth
    rcases h with h | h | h | h <;> simp [h]
  simp only [validateDevice, validateLocal, hp]

theorem validateDevice_missing_field_witness :
    sampleFromString (some "not json") = .error "Invalid type not json" ∧
      parseFromTable [] "not json" = .error "Unexpected token" ∧
      validateDevice (parseFromTable []) sampleFromString sampleTypeUnify sampleInterfaces
        requestNoName = .error .missingField :=
  ⟨rfl, rfl, validateDevice_missing_field (parseFromTable []) sampleFromString
    sampleTypeUnify sampleInterfaces requestNoName (Or.inl rfl)⟩

/-- C12 (as stated, refuted): a full-code submission passes steps 1-7 and every one of its
channels declares a URL, yet step 8 fails, with the error `Missing name`: the descriptor
itself has no `name` property (the name required in step 1 is the form field). -/
theorem validateDevice_fullcode_missing_name :
    fullcodeFlag sampleRequest = true ∧
      (∃ ast0, parseAndCheckAuth (parseFromTable [("src", descriptorNoName)]) sampleRequest
          = .ok ast0 ∧
        checkCredentials (fullcodeFlag sampleRequest) ast0 = .ok () ∧
        checkTypeTags ast0 = .ok () ∧
        ∃ ast, checkChannels sampleFromString ast0 = .ok ast ∧
          (∀ c ∈ ast.channelsInOrder, truthy c.2.2.url = true) ∧
          checkImplementation sampleRequest ast = .error .missingName) ∧
      validateDevice (parseFromTable [("src", descriptorNoName)]) sampleFromString
        sampleTypeUnify sampleInterfaces sampleRequest = .error .missingName := by
  refine ⟨rfl, ⟨_, rfl, rfl, rfl, _, rfl, ?_, rfl⟩, rfl⟩
  intro c hc
  have hc' : c ∈ [(ChannelKind.action, "set",
      ({ schema := some ["Boolean"], args := some ["power"],
         url := some "http://x/set" } : Channel))] := hc
  simp only [List.mem_singleton] at hc'
  subst hc'
  rfl

/-- C12 (amended): for a full-code submission that passes steps 1-7, step 8 succeeds exactly
when the descriptor has a name, has a description and every trigger, action and query
declares a URL. It fails with `Missing name` when the descriptor has no name, with `Missing
description` when it has a name but no description, and otherwise with the
missing-channel-url error naming the first channel, in the order triggers, actions,
queries, that lacks a URL. -/
theorem validateDevice_fullcode_step8 {τ : Type}
    (jsonParse : String → Except String Descriptor)
    (fromString : Option String → Except String τ) (typeUnify : τ → τ → Except String τ)
    (getTypesByKinds : List String → List InterfaceRow) (req : Request)
    (ast0 ast : Descriptor)
    (hfull : fullcodeFlag req = true)
    (hp : parseAndCheckAuth jsonParse req = .ok ast0)
    (hc : checkCredentials (fullcodeFlag req) ast0 = .ok ())
    (ht : checkTypeTags ast0 = .ok ())
    (hch : checkChannels fromString ast0 = .ok ast) :
    (checkImplementation req ast = .ok () ↔
      truthy ast.name = true ∧ truthy ast.description = true ∧
        ∀ c ∈ ast.channelsInOrder, truthy c.2.2.url = true) ∧
    (truthy ast.name = false →
      validateDevice jsonParse fromString typeUnify getTypesByKinds req
        = .error .missingName) ∧
    (truthy ast.name = true → truthy ast.description = false →
      validateDevice jsonParse fromString typeUnify getTypesByKinds req
        = .error .missingDescription) ∧
    (truthy ast.name = true → truthy ast.description = true →
      ∀ pre kind name ch post, ast.channelsInOrder = pre ++ (kind, name, ch) :: post →
        (∀ c ∈ pre, truthy c.2.2.url = true) → truthy ch.url = false →
        validateDevice jsonParse fromString typeUnify getTypesByKinds req
          = .error (.missingUrl kind name)) := by
  have hdev := validateDevice_after_implementation jsonParse fromString typeUnify
    getTypesByKinds req ast0 ast hp hc ht hch
  have himpl := checkImplementation_fullcode req ast hfull
  refine ⟨?_, ?_, ?_, ?_⟩
  · rw [himpl]
    cases hn : truthy ast.name with
    | false => simp
    | true =>
      cases hd : truthy ast.description with
      | false => simp
      | true =>
        simp only [Bool.true_eq_false, if_false, true_and, forEachTagged_ok_iff,
          requireUrl_ok_iff]
  · intro hn
    rw [hdev, himpl, if_pos hn]
  · intro hn hd
    rw [hdev, himpl, if_neg (by simp [hn]), if_pos hd]
  · intro hn hd pre kind name ch post hsplit hpre hurl
    have hfail : requireUrl kind name ch = .error (.missingUrl kind name) := by
      simp [requireUrl, hurl]
    rw [hdev, himpl, if_neg (by simp [hn]), if_neg (by simp [hd]), hsplit,
      forEachTagged_first_error requireUrl pre post kind name ch _
        (fun c hc => (requireUrl_ok_iff c.1 c.2.1 c.2.2).2 (hpre c hc)) hfail]

theorem validateDevice_fullcode_step8_witness :
    validateDevice (parseFromTable [("src", descriptorNoUrl)]) sampleFromString
        sampleTypeUnify sampleInterfaces sampleRequest
      = .error (.missingUrl .query "get") :=
  (validateDevice_fullcode_step8 (parseFromTable [("src", descriptorNoUrl)])
      sampleFromString sampleTypeUnify sampleInterfaces sampleRequest
      descriptorNoUrl.withDefaults descriptorNoUrl.withDefaults.withChannelDefaults
      rfl rfl rfl rfl rfl).2.2.2 rfl rfl
    [(.action, "set",
      { schema := some ["Boolean"], args := some ["power"], url := some "http://x/set" })]
    .query "get" { schema := some ["Boolean"], args := some ["power"] } [] rfl
    (by
      intro c hc
      simp only [List.mem_singleton] at hc
      subst hc
      rfl)
    rfl

/-- C13: for a submission that passes steps 1-7 and is not full code, validation fails with
the missing-package error exactly when the primary kind does not start with
`org.thingpedia.builtin.` and the uploaded file is absent, has no buffer, or has an empty
buffer. In particular a kind of the builtin namespace is never rejected for a missing
package. -/
theorem validateDevice_missing_package {τ : Type}
    (jsonParse : String → Except String Descriptor)
    (fromString : Option String → Except String τ) (typeUnify : τ → τ → Except String τ)
    (getTypesByKinds : List String → List InterfaceRow) (req : Request)
    (ast0 ast : Descriptor)
    (hnot : fullcodeFlag req = false)
    (hp : parseAndCheckAuth jsonParse req = .ok ast0)
    (hc : checkCredentials (fullcodeFlag req) ast0 = .ok ())
    (ht : checkTypeTags ast0 = .ok ())
    (hch : checkChannels fromString ast0 = .ok ast) :
    validateDevice jsonParse fromString typeUnify getTypesByKinds req
        = .error .invalidZipFile
      ↔ (jsStartsWith (req.body.primary_kind.getD "") "org.thingpedia.builtin." = false ∧
          (req.file = none ∨
            ∃ f, req.file = some f ∧ (f.buffer = none ∨ f.buffer = some []))) := by
  rw [validateDevice_after_implementation jsonParse fromString typeUnify getTypesByKinds req
    ast0 ast hp hc ht hch, checkImplementation_package req ast hnot]
  constructor
  · intro h
    by_contra hno
    rw [if_neg hno] at h
    simp only at h
    cases hi : checkInterfaces fromString typeUnify getTypesByKinds ast (ast.types.getD [])
      with
    | ok u => rw [hi] at h; cases h
    | error e =>
      rw [hi] at h
      simp only [Except.error.injEq] at h
      subst h
      exact checkInterfaces_not_zip _ _ _ _ _ hi
  · intro h
    rw [if_pos h]

theorem validateDevice_missing_package_witness :
    validateDevice (parseFromTable [("src", descriptorPlain)]) sampleFromString
        sampleTypeUnify sampleInterfaces requestPackageNoFile
      = .error .invalidZipFile :=
  (validateDevice_missing_package (parseFromTable [("src", descriptorPlain)])
      sampleFromString sampleTypeUnify sampleInterfaces requestPackageNoFile
      descriptorPlain.withDefaults descriptorPlain.withDefaults.withChannelDefaults
      rfl rfl rfl rfl rfl).2 ⟨rfl, Or.inl rfl⟩

/-- C14: for a descriptor without an alias, `ensurePrimarySchema` upserts the record of the
kind. An existing record with counters `(d, a)` becomes the same record with counters
`(d + 1, a + 1)` and with the channel and metadata maps built from the descriptor; the table
keeps its length and its records with another primary key are exactly those it had. Without
a record for the kind, one record is appended, for that kind, with developer version 0,
approved version 0 and the maps of the descriptor. -/
theorem ensurePrimarySchema_upsert (store : SchemaStore) (kind : String) (ast : Descriptor)
    (hno : truthy ast.globalName = false) :
    (∀ existing, store.getByKind kind = .ok existing →
      (ensurePrimarySchema store kind ast).getByKind kind = .ok (existing.synced ast) ∧
      (existing.synced ast).id = existing.id ∧
      (existing.synced ast).kind = kind ∧
      (existing.synced ast).developer_version = existing.developer_version + 1 ∧
      (∀ a, existing.approved_version = some a →
        (existing.synced ast).approved_version = some (a + 1)) ∧
      (existing.synced ast).types = schemaTypesOf ast ∧
      (existing.synced ast).metadata = schemaMetaOf ast ∧
      (ensurePrimarySchema store kind ast).records.length = store.records.length ∧
      ∀ r : SchemaRecord, r.id ≠ existing.id →
        (r ∈ (ensurePrimarySchema store kind ast).records ↔ r ∈ store.records)) ∧
    (∀ e, store.getByKind kind = .error e →
      (ensurePrimarySchema store kind ast).records
        = store.records ++
          [{ id := store.nextId, kind := kind, developer_version := 0
             approved_version := some 0, types := schemaTypesOf ast
             metadata := schemaMetaOf ast }]) := by
  have hens : ensurePrimarySchema store kind ast
      = upsertSchema store kind (schemaTypesOf ast) (schemaMetaOf ast) := by
    simp [ensurePrimarySchema, hno]
  refine ⟨?_, ?_⟩
  · intro existing h
    have hkind := (getByKind_mem store kind existing h).2
    refine ⟨?_, rfl, hkind, rfl, ?_, rfl, rfl, ?_, ?_⟩
    · rw [hens, upsertSchema_getByKind, h]
    · intro a ha
      simp [SchemaRecord.synced, SchemaRecord.withUpdate, ha, approvedPlusOne]
    · rw [hens, upsertSchema_found store kind ast existing h]
      simp [SchemaStore.update]
    · intro r hid
      rw [hens, upsertSchema_found store kind ast existing h]
      simp only [SchemaStore.update, List.mem_map]
      constructor
      · rintro ⟨r0, hr0, hrr⟩
        by_cases h0 : r0.id = existing.id
        · rw [if_pos h0] at hrr
          exact absurd (by rw [← hrr]; exact h0) hid
        · rw [if_neg h0] at hrr
          rw [← hrr]
          exact hr0
      · intro hr
        exact ⟨r, hr, by rw [if_neg hid]⟩
  · intro e h
    rw [hens, upsertSchema_missing store kind ast e h]
    rfl

theorem ensurePrimarySchema_upsert_witness :
    (ensurePrimarySchema storeOneSchema "com.example.device" descriptorPlain).getByKind
        "com.example.device"
      = .ok { id := 0, kind := "com.example.device", developer_version := 4,
              approved_version := some 4
              types := schemaTypesOf descriptorPlain
              metadata := schemaMetaOf descriptorPlain } :=
  ((ensurePrimarySchema_upsert storeOneSchema "com.example.device" descriptorPlain rfl).1
    { id := 0, kind := "com.example.device", developer_version := 3,
      approved_version := some 3 } rfl).1

/-- C15 (as stated, refuted): the descriptor declares its own primary kind as alias; one
synchronisation takes the existing record of that kind from versions `(3, 3)` to `(5, 5)`:
the single record is upserted twice, so each counter rises by two. -/
theorem ensurePrimarySchema_alias_is_kind :
    storeOneSchema.WF ∧
      storeOneSchema.getByKind "com.example.device"
        = .ok { id := 0, kind := "com.example.device", developer_version := 3,
                approved_version := some 3 } ∧
      (ensurePrimarySchema storeOneSchema "com.example.device"
          descriptorAliasIsKind).getByKind "com.example.device"
        = .ok { id := 0, kind := "com.example.device", developer_version := 5,
                approved_version := some 5
                types := schemaTypesOf descriptorAliasIsKind
                metadata := schemaMetaOf descriptorAliasIsKind } := by
  refine ⟨⟨by decide, by decide⟩, rfl, rfl⟩

/-- C15 (amended): on a well-formed schema table and for a descriptor whose alias, if any,
differs from the primary kind, one synchronisation turns the existing record of the primary
kind with counters `(d, a)` into the record with counters `(d + 1, a + 1)`. When an alias is
declared, the record of the alias is upserted as well, from its own counters `(d', a')` to
`(d' + 1, a' + 1)`, or created at `(0, 0)`, and the two records are distinct rows. -/
theorem ensurePrimarySchema_independent (store : SchemaStore) (kind : String)
    (ast : Descriptor) (hwf : store.WF) (hne : ast.globalName ≠ some kind) :
    (∀ r : SchemaRecord, (r.synced ast).id = r.id ∧ (r.synced ast).kind = r.kind ∧
      (r.synced ast).developer_version = r.developer_version + 1 ∧
      ∀ a, r.approved_version = some a → (r.synced ast).approved_version = some (a + 1)) ∧
    (∀ existing, store.getByKind kind = .ok existing →
      (ensurePrimarySchema store kind ast).getByKind kind = .ok (existing.synced ast)) ∧
    (∀ g, ast.globalName = some g → g ≠ "" →
      (∀ existing, store.getByKind g = .ok existing →
        (ensurePrimarySchema store kind ast).getByKind g = .ok (existing.synced ast)) ∧
      (∀ e, store.getByKind g = .error e →
        ∃ id, (ensurePrimarySchema store kind ast).getByKind g
          = .ok (freshSchema id g ast)) ∧
      ∃ rk rg, (ensurePrimarySchema store kind ast).getByKind kind = .ok rk ∧
        (ensurePrimarySchema store kind ast).getByKind g = .ok rg ∧ rk.id ≠ rg.id) := by
  have hwf1 := upsertSchema_wf store hwf kind (schemaTypesOf ast) (schemaMetaOf ast)
  refine ⟨?_, ?_, ?_⟩
  · intro r
    refine ⟨rfl, rfl, rfl, ?_⟩
    intro a ha
    simp [SchemaRecord.synced, SchemaRecord.withUpdate, ha, approvedPlusOne]
  · intro existing h
    have h1 := upsertSchema_getByKind store kind ast
    rw [h] at h1
    unfold ensurePrimarySchema
    simp only []
    split
    · exact h1
    · rename_i htr
      have hg : ast.globalName.getD "" ≠ kind := by
        intro heq
        cases hgn : ast.globalName with
        | none => simp [hgn, truthy] at htr
        | some g =>
          rw [hgn] at heq
          simp only [Option.getD_some] at heq
          exact hne (by rw [hgn, heq])
      rw [upsertSchema_other _ hwf1 _ kind ast hg]
      exact h1
  · intro g hgn hg
    have htr : (!truthy ast.globalName) = false := by simp [hgn, truthy, hg]
    have hgk : g ≠ kind := fun heq => hne (by rw [hgn, heq])
    have hens : ensurePrimarySchema store kind ast
        = upsertSchema (upsertSchema store kind (schemaTypesOf ast) (schemaMetaOf ast)) g
            (schemaTypesOf ast) (schemaMetaOf ast) := by
      unfold ensurePrimarySchema
      rw [hgn] at htr
      simp only [hgn, htr, Bool.false_eq_true, if_false, Option.getD_some]
    have hother := upsertSchema_other store hwf kind g ast (fun h => hgk h.symm)
    have halias := upsertSchema_getByKind
      (upsertSchema store kind (schemaTypesOf ast) (schemaMetaOf ast)) g ast
    rw [hother] at halias
    have hprimary : (ensurePrimarySchema store kind ast).getByKind kind
        = (upsertSchema store kind (schemaTypesOf ast) (schemaMetaOf ast)).getByKind kind := by
      rw [hens, upsertSchema_other _ hwf1 g kind ast hgk]
    refine ⟨?_, ?_, ?_⟩
    · intro existing h
      rw [hens, halias, h]
    · intro e h
      rw [hens, halias, h]
      exact ⟨_, rfl⟩
    · have hwf2 := upsertSchema_wf _ hwf1 g (schemaTypesOf ast) (schemaMetaOf ast)
      rw [← hens] at hwf2
      have hk : ∃ rk, (ensurePrimarySchema store kind ast).getByKind kind = .ok rk := by
        rw [hprimary, upsertSchema_getByKind]
        cases store.getByKind kind with
        | ok r => exact ⟨_, rfl⟩
        | error e => exact ⟨_, rfl⟩
      have hga : ∃ rg, (ensurePrimarySchema store kind ast).getByKind g = .ok rg := by
        rw [hens, halias]
        cases store.getByKind g with
        | ok r => exact ⟨_, rfl⟩
        | error e => exact ⟨_, rfl⟩
      obtain ⟨rk, hrk⟩ := hk
      obtain ⟨rg, hrg⟩ := hga
      refine ⟨rk, rg, hrk, hrg, ?_⟩
      intro hid
      obtain ⟨hmk, hkk⟩ := getByKind_mem _ _ _ hrk
      obtain ⟨hmg, hkg⟩ := getByKind_mem _ _ _ hrg
      have := hwf2.eq_of_id hmk hmg hid
      rw [this, hkg] at hkk
      exact hgk hkk

theorem ensurePrimarySchema_independent_witness :
    (ensurePrimarySchema storeTwoSchemas "com.example.device" descriptorWithAlias).getByKind
        "myalias"
      = .ok { id := 1, kind := "myalias", developer_version := 8, approved_version := some 3
              types := schemaTypesOf descriptorWithAlias
              metadata := schemaMetaOf descriptorWithAlias } :=
  ((ensurePrimarySchema_independent storeTwoSchemas "com.example.device" descriptorWithAlias
      ⟨by decide, by decide⟩ (by decide)).2.2 "myalias" rfl (by decide)).1
    { id := 1, kind := "myalias", developer_version := 7, approved_version := some 2 } rfl

/-- C16: the version invariant. On a well-formed schema table, every record whose approved
version is unset or at most its developer version has, after any synchronisation by
`ensurePrimarySchema`, a developer version at least as large as before and an approved
version at most its new developer version. The same holds for the device record after a
successful update by `doCreateOrUpdate`, and the record made by a successful create has an
approved version that is unset or at most its developer version. -/
theorem version_invariant {τ : Type} (env : Env τ) :
    (∀ (store : SchemaStore) (kind : String) (ast : Descriptor), store.WF →
      ∀ r ∈ store.records, r.VersionsOk →
        ∃ r' ∈ (ensurePrimarySchema store kind ast).records,
          r'.id = r.id ∧ r.developer_version ≤ r'.developer_version ∧ r'.VersionsOk) ∧
    (∀ (id : Option Nat) (req : Request) (db : Db) (loc : String) (old : DeviceRecord),
      (doCreateOrUpdate env id false req db).response = .redirect loc →
      db.devices.get id = .ok old → old.VersionsOk →
      ∃ new, (doCreateOrUpdate env id false req db).db.devices.get id = .ok new ∧
        old.developer_version ≤ new.developer_version ∧ new.VersionsOk) ∧
    (∀ (id : Option Nat) (req : Request) (db : Db) (loc : String),
      (doCreateOrUpdate env id true req db).response = .redirect loc →
      ∃ new, (doCreateOrUpdate env id true req db).db.devices.records
          = db.devices.records ++ [new] ∧ new.VersionsOk) := by
  refine ⟨?_, ?_, ?_⟩
  · intro store kind ast hwf r hr hok
    obtain ⟨r1, hr1, hid1, hle1, hok1⟩ := upsertSchema_invariant store hwf kind ast r hr hok
    unfold ensurePrimarySchema
    simp only []
    split
    · exact ⟨r1, hr1, hid1, hle1, hok1⟩
    · obtain ⟨r2, hr2, hid2, hle2, hok2⟩ := upsertSchema_invariant _
        (upsertSchema_wf store hwf kind (schemaTypesOf ast) (schemaMetaOf ast))
        (ast.globalName.getD "") ast r1 hr1 hok1
      exact ⟨r2, hr2, hid2.trans hid1, Nat.le_trans hle1 hle2, hok2⟩
  · intro id req db loc old hresp hold hok
    obtain ⟨ast, db2, devices, obj, scheduled, _, _, hu, _, hout⟩ :=
      doCreateOrUpdate_success env id false req db loc hresp
    rw [upsertDevice_update env id req ast db.devices old hold] at hu
    split at hu
    · cases hu
    · simp only [Except.ok.injEq, Prod.mk.injEq] at hu
      obtain ⟨hdev, hobj⟩ := hu
      rw [hout]
      simp only []
      rw [← hdev, DeviceStore.get_update _ _ _ _ _ _ old hold]
      refine ⟨_, rfl, ?_, ?_⟩
      · simp [updateFields]
      · intro a ha
        simp only [updateFields] at ha ⊢
        split at ha
        · simp only [Option.getD_some, Option.some.injEq] at ha
          omega
        · simp only [Option.getD_none] at ha
          have := hok a ha
          omega
  · intro id req db loc hresp
    obtain ⟨ast, db2, devices, obj, scheduled, _, _, hu, _, hout⟩ :=
      doCreateOrUpdate_success env id true req db loc hresp
    simp only [upsertDevice, if_true, Except.ok.injEq, Prod.mk.injEq] at hu
    obtain ⟨hdev, hobj⟩ := hu
    rw [hout]
    simp only []
    rw [← hdev]
    refine ⟨_, rfl, ?_⟩
    intro a ha
    simp only [createFields] at ha ⊢
    split at ha
    · simp at ha
    · simp only [Option.getD_some, Option.some.injEq] at ha
      omega

theorem version_invariant_witness :
    ∃ r' ∈ (ensurePrimarySchema storeTwoSchemas "com.example.device"
        descriptorWithAlias).records,
      r'.id = 1 ∧ 7 ≤ r'.developer_version ∧ r'.VersionsOk :=
  (version_invariant (sampleEnv [])).1 storeTwoSchemas "com.example.device"
    descriptorWithAlias ⟨by decide, by decide⟩
    { id := 1, kind := "myalias", developer_version := 7, approved_version := some 2 }
    (by decide)
    (by
      intro a ha
      have ha' : some 2 = some a := ha
      cases ha'
      exact (by decide : 2 ≤ 7))

/-- C17: on the create path, for a valid submission, `model.create` is handed one new device
record: its owner is the requester's organization and its developer version is 0; its
approved version is unset when the requester's tier is below trusted developer or approval
was not requested, and it is 0 exactly when the tier is at least trusted developer and
approval was requested. When the packaging step passes, the request succeeds and the device
table is the former one with this record added. -/
theorem doCreateOrUpdate_create_record {τ : Type} (env : Env τ) (id : Option Nat)
    (req : Request) (db : Db) (ast : Descriptor)
    (hvalid : validateDevice env.jsonParse env.fromString env.typeUnify env.getTypesByKinds
      req = .ok ast) :
    ∃ (new : DeviceRecord) (devices : DeviceStore),
      upsertDevice env id true req ast db.devices = .ok (devices, createFields env req ast) ∧
      devices.records = db.devices.records ++ [new] ∧
      new.owner = req.user.developer_org ∧
      new.developer_version = 0 ∧
      ((req.user.developer_status < env.trustedDeveloper ∨ approveFlag req = false) →
        new.approved_version = none) ∧
      (new.approved_version = some 0 ↔
        (env.trustedDeveloper ≤ req.user.developer_status ∧ approveFlag req = true)) ∧
      (∀ scheduled, packageStep env req ast (createFields env req ast) = .ok scheduled →
        (doCreateOrUpdate env id true req db).db.devices = devices ∧
        (doCreateOrUpdate env id true req db).response
          = .redirect ("/thingpedia/devices/by-id/" ++ req.body.primary_kind.getD "")) := by
  obtain ⟨db2, _, _, hbody⟩ := transactionBody_valid env id true req db ast hvalid
  have hkind := validateDevice_ok_kind _ _ _ _ _ _ hvalid
  have hu : upsertDevice env id true req ast db.devices
      = .ok (db.devices.create (createFields env req ast) (ast.types.getD [])
          (ast.child_types.getD []) ast, createFields env req ast) := by
    simp [upsertDevice]
  refine ⟨_, _, hu, rfl, rfl, rfl, ?_, ?_, ?_⟩
  · intro h
    have hc : (decide (req.user.developer_status < env.trustedDeveloper)
        || !approveFlag req) = true := by
      rcases h with h | h
      · simp [h]
      · simp [h]
    simp [createFields, hc]
  · by_cases h1 : req.user.developer_status < env.trustedDeveloper
    · simp [createFields, h1]
    · cases h2 : approveFlag req with
      | false => simp [createFields, h1, h2]
      | true =>
        simp [createFields, h1, h2]
        omega
  · intro scheduled hpkg
    have hk : (createFields env req ast).primary_kind ≠ "" := hkind
    rw [doCreateOrUpdate_eq, hbody]
    simp only [hu, hpkg, hk, ne_eq, not_false_eq_true, if_true, true_and]
    rfl

theorem doCreateOrUpdate_create_record_witness :
    ∃ (new : DeviceRecord) (devices : DeviceStore),
      upsertDevice (sampleEnv [("src", descriptorPlain)]) none true requestOrdinaryApprove
          descriptorPlain.withDefaults.withChannelDefaults sampleDb.devices
        = .ok (devices, createFields (sampleEnv [("src", descriptorPlain)])
            requestOrdinaryApprove descriptorPlain.withDefaults.withChannelDefaults) ∧
      devices.records = sampleDb.devices.records ++ [new] ∧
      new.owner = 5 ∧ new.developer_version = 0 ∧
      ((requestOrdinaryApprove.user.developer_status
            < (sampleEnv [("src", descriptorPlain)]).trustedDeveloper ∨
          approveFlag requestOrdinaryApprove = false) → new.approved_version = none) ∧
      (new.approved_version = some 0 ↔
        ((sampleEnv [("src", descriptorPlain)]).trustedDeveloper
            ≤ requestOrdinaryApprove.user.developer_status ∧
          approveFlag requestOrdinaryApprove = true)) ∧
      (∀ scheduled,
        packageStep (sampleEnv [("src", descriptorPlain)]) requestOrdinaryApprove
            descriptorPlain.withDefaults.withChannelDefaults
            (createFields (sampleEnv [("src", descriptorPlain)]) requestOrdinaryApprove
              descriptorPlain.withDefaults.withChannelDefaults) = .ok scheduled →
        (doCreateOrUpdate (sampleEnv [("src", descriptorPlain)]) none true
            requestOrdinaryApprove sampleDb).db.devices = devices ∧
        (doCreateOrUpdate (sampleEnv [("src", descriptorPlain)]) none true
            requestOrdinaryApprove sampleDb).response
          = .redirect ("/thingpedia/devices/by-id/"
              ++ requestOrdinaryApprove.body.primary_kind.getD "")) :=
  doCreateOrUpdate_create_record (sampleEnv [("src", descriptorPlain)]) none
    requestOrdinaryApprove sampleDb descriptorPlain.withDefaults.withChannelDefaults rfl

/-- C18: on the update path, for a valid submission by an authorized requester (the owning
organization, or administrator tier) on an existing device record with owner `o` and
developer version `d`: the object written by `model.update` keeps owner `o` and carries
developer version `d + 1`; it carries approved version `d + 1` exactly when the tier is at
least trusted developer and approval was requested, and otherwise carries no approved
version. When the packaging step passes, the request commits and the stored record has
owner `o`, developer version `d + 1`, and approved version `d + 1` in the first case, its
prior approved version in the second. -/
theorem doCreateOrUpdate_update_record {τ : Type} (env : Env τ) (id : Option Nat)
    (req : Request) (db : Db) (ast : Descriptor) (old : DeviceRecord)
    (hvalid : validateDevice env.jsonParse env.fromString env.typeUnify env.getTypesByKinds
      req = .ok ast)
    (hold : db.devices.get id = .ok old)
    (hauth : old.owner = req.user.developer_org ∨ env.admin ≤ req.user.developer_status) :
    upsertDevice env id false req ast db.devices
        = .ok (db.devices.update id (updateFields env req ast old) (ast.types.getD [])
            (ast.child_types.getD []) ast, updateFields env req ast old) ∧
      (updateFields env req ast old).owner = old.owner ∧
      (updateFields env req ast old).developer_version = old.developer_version + 1 ∧
      ((updateFields env req ast old).approved_version
          = some (some (old.developer_version + 1)) ↔
        (env.trustedDeveloper ≤ req.user.developer_status ∧ approveFlag req = true)) ∧
      (¬ (env.trustedDeveloper ≤ req.user.developer_status ∧ approveFlag req = true) →
        (updateFields env req ast old).approved_version = none) ∧
      ∀ scheduled, packageStep env req ast (updateFields env req ast old) = .ok scheduled →
      ∃ new, (doCreateOrUpdate env id false req db).db.devices.get id = .ok new ∧
        new.owner = old.owner ∧
        new.developer_version = old.developer_version + 1 ∧
        ((env.trustedDeveloper ≤ req.user.developer_status ∧ approveFlag req = true) →
          new.approved_version = some (old.developer_version + 1)) ∧
        (¬ (env.trustedDeveloper ≤ req.user.developer_status ∧ approveFlag req = true) →
          new.approved_version = old.approved_version) := by
  obtain ⟨db2, _, _, hbody⟩ := transactionBody_valid env id false req db ast hvalid
  have hu := upsertDevice_update env id req ast db.devices old hold
  rw [if_neg (by
    rintro ⟨h1, h2⟩
    rcases hauth with h | h
    · exact h1 h
    · omega)] at hu
  have hcond : (decide (req.user.developer_status ≥ env.trustedDeveloper) && approveFlag req)
      = true ↔ (env.trustedDeveloper ≤ req.user.developer_status ∧ approveFlag req = true) :=
    by simp
  refine ⟨hu, rfl, rfl, ?_, ?_, ?_⟩
  · by_cases hc : env.trustedDeveloper ≤ req.user.developer_status ∧ approveFlag req = true
    · simp [updateFields, hcond.2 hc, hc]
    · have hno : ¬ ((decide (req.user.developer_status ≥ env.trustedDeveloper)
          && approveFlag req) = true) := fun h => hc (hcond.1 h)
      simp only [updateFields, hno, if_false, hc, iff_false]
      intro h
      cases h
  · intro hc
    have hno : ¬ ((decide (req.user.developer_status ≥ env.trustedDeveloper)
        && approveFlag req) = true) := fun h => hc (hcond.1 h)
    simp only [updateFields, hno, Bool.false_eq_true, if_false]
  · intro scheduled hpkg
    rw [doCreateOrUpdate_eq, hbody]
    simp only [hu, hpkg]
    rw [DeviceStore.get_update _ _ _ _ _ _ old hold]
    refine ⟨_, rfl, rfl, rfl, ?_, ?_⟩
    · intro hc
      simp only [updateFields, hcond.2 hc, if_true, Option.getD_some]
    · intro hc
      have hno : ¬ ((decide (req.user.developer_status ≥ env.trustedDeveloper)
          && approveFlag req) = true) := fun h => hc (hcond.1 h)
      simp only [updateFields, hno, Bool.false_eq_true, if_false, Option.getD_none]

theorem doCreateOrUpdate_update_record_witness :
    ∃ new, (doCreateOrUpdate (sampleEnv [("src", descriptorPlain)]) (some 0) false
          requestTrustedApprove sampleDb).db.devices.get (some 0) = .ok new ∧
      new.owner = 5 ∧ new.developer_version = 3 + 1 ∧
      (((sampleEnv [("src", descriptorPlain)]).trustedDeveloper
            ≤ requestTrustedApprove.user.developer_status ∧
          approveFlag requestTrustedApprove = true) →
        new.approved_version = some (3 + 1)) ∧
      (¬ ((sampleEnv [("src", descriptorPlain)]).trustedDeveloper
            ≤ requestTrustedApprove.user.developer_status ∧
          approveFlag requestTrustedApprove = true) →
        new.approved_version = some 2) :=
  (doCreateOrUpdate_update_record (sampleEnv [("src", descriptorPlain)]) (some 0)
    requestTrustedApprove sampleDb descriptorPlain.withDefaults.withChannelDefaults
    { id := 0, primary_kind := "com.example.device", owner := 5, developer_version := 3,
      approved_version := some 2 }
    rfl rfl (Or.inl rfl)).2.2.2.2.2 [] rfl

/-- C19: on the update path, for a valid submission on an existing device record, the request
fails with the not-authorized error exactly when the record's owner differs from the
requester's organization and the requester's tier is below administrator; and when it does,
the whole persisted state (device table, schema table, example table) is the one before the
request and nothing is scheduled. -/
theorem doCreateOrUpdate_not_authorized {τ : Type} (env : Env τ) (id : Option Nat)
    (req : Request) (db : Db) (ast : Descriptor) (old : DeviceRecord)
    (hvalid : validateDevice env.jsonParse env.fromString env.typeUnify env.getTypesByKinds
      req = .ok ast)
    (hold : db.devices.get id = .ok old) :
    ((doCreateOrUpdate env id false req db).response = .errorPage .notAuthorized ↔
      (old.owner ≠ req.user.developer_org ∧ req.user.developer_status < env.admin)) ∧
    ((old.owner ≠ req.user.developer_org ∧ req.user.developer_status < env.admin) →
      doCreateOrUpdate env id false req db
        = { db := db, response := .errorPage .notAuthorized, scheduled := [] }) := by
  obtain ⟨db2, _, _, hbody⟩ := transactionBody_valid env id false req db ast hvalid
  have hu := upsertDevice_update env id req ast db.devices old hold
  have hfail : (old.owner ≠ req.user.developer_org ∧ req.user.developer_status < env.admin) →
      doCreateOrUpdate env id false req db
        = { db := db, response := .errorPage .notAuthorized, scheduled := [] } := by
    intro hc
    rw [if_pos hc] at hu
    rw [doCreateOrUpdate_eq, hbody]
    simp only [hu]
  refine ⟨⟨?_, fun hc => by rw [hfail hc]⟩, hfail⟩
  intro hresp
  by_contra hc
  rw [if_neg hc] at hu
  rw [doCreateOrUpdate_eq, hbody] at hresp
  simp only [hu] at hresp
  cases hp : packageStep env req ast (updateFields env req ast old) with
  | error e =>
    rw [hp] at hresp
    simp only [Response.errorPage.injEq] at hresp
    rw [hresp] at hp
    exact packageStep_not_authorization env req ast _ hp
  | ok scheduled =>
    rw [hp] at hresp
    simp only at hresp
    split at hresp <;> cases hresp

theorem doCreateOrUpdate_not_authorized_witness :
    doCreateOrUpdate (sampleEnv [("src", descriptorPlain)]) (some 0) false requestStranger
        sampleDb
      = { db := sampleDb, response := .errorPage .notAuthorized, scheduled := [] } :=
  (doCreateOrUpdate_not_authorized (sampleEnv [("src", descriptorPlain)]) (some 0)
    requestStranger sampleDb descriptorPlain.withDefaults.withChannelDefaults
    { id := 0, primary_kind := "com.example.device", owner := 5, developer_version := 3,
      approved_version := some 2 }
    rfl rfl).2 ⟨by decide, by decide⟩

/-- C20: when `validateDevice` fails, `doCreateOrUpdate` renders the edit form with the error
and writes nothing: the persisted state (schema table, example table, device table) is the
one before the request and no packaging is scheduled. -/
theorem doCreateOrUpdate_invalid {τ : Type} (env : Env τ) (id : Option Nat) (create : Bool)
    (req : Request) (db : Db) (e : UploadError)
    (h : validateDevice env.jsonParse env.fromString env.typeUnify env.getTypesByKinds req
      = .error e) :
    doCreateOrUpdate env id create req db
      = { db := db, response := .form e, scheduled := [] } := by
  rw [doCreateOrUpdate_eq]
  simp only [transactionBody, h]

theorem doCreateOrUpdate_invalid_witness :
    doCreateOrUpdate (sampleEnv [("src", descriptorBothTags)]) none true
        requestOrdinaryApprove sampleDb
      = { db := sampleDb, response := .form .conflictingTypeTags, scheduled := [] } :=
  doCreateOrUpdate_invalid (sampleEnv [("src", descriptorBothTags)]) none true
    requestOrdinaryApprove sampleDb .conflictingTypeTags rfl

/-- C22: for a descriptor with the alias `g` and a schema id, whenever the generator
returns, its base records are, action after action and template after template, one record
per template of every action whose `examples` is a list, with `is_base` true, the template
as utterance, the given schema id and the invocation `tt:<g>.<action>` without arguments.
Triggers and queries contribute nothing. When the expander returns no variants, these are
all the records, so their number is the total number of action templates. For a validated
descriptor the generator does return. -/
theorem generateAllExamples_base {τ : Type} (env : Env τ) (ast : Descriptor) (g : String)
    (schemaId : Nat) (halias : ast.globalName = some g) :
    (∀ name ex, (baseRecord g schemaId name ex).is_base = true ∧
      (baseRecord g schemaId name ex).utterance = ex ∧
      (baseRecord g schemaId name ex).schema_id = schemaId ∧
      (baseRecord g schemaId name ex).target_json
        = { name := "tt:" ++ g ++ "." ++ name, args := [] }) ∧
    (∀ records, generateAllExamples env ast schemaId = .ok records →
      records.filter (fun r => r.is_base) = baseAll g schemaId (ast.actions.getD []) ∧
      ((∀ l a, env.expandExamples l a = .ok []) →
        records = baseAll g schemaId (ast.actions.getD []) ∧
        records.length = templateCount (ast.actions.getD []))) ∧
    (∀ t q, generateAllExamples env { ast with triggers := t, queries := q } schemaId
      = generateAllExamples env ast schemaId) ∧
    (∀ req, validateDevice env.jsonParse env.fromString env.typeUnify env.getTypesByKinds req
        = .ok ast →
      ∃ records, generateAllExamples env ast schemaId = .ok records) := by
  refine ⟨fun name ex => ⟨rfl, rfl, rfl, rfl⟩, ?_, fun t q => rfl, ?_⟩
  · intro records h
    simp only [generateAllExamples, halias, Option.getD_some] at h
    obtain ⟨h1, _, h3⟩ := generateFrom_spec env g schemaId (ast.actions.getD []) records h
    refine ⟨h1, fun hnone => ⟨h3 hnone, ?_⟩⟩
    rw [h3 hnone, baseAll_length]
  · intro req hv
    exact generateFrom_ok env _ schemaId (ast.actions.getD [])
      (validateDevice_ok_actions _ _ _ _ _ _ hv)

theorem generateAllExamples_base_witness :
    generateAllExamples (sampleEnv []) descriptorWithExamples 7
        = .ok [baseRecord "myalias" 7 "set" "turn it on",
               baseRecord "myalias" 7 "set" "switch it on"] ∧
      ([baseRecord "myalias" 7 "set" "turn it on",
          baseRecord "myalias" 7 "set" "switch it on"].length
        = templateCount (descriptorWithExamples.actions.getD [])) :=
  ⟨rfl, ((generateAllExamples_base (sampleEnv []) descriptorWithExamples "myalias" 7
    rfl).2.1 _ rfl).2 (fun _ _ => rfl) |>.2⟩

/-- C23 (as stated, refuted): the expander returns two variants for the action `set`;
serialising the second raises a type error (its argument has the type `Date`), so the
expansion of `set` fails, yet the record of the first variant, pushed before the failure,
is emitted: the generator returns the two base records and one non-base record. -/
theorem generateAllExamples_partial_expansion :
    (∃ e, exampleToAction envTwoVariants "myalias" "set" [("until", .str "noon")]
        [("power", .boolean), ("until", .date)] = .error e) ∧
      generateAllExamples envTwoVariants descriptorWithExamples 7
        = .ok [baseRecord "myalias" 7 "set" "turn it on",
               baseRecord "myalias" 7 "set" "switch it on",
               { schema_id := 7, is_base := false, utterance := "turn it on now"
                 target_json :=
                   { name := "tt:myalias.set"
                     args := [{ name := "power", type := "Bool"
                                value := some (.bool true) }] } }] :=
  ⟨⟨_, rfl⟩, rfl⟩

/-- C23 (amended): for an action whose `examples` is a list and whose argument types are
built. If the expander raises, the action's records are its base records alone. If the
expander returns variants of which one fails to serialise, the action's records are its
base records followed by the records of the variants before the first failing one, and
nothing of that variant or of those after it. In both cases the generator does not fail:
the records of the actions before and after are those they have on their own. -/
theorem actionExamples_failed_expansion {τ : Type} (env : Env τ) (globalName : String)
    (schemaId : Nat) (name : String) (ch : Channel) (examples : List String)
    (argtypes : List (String × τ))
    (hex : ch.examples = some examples)
    (hargs : buildArgtypes env ch.schema ((ch.params.orElse (fun _ => ch.args)).getD []) 0 []
      = .ok argtypes) :
    ((∃ e, env.expandExamples examples argtypes = .error e) →
      actionExamples env globalName schemaId name ch
        = .ok (baseOf globalName schemaId name examples)) ∧
    (∀ good bad rest e, env.expandExamples examples argtypes = .ok (good ++ bad :: rest) →
      (∀ x ∈ good, ∃ inv,
        exampleToAction env globalName name x.assignments argtypes = .ok inv) →
      exampleToAction env globalName name bad.assignments argtypes = .error e →
      actionExamples env globalName schemaId name ch
          = .ok (baseOf globalName schemaId name examples
              ++ expandedRecords env globalName schemaId name argtypes good) ∧
        (expandedRecords env globalName schemaId name argtypes good).length
          = good.length) ∧
    (∀ pre post rpre rpost recs, generateFrom env globalName schemaId pre = .ok rpre →
      generateFrom env globalName schemaId post = .ok rpost →
      actionExamples env globalName schemaId name ch = .ok recs →
      generateFrom env globalName schemaId (pre ++ (name, ch) :: post)
        = .ok (rpre ++ (recs ++ rpost))) := by
  have hact := actionExamples_eq env globalName schemaId name ch examples argtypes hex hargs
  refine ⟨?_, ?_, ?_⟩
  · rintro ⟨e, he⟩
    rw [hact]
    simp [expandedPart, he]
  · intro good bad rest e hexp hgood hbad
    obtain ⟨h1, h2⟩ := expandedRecords_until_failure env globalName schemaId name argtypes
      good bad rest e hgood hbad
    rw [hact]
    simp only [expandedPart, hexp, h1]
    exact ⟨trivial, h2⟩
  · intro pre post rpre rpost recs hpre hpost hrecs
    rw [generateFrom_append, hpre]
    simp only [generateFrom, hrecs, hpost]

theorem actionExamples_failed_expansion_witness :
    actionExamples envTwoVariants "myalias" 7 "set"
        { schema := some ["Boolean", "Date"], args := some ["power", "until"],
          url := some "http://x/set", examples := some ["turn it on", "switch it on"] }
      = .ok (baseOf "myalias" 7 "set" ["turn it on", "switch it on"]
          ++ expandedRecords envTwoVariants "myalias" 7 "set"
              [("power", .boolean), ("until", .date)]
              [{ utterance := "turn it on now", assignments := [("power", .bool true)] }]) :=
  ((actionExamples_failed_expansion envTwoVariants "myalias" 7 "set"
      { schema := some ["Boolean", "Date"], args := some ["power", "until"],
        url := some "http://x/set", examples := some ["turn it on", "switch it on"] }
      ["turn it on", "switch it on"] [("power", .boolean), ("until", .date)] rfl rfl).2.1
    [{ utterance := "turn it on now", assignments := [("power", .bool true)] }]
    { utterance := "turn it on until noon", assignments := [("until", .str "noon")] }
    [] .typeError rfl
    (by
      intro x hx
      simp only [List.mem_singleton] at hx
      subst hx
      exact ⟨_, rfl⟩)
    rfl).1

/-- C24: for a descriptor with an alias whose schema record exists with id `s`, and whenever
the generator returns, `ensureExamples` leaves as example records of schema `s` exactly the
generated ones (the former ones are deleted, also when nothing is generated), and leaves the
records of other schemas, the schema table and the device table as they were; a second
regeneration leaves exactly its own records for `s`, so none of the first generation
survives. Without an alias, `ensureExamples` changes nothing. -/
theorem ensureExamples_replaces {τ : Type} (env : Env τ) (db : Db) (ast : Descriptor) :
    (truthy ast.globalName = false → ensureExamples env db ast = .ok db) ∧
    (∀ existing generated, truthy ast.globalName = true →
      db.schemas.getByKind (ast.globalName.getD "") = .ok existing →
      generateAllExamples env ast existing.id = .ok generated →
      ∃ db', ensureExamples env db ast = .ok db' ∧
        db'.examples.filter (fun r => r.schema_id == existing.id) = generated ∧
        db'.examples.filter (fun r => r.schema_id != existing.id)
          = db.examples.filter (fun r => r.schema_id != existing.id) ∧
        db'.schemas = db.schemas ∧ db'.devices = db.devices ∧
        ∀ ast2 generated2, truthy ast2.globalName = true →
          ast2.globalName.getD "" = ast.globalName.getD "" →
          generateAllExamples env ast2 existing.id = .ok generated2 →
          ∃ db'', ensureExamples env db' ast2 = .ok db'' ∧
            db''.examples.filter (fun r => r.schema_id == existing.id) = generated2) := by
  have key : ∀ (db : Db) (ast : Descriptor) (existing : SchemaRecord)
      (generated : List ExampleRecord), truthy ast.globalName = true →
      db.schemas.getByKind (ast.globalName.getD "") = .ok existing →
      generateAllExamples env ast existing.id = .ok generated →
      ∃ db', ensureExamples env db ast = .ok db' ∧
        db'.examples.filter (fun r => r.schema_id == existing.id) = generated ∧
        db'.examples.filter (fun r => r.schema_id != existing.id)
          = db.examples.filter (fun r => r.schema_id != existing.id) ∧
        db'.schemas = db.schemas ∧ db'.devices = db.devices := by
    intro db ast existing generated htr hfound hgen
    have hschema : ∀ r ∈ generated, r.schema_id = existing.id :=
      (generateFrom_spec env _ existing.id (ast.actions.getD []) generated hgen).2.1
    obtain ⟨f1, f2⟩ := filter_same_of_all generated existing.id hschema
    unfold ensureExamples
    simp only [htr, Bool.not_true, Bool.false_eq_true, if_false, hfound, hgen]
    split
    · refine ⟨_, rfl, ?_, ?_, rfl, rfl⟩
      · simp only [createMany, List.filter_append, deleteBySchema_filter_same, f1,
          List.nil_append]
      · simp only [createMany, List.filter_append, deleteBySchema_filter_other, f2,
          List.append_nil]
    · rename_i hlen
      have hnil : generated = [] := by
        cases generated with
        | nil => rfl
        | cons x xs => simp at hlen
      refine ⟨_, rfl, ?_, ?_, rfl, rfl⟩
      · simp only [deleteBySchema_filter_same, hnil]
      · simp only [deleteBySchema_filter_other]
  refine ⟨?_, ?_⟩
  · intro h
    simp [ensureExamples, h]
  · intro existing generated htr hfound hgen
    obtain ⟨db', h1, h2, h3, h4, h5⟩ := key db ast existing generated htr hfound hgen
    refine ⟨db', h1, h2, h3, h4, h5, ?_⟩
    intro ast2 generated2 htr2 hsame hgen2
    obtain ⟨db'', g1, g2, _, _, _⟩ := key db' ast2 existing generated2 htr2
      (by rw [hsame, h4]; exact hfound) hgen2
    exact ⟨db'', g1, g2⟩

theorem ensureExamples_replaces_witness :
    ∃ db', ensureExamples (sampleEnv []) dbWithExamples descriptorWithExamples = .ok db' ∧
      db'.examples.filter (fun r => r.schema_id == 1)
        = [baseRecord "myalias" 1 "set" "turn it on",
           baseRecord "myalias" 1 "set" "switch it on"] ∧
      db'.examples.filter (fun r => r.schema_id != 1)
        = dbWithExamples.examples.filter (fun r => r.schema_id != 1) :=
  match (ensureExamples_replaces (sampleEnv []) dbWithExamples descriptorWithExamples).2
    { id := 1, kind := "myalias", developer_version := 7, approved_version := some 2 }
    [baseRecord "myalias" 1 "set" "turn it on", baseRecord "myalias" 1 "set" "switch it on"]
    rfl rfl rfl with
  | ⟨db', h1, h2, h3, _⟩ => ⟨db', h1, h2, h3⟩

/-- C25: when every assigned name has, in the argument-type mapping, a type that passes one
of the four tests (String, Number, Measure, Boolean), `exampleToAction` returns the
invocation named `tt:<kind>.<action>` whose `args` has one entry per assigned name, in
assignment order, tagged `String`, `Number`, `Measure` or `Bool` after the type and
carrying the assigned literal, a measure carrying the first component of the assigned pair
as value and the second as unit. When every assigned name has a type and one of them passes
none of the four tests, it raises the type error of line 330. -/
theorem exampleToAction_typed {τ : Type} (env : Env τ) (kind actionName : String)
    (assignments : List (String × Value)) (argtypes : List (String × τ)) :
    ((∀ e ∈ assignments, ∃ t tag, argtypes.lookup e.1 = some t ∧ tagOf env t = some tag) →
      exampleToAction env kind actionName assignments argtypes
          = .ok { name := "tt:" ++ kind ++ "." ++ actionName
                  args := assignments.map
                    (fun e => argOf e.1 (tagFor env argtypes e.1) e.2) } ∧
        (assignments.map (fun e => argOf e.1 (tagFor env argtypes e.1) e.2)).length
          = assignments.length) ∧
    (∀ name a b, argOf name "Measure" (.pair a b)
      = { name := name, type := "Measure", value := some a, unit := some b }) ∧
    (∀ name tag v, tag ≠ "Measure" →
      argOf name tag v = { name := name, type := tag, value := some v }) ∧
    (∀ t tag, tagOf env t = some tag →
      (tag = "String" ∧ env.isString t = true) ∨
      (tag = "Number" ∧ env.isNumber t = true) ∨
      (tag = "Measure" ∧ env.isMeasure t = true) ∨
      (tag = "Bool" ∧ env.isBoolean t = true)) ∧
    ((∀ e ∈ assignments, ∃ t, argtypes.lookup e.1 = some t) →
      (∃ e ∈ assignments, ∃ t, argtypes.lookup e.1 = some t ∧ tagOf env t = none) →
      exampleToAction env kind actionName assignments argtypes = .error .typeError) := by
  refine ⟨?_, ?_, ?_, ?_, ?_⟩
  · intro h
    refine ⟨?_, by simp⟩
    simp only [exampleToAction, exampleArgs_typed env argtypes assignments h]
  · intro name a b
    simp [argOf, Value.at0, Value.at1]
  · intro name tag v h
    simp [argOf, h]
  · intro t tag h
    unfold tagOf at h
    by_cases h1 : env.isString t = true
    · simp only [h1, if_true, Option.some.injEq] at h
      exact Or.inl ⟨h.symm, h1⟩
    · by_cases h2 : env.isNumber t = true
      · simp only [h1, h2, Bool.false_eq_true, if_true, if_false, Option.some.injEq] at h
        exact Or.inr (Or.inl ⟨h.symm, h2⟩)
      · by_cases h3 : env.isMeasure t = true
        · simp only [h1, h2, h3, Bool.false_eq_true, if_true, if_false, Option.some.injEq] at h
          exact Or.inr (Or.inr (Or.inl ⟨h.symm, h3⟩))
        · by_cases h4 : env.isBoolean t = true
          · simp only [h1, h2, h3, h4, Bool.false_eq_true, if_true, if_false, Option.some.injEq] at h
            exact Or.inr (Or.inr (Or.inr ⟨h.symm, h4⟩))
          · simp [h1, h2, h3, h4] at h
  · intro hall hbad
    simp only [exampleToAction, exampleArgs_other_type env argtypes assignments hall hbad]

theorem exampleToAction_typed_witness :
    exampleToAction (sampleEnv []) "myalias" "heat"
        [("level", .pair (.num 21) (.str "C")), ("on", .bool true)]
        [("on", .boolean), ("level", .measure)]
      = .ok { name := "tt:myalias.heat"
              args := [{ name := "level", type := "Measure", value := some (.num 21)
                         unit := some (.str "C") },
                       { name := "on", type := "Bool", value := some (.bool true) }] } :=
  ((exampleToAction_typed (sampleEnv []) "myalias" "heat"
      [("level", .pair (.num 21) (.str "C")), ("on", .bool true)]
      [("on", .boolean), ("level", .measure)]).1
    (by
      intro e he
      simp only [List.mem_cons, List.mem_singleton, List.not_mem_nil, or_false] at he
      rcases he with h | h
      · subst h
        exact ⟨.measure, "Measure", rfl, rfl⟩
      · subst h
        exact ⟨.boolean, "Bool", rfl, rfl⟩)).1

/-- C26: the flag `fullcode` is the negation of the form field `fullcode`: it is set exactly
when the field is absent or empty. The validator reads the field through this flag only
(two requests that differ in the field but not in its truthiness validate alike), and the
object handed to `model.create` or `model.update` carries the same flag. -/
theorem fullcode_flag {τ : Type} (env : Env τ) (req : Request) :
    (fullcodeFlag req = !truthy req.body.fullcode) ∧
    (fullcodeFlag req = true ↔ (req.body.fullcode = none ∨ req.body.fullcode = some "")) ∧
    (∀ f, truthy f = truthy req.body.fullcode →
      validateDevice env.jsonParse env.fromString env.typeUnify env.getTypesByKinds
          { req with body := { req.body with fullcode := f } }
        = validateDevice env.jsonParse env.fromString env.typeUnify env.getTypesByKinds
          req) ∧
    (∀ ast, (createFields env req ast).fullcode = fullcodeFlag req) ∧
    (∀ ast old, (updateFields env req ast old).fullcode = fullcodeFlag req) ∧
    (∀ id create ast devices devices' obj,
      upsertDevice env id create req ast devices = .ok (devices', obj) →
      obj.fullcode = fullcodeFlag req) := by
  refine ⟨rfl, ?_, ?_, fun _ => rfl, fun _ _ => rfl, ?_⟩
  · unfold fullcodeFlag
    cases h : req.body.fullcode with
    | none => simp [truthy]
    | some f => simp [truthy]
  · intro f hf
    simp only [validateDevice, validateLocal, parseAndCheckAuth, checkImplementation,
      fullcodeFlag, hf]
  · intro id create ast devices devices' obj h
    exact (upsertDevice_fields env id create req ast devices devices' obj h).1

theorem fullcode_flag_witness :
    fullcodeFlag requestPackage = false ∧
      validateDevice (sampleEnv [("src", descriptorPlain)]).jsonParse
          (sampleEnv [("src", descriptorPlain)]).fromString
          (sampleEnv [("src", descriptorPlain)]).typeUnify
          (sampleEnv [("src", descriptorPlain)]).getTypesByKinds
          { requestPackage with body := { requestPackage.body with fullcode := some "yes" } }
        = validateDevice (sampleEnv [("src", descriptorPlain)]).jsonParse
          (sampleEnv [("src", descriptorPlain)]).fromString
          (sampleEnv [("src", descriptorPlain)]).typeUnify
          (sampleEnv [("src", descriptorPlain)]).getTypesByKinds requestPackage :=
  ⟨rfl, (fullcode_flag (sampleEnv [("src", descriptorPlain)]) requestPackage).2.2.1
    (some "yes") rfl⟩

/-- C21 (as stated, refuted): a submission that is neither full code nor builtin passes
validation, and its archive has no `package.json`. The failure is raised inside the
transaction: the error page is reported and the persisted state is the one before the
request, although the transaction had written a new version of the schema record. -/
theorem doCreateOrUpdate_manifest_rolls_back :
    fullcodeFlag requestPackage = false ∧
      validateDevice (envNoManifest [("src", descriptorPlain)]).jsonParse
        (envNoManifest [("src", descriptorPlain)]).fromString
        (envNoManifest [("src", descriptorPlain)]).typeUnify
        (envNoManifest [("src", descriptorPlain)]).getTypesByKinds requestPackage
        = .ok descriptorPlain.withDefaults.withChannelDefaults ∧
      ensurePrimarySchema sampleDb.schemas "com.example.device"
        descriptorPlain.withDefaults.withChannelDefaults ≠ sampleDb.schemas ∧
      doCreateOrUpdate (envNoManifest [("src", descriptorPlain)]) none true requestPackage
        sampleDb
        = { db := sampleDb, response := .errorPage .packageJsonMissing, scheduled := [] } := by
  refine ⟨rfl, rfl, by decide, rfl⟩

/-- C21 (amended): for a submission that is neither full code nor builtin, passes validation
and passes the device step, and whose archive has no `package.json` or a `package.json`
without a name or without an entry point: the failure is raised inside the unit of work,
before it commits. The error page is reported, the persisted state (schema, example and
device records) is the one before the request, and no upload is scheduled. -/
theorem doCreateOrUpdate_manifest_failure {τ : Type} (env : Env τ) (id : Option Nat)
    (create : Bool) (req : Request) (db : Db) (ast : Descriptor) (devices : DeviceStore)
    (obj : DeviceFields) (file : UploadedFile) (zipFile : Zip)
    (hvalid : validateDevice env.jsonParse env.fromString env.typeUnify env.getTypesByKinds
      req = .ok ast)
    (hnot : fullcodeFlag req = false)
    (hkind : jsStartsWith (req.body.primary_kind.getD "") "org.thingpedia.builtin." = false)
    (hup : upsertDevice env id create req ast db.devices = .ok (devices, obj))
    (hfile : req.file = some file) (hzip : env.openZip file.buffer = .ok zipFile) :
    (zipFile.packageJson = none →
      doCreateOrUpdate env id create req db
        = { db := db, response := .errorPage .packageJsonMissing, scheduled := [] }) ∧
    (∀ text parsed, zipFile.packageJson = some text → env.parseManifest text = .ok parsed →
      (truthy parsed.name = false ∨ truthy parsed.main = false) →
      doCreateOrUpdate env id create req db
        = { db := db, response := .errorPage .invalidPackageJson, scheduled := [] }) := by
  obtain ⟨db2, _, _, hbody⟩ := transactionBody_valid env id create req db ast hvalid
  obtain ⟨hf, hk⟩ := upsertDevice_fields env id create req ast db.devices devices obj hup
  have hgate : (!obj.fullcode && !jsStartsWith obj.primary_kind "org.thingpedia.builtin.")
      = true := by
    rw [hf, hk, hnot, hkind]
    rfl
  refine ⟨?_, ?_⟩
  · intro hnone
    have hp : packageStep env req ast obj = .error .packageJsonMissing := by
      simp only [packageStep, hgate, if_true, hfile, hzip, hnone]
    rw [doCreateOrUpdate_eq, hbody]
    simp only [hup, hp]
  · intro text parsed hsome hparse hbad
    have hcond : (!truthy parsed.name || !truthy parsed.main) = true := by
      rcases hbad with h | h
      · simp [h]
      · simp [h]
    have hp : packageStep env req ast obj = .error .invalidPackageJson := by
      simp only [packageStep, hgate, if_true, hfile, hzip, hsome, hparse, hcond]
    rw [doCreateOrUpdate_eq, hbody]
    simp only [hup, hp]

theorem doCreateOrUpdate_manifest_failure_witness :
    doCreateOrUpdate (envNoManifest [("src", descriptorPlain)]) (some 0) false requestPackage
        sampleDb
      = { db := sampleDb, response := .errorPage .packageJsonMissing, scheduled := [] } :=
  (doCreateOrUpdate_manifest_failure (envNoManifest [("src", descriptorPlain)]) (some 0) false
    requestPackage sampleDb descriptorPlain.withDefaults.withChannelDefaults
    (sampleDb.devices.update (some 0)
      (updateFields (envNoManifest [("src", descriptorPlain)]) requestPackage
        descriptorPlain.withDefaults.withChannelDefaults
        { id := 0, primary_kind := "com.example.device", owner := 5, developer_version := 3,
          approved_version := some 2 })
      [] [] descriptorPlain.withDefaults.withChannelDefaults)
    (updateFields (envNoManifest [("src", descriptorPlain)]) requestPackage
      descriptorPlain.withDefaults.withChannelDefaults
      { id := 0, primary_kind := "com.example.device", owner := 5, developer_version := 3,
        approved_version := some 2 })
    { buffer := some [80, 75, 3] } {} rfl rfl rfl rfl rfl rfl).1 rfl

end ThingpediaUpload
